import Mathlib

/-!
Verification of the NL-to-UML pipeline core (`src/nltouml`).

The repository's core operates on JSON-like Python dictionaries.  We embed
those documents as the inductive type `Json` below (numbers are modelled as
integers; none of the verified claims involves float-specific behaviour).
Python dictionaries are modelled as association lists (`Obj`); the helper
functions `objGet?` / `objSet` / `objPopAll` mirror Python's `d.get`,
`d[k] = v` and `d.pop(k)` (lookup finds the first binding, assignment
replaces the first binding in place, pop deletes the key).  Real Python
dictionaries never hold a key twice, so on documents that actually arise
these operations agree with Python's.

Python functions that mutate their arguments in place are translated by
threading the mutated object through the computation; a function's
"argument after the call" is then an explicit component of the translation
(see `normalizeIrT`, `applyIrPatchT`).  Statements that can raise a Python
exception (`TypeError` from iterating a non-iterable, `PipelineError`, …)
are translated into `Except Err` / `Option Err` values.
-/

namespace NLtoUML

/-- JSON-like Python value (dictionaries as association lists, numbers as
integers). -/
inductive Json where
  | null : Json
  | bool : Bool → Json
  | num : Int → Json
  | str : String → Json
  | arr : List Json → Json
  | obj : List (String × Json) → Json
deriving Repr

/-- A Python dictionary: ordered association list. -/
abbrev Obj := List (String × Json)

/-- Python error (exception rendered as a message string). -/
abbrev Err := String

mutual

/-- Decidable (structural) equality for `Json`. -/
def Json.decEq : (a b : Json) → Decidable (a = b)
  | .null, .null => .isTrue rfl
  | .bool a, .bool b =>
      match Bool.decEq a b with
      | .isTrue h => .isTrue (h ▸ rfl)
      | .isFalse h => .isFalse (fun he => h (Json.bool.inj he))
  | .num a, .num b =>
      match Int.decEq a b with
      | .isTrue h => .isTrue (h ▸ rfl)
      | .isFalse h => .isFalse (fun he => h (Json.num.inj he))
  | .str a, .str b =>
      match String.decEq a b with
      | .isTrue h => .isTrue (h ▸ rfl)
      | .isFalse h => .isFalse (fun he => h (Json.str.inj he))
  | .arr a, .arr b =>
      match Json.decEqList a b with
      | .isTrue h => .isTrue (h ▸ rfl)
      | .isFalse h => .isFalse (fun he => h (Json.arr.inj he))
  | .obj a, .obj b =>
      match Json.decEqObj a b with
      | .isTrue h => .isTrue (h ▸ rfl)
      | .isFalse h => .isFalse (fun he => h (Json.obj.inj he))
  | .null, .bool _ => .isFalse nofun
  | .null, .num _ => .isFalse nofun
  | .null, .str _ => .isFalse nofun
  | .null, .arr _ => .isFalse nofun
  | .null, .obj _ => .isFalse nofun
  | .bool _, .null => .isFalse nofun
  | .bool _, .num _ => .isFalse nofun
  | .bool _, .str _ => .isFalse nofun
  | .bool _, .arr _ => .isFalse nofun
  | .bool _, .obj _ => .isFalse nofun
  | .num _, .null => .isFalse nofun
  | .num _, .bool _ => .isFalse nofun
  | .num _, .str _ => .isFalse nofun
  | .num _, .arr _ => .isFalse nofun
  | .num _, .obj _ => .isFalse nofun
  | .str _, .null => .isFalse nofun
  | .str _, .bool _ => .isFalse nofun
  | .str _, .num _ => .isFalse nofun
  | .str _, .arr _ => .isFalse nofun
  | .str _, .obj _ => .isFalse nofun
  | .arr _, .null => .isFalse nofun
  | .arr _, .bool _ => .isFalse nofun
  | .arr _, .num _ => .isFalse nofun
  | .arr _, .str _ => .isFalse nofun
  | .arr _, .obj _ => .isFalse nofun
  | .obj _, .null => .isFalse nofun
  | .obj _, .bool _ => .isFalse nofun
  | .obj _, .num _ => .isFalse nofun
  | .obj _, .str _ => .isFalse nofun
  | .obj _, .arr _ => .isFalse nofun

def Json.decEqList : (a b : List Json) → Decidable (a = b)
  | [], [] => .isTrue rfl
  | [], _ :: _ => .isFalse nofun
  | _ :: _, [] => .isFalse nofun
  | a :: as, b :: bs =>
      match Json.decEq a b with
      | .isTrue h1 =>
          match Json.decEqList as bs with
          | .isTrue h2 => .isTrue (h1 ▸ h2 ▸ rfl)
          | .isFalse h2 => .isFalse (fun he => h2 (List.cons.inj he).2)
      | .isFalse h1 => .isFalse (fun he => h1 (List.cons.inj he).1)

def Json.decEqObj : (a b : List (String × Json)) → Decidable (a = b)
  | [], [] => .isTrue rfl
  | [], _ :: _ => .isFalse nofun
  | _ :: _, [] => .isFalse nofun
  | (k, a) :: as, (l, b) :: bs =>
      match String.decEq k l with
      | .isTrue hk =>
          match Json.decEq a b with
          | .isTrue h1 =>
              match Json.decEqObj as bs with
              | .isTrue h2 => .isTrue (hk ▸ h1 ▸ h2 ▸ rfl)
              | .isFalse h2 => .isFalse (fun he => h2 (List.cons.inj he).2)
          | .isFalse h1 =>
              .isFalse (fun he => h1 (congrArg Prod.snd (List.cons.inj he).1))
      | .isFalse hk =>
          .isFalse (fun he => hk (congrArg Prod.fst (List.cons.inj he).1))

end

instance : DecidableEq Json := Json.decEq

/-- `d.get(k)` as an `Option` (first binding; Python dicts have unique keys). -/
def objGet? (o : Obj) (k : String) : Option Json :=
  match o with
  | [] => none
  | (k', v) :: rest => if k' = k then some v else objGet? rest k

/-- `d.get(k, default)`. -/
def objGetD (o : Obj) (k : String) (d : Json) : Json :=
  (objGet? o k).getD d

/-- `d.get(k)` with Python's `None` default. -/
def objGet (o : Obj) (k : String) : Json :=
  objGetD o k .null

/-- `k in d`. -/
def objHas (o : Obj) (k : String) : Bool :=
  (objGet? o k).isSome

/-- `d[k] = v`: replace the first binding of `k`, else append. -/
def objSet (o : Obj) (k : String) (v : Json) : Obj :=
  match o with
  | [] => [(k, v)]
  | (k', v') :: rest =>
      if k' = k then (k', v) :: rest else (k', v') :: objSet rest k v

/-- `d.pop(k, None)` / `del d[k]`: remove the key (all bindings, so that
`k in d` is false afterwards, as in Python). -/
def objPopAll (o : Obj) (k : String) : Obj :=
  o.filter (fun p => p.1 ≠ k)

theorem objGet?_objSet_same (o : Obj) (k : String) (v : Json) :
    objGet? (objSet o k v) k = some v := by
  induction o with
  | nil => simp [objSet, objGet?]
  | cons p rest ih =>
      obtain ⟨k', v'⟩ := p
      by_cases h : k' = k
      · simp [objSet, h, objGet?]
      · simp [objSet, h, objGet?, ih]

theorem objGet?_objSet_ne (o : Obj) (k k' : String) (v : Json) (h : k ≠ k') :
    objGet? (objSet o k v) k' = objGet? o k' := by
  induction o with
  | nil => simp [objSet, objGet?, h]
  | cons p rest ih =>
      obtain ⟨k0, v0⟩ := p
      by_cases h0 : k0 = k
      · subst h0
        simp [objSet, objGet?, h]
      · simp [objSet, h0, objGet?, ih]

/-- Writing back the value already stored at a key leaves the dictionary
unchanged (models Python's in-place `d[k] = d[k]`). -/
theorem objSet_self (o : Obj) (k : String) (v : Json) (h : objGet? o k = some v) :
    objSet o k v = o := by
  induction o with
  | nil => simp [objGet?] at h
  | cons p rest ih =>
      obtain ⟨k', v'⟩ := p
      by_cases hk : k' = k
      · subst hk
        simp [objGet?] at h
        simp [objSet, h]
      · simp [objGet?, hk] at h
        simp [objSet, hk, ih h]

theorem objHas_objSet_ne (o : Obj) (k k' : String) (v : Json) (h : k ≠ k') :
    objHas (objSet o k v) k' = objHas o k' := by
  simp [objHas, objGet?_objSet_ne o k k' v h]

theorem objHas_objSet_same (o : Obj) (k : String) (v : Json) :
    objHas (objSet o k v) k = true := by
  simp [objHas, objGet?_objSet_same]

/-- Python truthiness of a JSON value. -/
def pyTruthy : Json → Bool
  | .null => false
  | .bool b => b
  | .num n => n ≠ 0
  | .str s => s ≠ ""
  | .arr l => !l.isEmpty
  | .obj o => !o.isEmpty

/-- Python's `a or b` (first operand if truthy, else the second). -/
def pyOr (a b : Json) : Json :=
  if pyTruthy a then a else b

/-- `isinstance(x, str)`. -/
def isStr : Json → Bool
  | .str _ => true
  | _ => false

/-- `isinstance(x, dict)`. -/
def isDict : Json → Bool
  | .obj _ => true
  | _ => false

/-- `isinstance(x, list)`. -/
def isList : Json → Bool
  | .arr _ => true
  | _ => false

/-- `isinstance(x, (int, float))` — Python's `bool` is a subtype of `int`. -/
def isPyNumber : Json → Bool
  | .num _ => true
  | .bool _ => true
  | _ => false

/-- `isinstance(x, int)` — includes `bool`. -/
def isPyInt : Json → Bool
  | .num _ => true
  | .bool _ => true
  | _ => false

/-- `int(x)` on a Python number (`int(True) = 1`). -/
def pyToInt : Json → Int
  | .num n => n
  | .bool b => if b then 1 else 0
  | _ => 0

/-- Python `x == s` for a string literal `s` (strings only compare equal to
equal strings). -/
def pyEqStr (j : Json) (s : String) : Bool :=
  match j with
  | .str t => t = s
  | _ => false

/-- Python whitespace recognised by `str.strip()` (ASCII fragment). -/
def isPySpace (c : Char) : Bool :=
  c = ' ' || c = '\t' || c = '\n' || c = '\x0d' || c = '\x0b' || c = '\x0c'

/-- `str.strip()`. -/
def pyStrip (s : String) : String :=
  String.mk (((s.toList.dropWhile isPySpace).reverse.dropWhile isPySpace).reverse)

/-- `str.lower()` (ASCII). -/
def pyLower (s : String) : String :=
  String.mk (s.toList.map Char.toLower)

/-- Is `pat` a prefix of `l`? (kernel-computable) -/
def charsIsPrefix : List Char → List Char → Bool
  | [], _ => true
  | _ :: _, [] => false
  | p :: ps, c :: cs => p == c && charsIsPrefix ps cs

/-- Worker for `pyReplace` (fuel-based so that it evaluates in the kernel;
the fuel passed by `pyReplace` always suffices). -/
def replaceCharsF : Nat → List Char → List Char → List Char → List Char
  | 0, l, _, _ => l
  | _ + 1, [], _, _ => []
  | fuel + 1, c :: cs, pat, rep =>
      if !pat.isEmpty && charsIsPrefix pat (c :: cs) then
        rep ++ replaceCharsF fuel ((c :: cs).drop pat.length) pat rep
      else
        c :: replaceCharsF fuel cs pat rep

/-- `str.replace(pat, rep)` (non-overlapping, left to right; callers never
pass an empty pattern). -/
def pyReplace (s pat rep : String) : String :=
  String.mk (replaceCharsF s.toList.length s.toList pat.toList rep.toList)

/-- Lexicographic comparison of strings by code point (Python `<=`). -/
def strLeB (a b : String) : Bool :=
  charsLe a.toList b.toList
where
  charsLe : List Char → List Char → Bool
    | [], _ => true
    | _ :: _, [] => false
    | c :: cs, d :: ds =>
        if c.toNat < d.toNat then true
        else if d.toNat < c.toNat then false
        else charsLe cs ds

/-- Insert into a `strLeB`-sorted list (worker for `pySortStrings`). -/
def insertSortedStr (x : String) : List String → List String
  | [] => [x]
  | y :: rest => if strLeB x y then x :: y :: rest else y :: insertSortedStr x rest

mutual

/-- Python `repr(x)` for JSON-like values (used by `str()` on containers;
string escaping inside `repr` is approximated, which is only observable on
pathological documents outside every claim considered here). -/
def pyRepr : Json → String
  | .null => "None"
  | .bool b => if b then "True" else "False"
  | .num n => toString n
  | .str s => "'" ++ s ++ "'"
  | .arr l => "[" ++ String.intercalate ", " (pyReprList l) ++ "]"
  | .obj o =>
      String.mk ['{'] ++ String.intercalate ", " (pyReprObj o) ++ String.mk ['}']

def pyReprList : List Json → List String
  | [] => []
  | a :: rest => pyRepr a :: pyReprList rest

def pyReprObj : List (String × Json) → List String
  | [] => []
  | (k, v) :: rest => ("'" ++ k ++ "': " ++ pyRepr v) :: pyReprObj rest

end

/-- Python `str(x)`. -/
def pyStr : Json → String
  | .str s => s
  | j => pyRepr j

/-- Python `for x in j`: lists iterate their elements, strings their
characters, dictionaries their keys; other truthy values raise `TypeError`.
(`None` iteration also raises; callers in the sources reach this only
through `or []`-style guards, so the `null` case raises as in Python.) -/
def pyIter : Json → Except Err (List Json)
  | .arr l => .ok l
  | .str s => .ok (s.toList.map (fun c => .str (String.mk [c])))
  | .obj o => .ok (o.map (fun p => .str p.1))
  | _ => .error "TypeError: object is not iterable"

/-- `sorted` on strings (Python lexicographic order on code points;
insertion sort — the sources only sort lists of distinct strings, where any
correct sort agrees). -/
def pySortStrings (l : List String) : List String :=
  l.foldr insertSortedStr []

/-- Set-like insert keeping first-insertion order (Python `set.add` as used
here: only membership and sorted views are observed). -/
def listInsertUniq (l : List String) (s : String) : List String :=
  if s ∈ l then l else l ++ [s]

end NLtoUML

namespace NLtoUML

/-! ## `transform.py` — timer desugaring -/

/-- `transform._ensure_state`: append `{"id": state_id}` unless a state with
that id is already present (the list is mutated in place in the source; here
the updated list is returned). -/
def ensureStateT (states : List Json) (stateId : String) : List Json :=
  if states.any (fun s =>
      match s with
      | .obj so => pyEqStr (objGet so "id") stateId
      | _ => false) then
    states
  else
    states ++ [.obj [("id", .str stateId)]]

/-- `transform._make_after_trigger`. -/
def mkAfterTrigger (seconds : Int) : Json :=
  .obj [("type", .str "after"), ("seconds", .num seconds)]

/-- Worker for `transform._first_delay` carrying the enumeration index. -/
def firstDelayFrom : List Json → Nat → Option (Nat × Int)
  | [], _ => none
  | a :: rest, i =>
      match a with
      | .obj o =>
          if pyEqStr (objGet o "type") "delay" then
            let secs := objGet o "seconds"
            if isPyNumber secs then some (i, pyToInt secs)
            else firstDelayFrom rest (i + 1)
          else firstDelayFrom rest (i + 1)
      | _ => firstDelayFrom rest (i + 1)

/-- `transform._first_delay`: `(index, seconds)` of the first delay action
with a numeric `seconds`, else `none`. -/
def firstDelay (actions : List Json) : Option (Nat × Int) :=
  firstDelayFrom actions 0

theorem firstDelayFrom_lt : ∀ (l : List Json) (n i : Nat) (s : Int),
    firstDelayFrom l n = some (i, s) → n ≤ i ∧ i < n + l.length := by
  intro l
  induction l with
  | nil => intro n i s h; simp [firstDelayFrom] at h
  | cons a rest ih =>
      intro n i s h
      unfold firstDelayFrom at h
      have hlen : (a :: rest).length = rest.length + 1 := List.length_cons a rest
      match a, h with
      | .obj o, h =>
          by_cases h1 : pyEqStr (objGet o "type") "delay" = true
          · simp only [h1, if_true] at h
            by_cases h2 : isPyNumber (objGet o "seconds") = true
            · simp only [h2, if_true] at h
              have hni : n = i := congrArg Prod.fst (Option.some.inj h)
              rw [hlen]
              omega
            · simp only [h2, if_false] at h
              have := ih (n + 1) i s h
              rw [hlen]
              omega
          · simp only [h1, if_false] at h
            have := ih (n + 1) i s h
            rw [hlen]
            omega
      | .null, h => have := ih (n + 1) i s h; rw [hlen]; omega
      | .bool b, h => have := ih (n + 1) i s h; rw [hlen]; omega
      | .num m, h => have := ih (n + 1) i s h; rw [hlen]; omega
      | .str t, h => have := ih (n + 1) i s h; rw [hlen]; omega
      | .arr l2, h => have := ih (n + 1) i s h; rw [hlen]; omega

theorem firstDelay_lt (l : List Json) (i : Nat) (s : Int)
    (h : firstDelay l = some (i, s)) : i < l.length := by
  have := firstDelayFrom_lt l 0 i s h
  omega

/-- The transition `tr_a` built inside the desugaring loop: original
triggers (and guard / derived id when present), actions before the delay. -/
def mkTrA (curTr : Obj) (frm waitState : String) (before : List Json)
    (counter' : Nat) : Obj :=
  let trA0 : Obj :=
    [("from", .str frm), ("to", .str waitState),
     ("triggers", objGetD curTr "triggers" (.arr [])),
     ("actions", .arr before)]
  let trA1 :=
    if objHas curTr "guard" then objSet trA0 "guard" (objGet curTr "guard")
    else trA0
  if objHas curTr "id" && isStr (objGet curTr "id") then
    objSet trA1 "id" (.str (pyStr (objGet curTr "id") ++ "_a" ++ toString counter'))
  else trA1

/-- The transition `tr_b` built inside the desugaring loop: a single
`after{seconds}` trigger, actions after the delay. -/
def mkTrB (curTr : Obj) (waitState toSt : String) (secs : Int)
    (after : List Json) (counter' : Nat) : Obj :=
  let trB0 : Obj :=
    [("from", .str waitState), ("to", .str toSt),
     ("triggers", .arr [mkAfterTrigger secs]),
     ("actions", .arr after)]
  if objHas curTr "id" && isStr (objGet curTr "id") then
    objSet trB0 "id" (.str (pyStr (objGet curTr "id") ++ "_b" ++ toString counter'))
  else trB0

/-- The `while True` loop inside `desugar_delays_to_timer_states`, threading
the mutable locals (`states`, `existing_ids`, `counter`, `new_transitions`)
and the current tail transition.  `origTr` is the transition the loop was
entered with, `didAny` whether a split has happened.  Returns the final
`(states, existing_ids, counter, new_transitions)`. -/
def splitLoop (fuel : Nat) (states : List Json) (existingIds : List String)
    (counter : Nat) (out : List Json) (curTr : Obj) (curActions : List Json)
    (didAny : Bool) (origTr : Json) :
    List Json × List String × Nat × List Json :=
  match fuel with
  | 0 =>
      -- Unreachable at every call site: the loop runs at most
      -- `curActions.length` splits and callers pass `curActions.length + 1`.
      (states, existingIds, counter,
        out ++ [if didAny then .obj curTr else origTr])
  | fuel + 1 =>
    match firstDelay curActions with
    | none =>
        (states, existingIds, counter,
          out ++ [if didAny then .obj curTr else origTr])
    | some (idx, secs) =>
        if curActions.length ≤ idx + 1 then
          (states, existingIds, counter,
            out ++ [if didAny then .obj curTr else origTr])
        else
          let before := curActions.take idx
          let after := curActions.drop (idx + 1)
          let frm := pyStr (objGet curTr "from")
          let toSt := pyStr (objGet curTr "to")
          let counter' := counter + 1
          let waitState0 :=
            pyReplace (pyReplace ("Wait_" ++ toString secs ++ "s_" ++ toString counter') "-" "_") " " "_"
          let waitState :=
            if waitState0 ∈ existingIds then waitState0 ++ "_" ++ toString counter'
            else waitState0
          let existingIds' := listInsertUniq existingIds waitState
          let states' := ensureStateT states waitState
          let trA := mkTrA curTr frm waitState before counter'
          let trB := mkTrB curTr waitState toSt secs after counter'
          splitLoop fuel states' existingIds' counter' (out ++ [.obj trA]) trB after true origTr

/-- Body of the `for tr in transitions` loop of
`desugar_delays_to_timer_states`. -/
def desugarTransStep (acc : List Json × List String × Nat × List Json)
    (tr : Json) : List Json × List String × Nat × List Json :=
  let (states, existingIds, counter, out) := acc
  match tr with
  | .obj trO =>
      match objGet? trO "actions" with
      | some (.arr acts) =>
          splitLoop (acts.length + 1) states existingIds counter out trO acts false (.obj trO)
      | _ => (states, existingIds, counter, out ++ [.obj trO])
  | _ => acc

/-- The `existing_ids` set built at the start of
`desugar_delays_to_timer_states` (ids of dictionary states with string ids;
only membership is observed, so insertion order is immaterial). -/
def existingIdsOf (states : List Json) : List String :=
  states.foldl (fun acc s =>
    match s with
    | .obj so =>
        match objGet? so "id" with
        | some (.str sid) => listInsertUniq acc sid
        | _ => acc
    | _ => acc) []

/-- `transform.desugar_delays_to_timer_states` (the source mutates `ir` in
place and returns it; the returned value here is both). -/
def desugarFn (ir : Obj) : Obj :=
  match objGet? ir "stateMachine" with
  | some (.obj sm) =>
      match objGet? sm "states" with
      | some (.arr states) =>
          match objGet? sm "transitions" with
          | some (.arr transitions) =>
              let res := transitions.foldl desugarTransStep
                (states, existingIdsOf states, 0, [])
              objSet ir "stateMachine"
                (.obj (objSet (objSet sm "states" (.arr res.1)) "transitions"
                  (.arr res.2.2.2)))
          | _ => ir
      | _ => ir
  | _ => ir

end NLtoUML

namespace NLtoUML

/-! ## Claim C2 — desugaring the `[command d.on, delay 30, command d.off]` example -/

/-- The action `command d.on`. -/
def cmdOnAct : Json :=
  .obj [("type", .str "command"), ("device", .str "d"), ("command", .str "on")]

/-- The action `command d.off`. -/
def cmdOffAct : Json :=
  .obj [("type", .str "command"), ("device", .str "d"), ("command", .str "off")]

/-- The action `delay 30`. -/
def delay30Act : Json :=
  .obj [("type", .str "delay"), ("seconds", .num 30)]

/-- An IR with states `A`, `B` and the single transition `A → B` carrying
triggers `tgs` and actions `[command d.on, delay 30, command d.off]`. -/
def c2Ir (tgs : List Json) : Obj :=
  [("version", .str "0.1"),
   ("devices", .arr [.obj [("id", .str "d"), ("kind", .str "switch")]]),
   ("stateMachine", .obj
     [("initial", .str "A"),
      ("states", .arr [.obj [("id", .str "A")], .obj [("id", .str "B")]]),
      ("transitions", .arr
        [.obj [("from", .str "A"), ("to", .str "B"),
               ("triggers", .arr tgs),
               ("actions", .arr [cmdOnAct, delay30Act, cmdOffAct])]])])]

/-- The desugared form of `c2Ir`: two transitions through `Wait_30s_1` and
exactly three states. -/
def c2IrExpected (tgs : List Json) : Obj :=
  [("version", .str "0.1"),
   ("devices", .arr [.obj [("id", .str "d"), ("kind", .str "switch")]]),
   ("stateMachine", .obj
     [("initial", .str "A"),
      ("states", .arr [.obj [("id", .str "A")], .obj [("id", .str "B")],
                       .obj [("id", .str "Wait_30s_1")]]),
      ("transitions", .arr
        [.obj [("from", .str "A"), ("to", .str "Wait_30s_1"),
               ("triggers", .arr tgs),
               ("actions", .arr [cmdOnAct])],
         .obj [("from", .str "Wait_30s_1"), ("to", .str "B"),
               ("triggers", .arr [.obj [("type", .str "after"), ("seconds", .num 30)]]),
               ("actions", .arr [cmdOffAct])]])])]

/-- C2: desugaring the transition `A → B` (any trigger list) with actions
`[command d.on, delay 30, command d.off]` yields exactly the two transitions
`A → Wait_30s_1` (original triggers, actions `[command d.on]`) and
`Wait_30s_1 → B` (single trigger `after{seconds:30}`, actions
`[command d.off]`), with exactly the three states `A`, `B`, `Wait_30s_1`. -/
theorem desugar_delay_example (tgs : List Json) :
    desugarFn (c2Ir tgs) = c2IrExpected tgs := by
  rfl

end NLtoUML

namespace NLtoUML

/-! ## Claim C8 — desugaring is idempotent -/

/-- An action of the form `{"type": "delay", "seconds": <number>}` — exactly
those found by `firstDelay`. -/
def isDelayNumB (a : Json) : Bool :=
  match a with
  | .obj o => pyEqStr (objGet o "type") "delay" && isPyNumber (objGet o "seconds")
  | _ => false

/-- Seconds of a delay action (meaningful when `isDelayNumB`). -/
def delaySecsOf (a : Json) : Int :=
  match a with
  | .obj o => pyToInt (objGet o "seconds")
  | _ => 0

theorem firstDelayFrom_cons_pos (a : Json) (rest : List Json) (n : Nat)
    (h : isDelayNumB a = true) :
    firstDelayFrom (a :: rest) n = some (n, delaySecsOf a) := by
  match a, h with
  | .obj o, h =>
      simp only [isDelayNumB, Bool.and_eq_true] at h
      simp [firstDelayFrom, h.1, h.2, delaySecsOf]

theorem firstDelayFrom_cons_neg (a : Json) (rest : List Json) (n : Nat)
    (h : isDelayNumB a = false) :
    firstDelayFrom (a :: rest) n = firstDelayFrom rest (n + 1) := by
  match a with
  | .obj o =>
      simp only [isDelayNumB, Bool.and_eq_false_iff] at h
      conv_lhs => unfold firstDelayFrom
      rcases h with h | h
      · simp [h]
      · by_cases h1 : pyEqStr (objGet o "type") "delay" = true
        · simp [h1, h]
        · simp [h1]
  | .null => rfl
  | .bool _ => rfl
  | .num _ => rfl
  | .str _ => rfl
  | .arr _ => rfl

theorem firstDelayFrom_take_none :
    ∀ (l : List Json) (n idx : Nat) (s : Int),
      firstDelayFrom l n = some (idx, s) →
      ∀ m, firstDelayFrom (l.take (idx - n)) m = none := by
  intro l
  induction l with
  | nil => intro n idx s h m; simp [firstDelayFrom] at h
  | cons a rest ih =>
      intro n idx s h m
      by_cases ha : isDelayNumB a = true
      · rw [firstDelayFrom_cons_pos a rest n ha] at h
        have : n = idx := congrArg Prod.fst (Option.some.inj h)
        subst this
        simp [firstDelayFrom]
      · rw [firstDelayFrom_cons_neg a rest n (by simpa using ha)] at h
        have hge := (firstDelayFrom_lt rest (n + 1) idx s h).1
        have : idx - n = (idx - (n + 1)) + 1 := by omega
        rw [this]
        simp only [List.take_succ_cons]
        rw [firstDelayFrom_cons_neg a _ m (by simpa using ha)]
        exact ih (n + 1) idx s h (m + 1)

theorem firstDelay_take_none (l : List Json) (idx : Nat) (s : Int)
    (h : firstDelay l = some (idx, s)) :
    firstDelay (l.take idx) = none := by
  have := firstDelayFrom_take_none l 0 idx s h 0
  simpa [firstDelay] using this

/-- Action lists left behind by one desugaring pass: any delay found by
`firstDelay` is the final action. -/
def NoMidDelay (acts : List Json) : Prop :=
  ∀ i s, firstDelay acts = some (i, s) → acts.length ≤ i + 1

/-- Transitions left behind by one desugaring pass: dictionaries whose
`actions`, when a list, hold no mid-list delay. -/
def GoodTr (tr : Json) : Prop :=
  ∃ o, tr = .obj o ∧ ∀ l, objGet? o "actions" = some (.arr l) → NoMidDelay l

theorem objGet?_condSet (b : Bool) (o : Obj) (k k' : String) (v u : Json)
    (hne : k ≠ k') (h : objGet? o k' = some u) :
    objGet? (if b then objSet o k v else o) k' = some u := by
  cases b
  · simpa using h
  · simpa [objGet?_objSet_ne o k k' v hne] using h



theorem objGet?_mkTrA_actions (curTr : Obj) (frm waitState : String)
    (before : List Json) (counter' : Nat) :
    objGet? (mkTrA curTr frm waitState before counter') "actions" =
      some (.arr before) := by
  unfold mkTrA
  apply objGet?_condSet _ _ _ _ _ _ (by decide)
  apply objGet?_condSet _ _ _ _ _ _ (by decide)
  simp [objGet?]

theorem objGet?_mkTrB_actions (curTr : Obj) (waitState toSt : String)
    (secs : Int) (after : List Json) (counter' : Nat) :
    objGet? (mkTrB curTr waitState toSt secs after counter') "actions" =
      some (.arr after) := by
  unfold mkTrB
  apply objGet?_condSet _ _ _ _ _ _ (by decide)
  simp [objGet?]

theorem splitLoop_good :
    ∀ (fuel : Nat) (states : List Json) (ex : List String) (counter : Nat)
      (out : List Json) (curTr : Obj) (curActions : List Json) (didAny : Bool)
      (origTr : Json),
      curActions.length < fuel →
      objGet? curTr "actions" = some (.arr curActions) →
      (didAny = false → origTr = .obj curTr) →
      (∀ t ∈ out, GoodTr t) →
      ∀ t ∈ (splitLoop fuel states ex counter out curTr curActions didAny origTr).2.2.2,
        GoodTr t := by
  intro fuel
  induction fuel with
  | zero => intro _ _ _ _ _ _ _ _ hlt; omega
  | succ fuel ih =>
      intro states ex counter out curTr curActions didAny origTr hlt hacts horig hout
      have hfin : (∀ i s, firstDelay curActions = some (i, s) →
          curActions.length ≤ i + 1) →
          ∀ t ∈ out ++ [if didAny then Json.obj curTr else origTr], GoodTr t := by
        intro hnmd t ht
        rcases List.mem_append.mp ht with h | h
        · exact hout t h
        · rcases List.mem_singleton.mp h with rfl
          have hobj : (if didAny then Json.obj curTr else origTr) = Json.obj curTr := by
            cases didAny
            · simp [horig rfl]
            · simp
          rw [hobj]
          refine ⟨curTr, rfl, ?_⟩
          intro l hl
          rw [hacts] at hl
          have : l = curActions := (Json.arr.inj (Option.some.inj hl)).symm
          subst this
          exact hnmd
      rcases hfd : firstDelay curActions with _ | ⟨idx, secs⟩
      · simp only [splitLoop, hfd]
        exact hfin (by intro i s h; rw [hfd] at h; cases h)
      · by_cases hend : curActions.length ≤ idx + 1
        · simp only [splitLoop, hfd, if_pos hend]
          refine hfin ?_
          intro i s h
          rw [hfd] at h
          have : idx = i := congrArg Prod.fst (Option.some.inj h)
          omega
        · simp only [splitLoop, hfd, if_neg hend]
          apply ih
          · simp only [List.length_drop]
            omega
          · exact objGet?_mkTrB_actions curTr _ _ secs _ (counter + 1)
          · intro h; cases h
          · intro t ht
            rcases List.mem_append.mp ht with h | h
            · exact hout t h
            · rcases List.mem_singleton.mp h with rfl
              refine ⟨_, rfl, ?_⟩
              intro l hl
              rw [objGet?_mkTrA_actions curTr _ _ _ (counter + 1)] at hl
              have : l = curActions.take idx := (Json.arr.inj (Option.some.inj hl)).symm
              subst this
              intro i s h
              rw [firstDelay_take_none curActions idx secs hfd] at h
              cases h

/-- A `GoodTr` transition passes through `splitLoop` unchanged (the loop
breaks immediately). -/
theorem splitLoop_noop (fuel : Nat) (states : List Json) (ex : List String)
    (counter : Nat) (out : List Json) (curTr : Obj) (curActions : List Json)
    (hnmd : ∀ i s, firstDelay curActions = some (i, s) → curActions.length ≤ i + 1) :
    splitLoop (fuel + 1) states ex counter out curTr curActions false (.obj curTr) =
      (states, ex, counter, out ++ [.obj curTr]) := by
  rcases hfd : firstDelay curActions with _ | ⟨idx, secs⟩
  · simp [splitLoop, hfd]
  · have := hnmd idx secs hfd
    simp [splitLoop, hfd, this]

/-- One fold step of the transitions loop on a `GoodTr` transition is a pure
append. -/
theorem desugarTransStep_noop (acc : List Json × List String × Nat × List Json)
    (tr : Json) (h : GoodTr tr) :
    desugarTransStep acc tr = (acc.1, acc.2.1, acc.2.2.1, acc.2.2.2 ++ [tr]) := by
  obtain ⟨o, rfl, hno⟩ := h
  obtain ⟨states, ex, counter, out⟩ := acc
  rcases hact : objGet? o "actions" with _ | v
  · simp [desugarTransStep, hact]
  · match v, hact with
    | .arr l, hact =>
        simp only [desugarTransStep, hact]
        exact splitLoop_noop l.length states ex counter out o l (hno l hact)
    | .null, hact => simp [desugarTransStep, hact]
    | .bool b, hact => simp [desugarTransStep, hact]
    | .num n, hact => simp [desugarTransStep, hact]
    | .str s, hact => simp [desugarTransStep, hact]
    | .obj o2, hact => simp [desugarTransStep, hact]

theorem desugarTransStep_good (acc : List Json × List String × Nat × List Json)
    (tr : Json) (hacc : ∀ t ∈ acc.2.2.2, GoodTr t) :
    ∀ t ∈ (desugarTransStep acc tr).2.2.2, GoodTr t := by
  obtain ⟨states, ex, counter, out⟩ := acc
  match tr with
  | .null => exact hacc
  | .bool b => exact hacc
  | .num n => exact hacc
  | .str s => exact hacc
  | .arr l => exact hacc
  | .obj trO =>
      rcases hact : objGet? trO "actions" with _ | v
      · simp only [desugarTransStep, hact]
        intro t ht
        rcases List.mem_append.mp ht with h | h
        · exact hacc t h
        · rcases List.mem_singleton.mp h with rfl
          exact ⟨trO, rfl, fun l hl => by rw [hact] at hl; cases hl⟩
      · match v, hact with
        | .arr l, hact =>
            simp only [desugarTransStep, hact]
            exact splitLoop_good (l.length + 1) states ex counter out trO l false
              (.obj trO) (by omega) hact (fun _ => rfl) hacc
        | .null, hact =>
            simp only [desugarTransStep, hact]
            intro t ht
            rcases List.mem_append.mp ht with h | h
            · exact hacc t h
            · rcases List.mem_singleton.mp h with rfl
              exact ⟨trO, rfl, fun l hl => by rw [hact] at hl; cases hl⟩
        | .bool b, hact =>
            simp only [desugarTransStep, hact]
            intro t ht
            rcases List.mem_append.mp ht with h | h
            · exact hacc t h
            · rcases List.mem_singleton.mp h with rfl
              exact ⟨trO, rfl, fun l hl => by rw [hact] at hl; cases hl⟩
        | .num n, hact =>
            simp only [desugarTransStep, hact]
            intro t ht
            rcases List.mem_append.mp ht with h | h
            · exact hacc t h
            · rcases List.mem_singleton.mp h with rfl
              exact ⟨trO, rfl, fun l hl => by rw [hact] at hl; cases hl⟩
        | .str s, hact =>
            simp only [desugarTransStep, hact]
            intro t ht
            rcases List.mem_append.mp ht with h | h
            · exact hacc t h
            · rcases List.mem_singleton.mp h with rfl
              exact ⟨trO, rfl, fun l hl => by rw [hact] at hl; cases hl⟩
        | .obj o2, hact =>
            simp only [desugarTransStep, hact]
            intro t ht
            rcases List.mem_append.mp ht with h | h
            · exact hacc t h
            · rcases List.mem_singleton.mp h with rfl
              exact ⟨trO, rfl, fun l hl => by rw [hact] at hl; cases hl⟩

theorem desugarFold_good (ts : List Json)
    (acc : List Json × List String × Nat × List Json)
    (hacc : ∀ t ∈ acc.2.2.2, GoodTr t) :
    ∀ t ∈ (ts.foldl desugarTransStep acc).2.2.2, GoodTr t := by
  induction ts generalizing acc with
  | nil => exact hacc
  | cons tr rest ih =>
      simp only [List.foldl_cons]
      exact ih _ (desugarTransStep_good acc tr hacc)

theorem desugarFold_noop (ts : List Json)
    (acc : List Json × List String × Nat × List Json)
    (hts : ∀ t ∈ ts, GoodTr t) :
    ts.foldl desugarTransStep acc =
      (acc.1, acc.2.1, acc.2.2.1, acc.2.2.2 ++ ts) := by
  induction ts generalizing acc with
  | nil => simp
  | cons tr rest ih =>
      simp only [List.foldl_cons]
      rw [desugarTransStep_noop acc tr (hts tr (List.mem_cons_self tr rest))]
      rw [ih _ (fun t ht => hts t (List.mem_cons_of_mem tr ht))]
      simp

/-- C8: `desugar_delays_to_timer_states` is idempotent — after one pass no
transition's action list holds a delay followed by another action, so a
second pass changes nothing. -/
theorem desugar_delays_idempotent (ir : Obj) :
    desugarFn (desugarFn ir) = desugarFn ir := by
  rcases hsm : objGet? ir "stateMachine" with _ | smv
  · have h1 : desugarFn ir = ir := by unfold desugarFn; simp only [hsm]
    rw [h1, h1]
  · match smv, hsm with
    | .null, hsm =>
        have h1 : desugarFn ir = ir := by unfold desugarFn; simp only [hsm]
        rw [h1, h1]
    | .bool b, hsm =>
        have h1 : desugarFn ir = ir := by unfold desugarFn; simp only [hsm]
        rw [h1, h1]
    | .num n, hsm =>
        have h1 : desugarFn ir = ir := by unfold desugarFn; simp only [hsm]
        rw [h1, h1]
    | .str s, hsm =>
        have h1 : desugarFn ir = ir := by unfold desugarFn; simp only [hsm]
        rw [h1, h1]
    | .arr l, hsm =>
        have h1 : desugarFn ir = ir := by unfold desugarFn; simp only [hsm]
        rw [h1, h1]
    | .obj sm, hsm =>
        rcases hst : objGet? sm "states" with _ | stv
        · have h1 : desugarFn ir = ir := by unfold desugarFn; simp only [hsm, hst]
          rw [h1, h1]
        · match stv, hst with
          | .null, hst =>
              have h1 : desugarFn ir = ir := by unfold desugarFn; simp only [hsm, hst]
              rw [h1, h1]
          | .bool b, hst =>
              have h1 : desugarFn ir = ir := by unfold desugarFn; simp only [hsm, hst]
              rw [h1, h1]
          | .num n, hst =>
              have h1 : desugarFn ir = ir := by unfold desugarFn; simp only [hsm, hst]
              rw [h1, h1]
          | .str s, hst =>
              have h1 : desugarFn ir = ir := by unfold desugarFn; simp only [hsm, hst]
              rw [h1, h1]
          | .obj o2, hst =>
              have h1 : desugarFn ir = ir := by unfold desugarFn; simp only [hsm, hst]
              rw [h1, h1]
          | .arr states, hst =>
              rcases htr : objGet? sm "transitions" with _ | trv
              · have h1 : desugarFn ir = ir := by unfold desugarFn; simp only [hsm, hst, htr]
                rw [h1, h1]
              · match trv, htr with
                | .null, htr =>
                    have h1 : desugarFn ir = ir := by
                      unfold desugarFn; simp only [hsm, hst, htr]
                    rw [h1, h1]
                | .bool b, htr =>
                    have h1 : desugarFn ir = ir := by
                      unfold desugarFn; simp only [hsm, hst, htr]
                    rw [h1, h1]
                | .num n, htr =>
                    have h1 : desugarFn ir = ir := by
                      unfold desugarFn; simp only [hsm, hst, htr]
                    rw [h1, h1]
                | .str s, htr =>
                    have h1 : desugarFn ir = ir := by
                      unfold desugarFn; simp only [hsm, hst, htr]
                    rw [h1, h1]
                | .obj o2, htr =>
                    have h1 : desugarFn ir = ir := by
                      unfold desugarFn; simp only [hsm, hst, htr]
                    rw [h1, h1]
                | .arr transitions, htr =>
                    have h1 : desugarFn ir =
                        objSet ir "stateMachine"
                          (.obj (objSet (objSet sm "states"
                            (.arr (transitions.foldl desugarTransStep
                              (states, existingIdsOf states, 0, [])).1))
                            "transitions"
                            (.arr (transitions.foldl desugarTransStep
                              (states, existingIdsOf states, 0, [])).2.2.2))) := by
                      unfold desugarFn; simp only [hsm, hst, htr]
                    set R := transitions.foldl desugarTransStep
                      (states, existingIdsOf states, 0, []) with hR
                    set sm1 := objSet (objSet sm "states" (.arr R.1)) "transitions"
                      (.arr R.2.2.2) with hsm1
                    rw [h1]
                    have hgood : ∀ t ∈ R.2.2.2, GoodTr t := by
                      rw [hR]
                      exact desugarFold_good transitions _ (by intro t ht; cases ht)
                    have hget1 : objGet? (objSet ir "stateMachine" (.obj sm1))
                        "stateMachine" = some (.obj sm1) := objGet?_objSet_same ir _ _
                    have hgetSt : objGet? sm1 "states" = some (.arr R.1) := by
                      rw [hsm1]
                      rw [objGet?_objSet_ne _ _ _ _ (by decide)]
                      exact objGet?_objSet_same _ _ _
                    have hgetTr : objGet? sm1 "transitions" = some (.arr R.2.2.2) :=
                      objGet?_objSet_same _ _ _
                    unfold desugarFn
                    simp only [hget1, hgetSt, hgetTr]
                    rw [desugarFold_noop R.2.2.2 _ hgood]
                    simp only [List.nil_append]
                    rw [objSet_self _ _ _ hgetSt, objSet_self _ _ _ hgetTr,
                      objSet_self _ _ _ hget1]

/-! ## Additional Python-semantics helpers -/

/-- Membership of a string in a string list (kernel-computable). -/
def strIn (s : String) (l : List String) : Bool :=
  l.any (fun x => x = s)

/-- Lookup in a string-to-string Python dictionary (first binding). -/
def kvGet? (m : List (String × String)) (k : String) : Option String :=
  match m with
  | [] => none
  | (k', v) :: rest => if k' = k then some v else kvGet? rest k

/-- `m[k] = v` on a string-to-string Python dictionary: replacing keeps the
key's original position, new keys append. -/
def kvSet (m : List (String × String)) (k v : String) : List (String × String) :=
  match m with
  | [] => [(k, v)]
  | (k', v') :: rest =>
      if k' = k then (k', v) :: rest else (k', v') :: kvSet rest k v

/-- Insertion into a key-sorted pair list (worker for `sortPairsByKey`). -/
def insertPairSorted (x : String × String) :
    List (String × String) → List (String × String)
  | [] => [x]
  | y :: rest =>
      if strLeB x.1 y.1 then x :: y :: rest else y :: insertPairSorted x rest

/-- `sorted(d.items())` for a string-to-string dictionary with distinct keys
(Python sorts pairs lexicographically; with distinct keys only the key
matters). -/
def sortPairsByKey (l : List (String × String)) : List (String × String) :=
  l.foldr insertPairSorted []

mutual

/-- Number of nodes of a JSON tree (used only as recursion fuel bounds). -/
def jsonSize : Json → Nat
  | .null => 1
  | .bool _ => 1
  | .num _ => 1
  | .str _ => 1
  | .arr l => 1 + jsonSizeList l
  | .obj o => 1 + jsonSizeObj o

def jsonSizeList : List Json → Nat
  | [] => 0
  | a :: rest => jsonSize a + jsonSizeList rest

def jsonSizeObj : List (String × Json) → Nat
  | [] => 0
  | (_, v) :: rest => 1 + jsonSize v + jsonSizeObj rest

end

mutual

/-- Nesting depth of a JSON tree (atoms have depth 1). -/
def jsonDepth : Json → Nat
  | .null => 1
  | .bool _ => 1
  | .num _ => 1
  | .str _ => 1
  | .arr l => 1 + jsonDepthList l
  | .obj o => 1 + jsonDepthObj o

def jsonDepthList : List Json → Nat
  | [] => 0
  | a :: rest => max (jsonDepth a) (jsonDepthList rest)

def jsonDepthObj : List (String × Json) → Nat
  | [] => 0
  | (_, v) :: rest => max (jsonDepth v) (jsonDepthObj rest)

end

/-- Drop duplicate keys keeping the first binding (worker for `pyCanon`;
real Python dictionaries are already duplicate-free). -/
def dedupFirstKeys (seen : List String) :
    List (String × Json) → List (String × Json)
  | [] => []
  | (k, v) :: rest =>
      if strIn k seen then dedupFirstKeys seen rest
      else (k, v) :: dedupFirstKeys (k :: seen) rest

/-- Insertion into a key-sorted association list (worker for `pyCanon`). -/
def insertPairSortedJ (x : String × Json) :
    List (String × Json) → List (String × Json)
  | [] => [x]
  | y :: rest =>
      if strLeB x.1 y.1 then x :: y :: rest else y :: insertPairSortedJ x rest

mutual

/-- Canonical form deciding Python's `==` on JSON-like values: booleans
compare equal to 0/1 (`True == 1` in Python) and dictionaries compare
without regard to key order. -/
def pyCanon : Json → Json
  | .null => .null
  | .bool b => .num (if b then 1 else 0)
  | .num n => .num n
  | .str s => .str s
  | .arr l => .arr (pyCanonList l)
  | .obj o => .obj ((dedupFirstKeys [] (pyCanonObj o)).foldr insertPairSortedJ [])

def pyCanonList : List Json → List Json
  | [] => []
  | a :: rest => pyCanon a :: pyCanonList rest

def pyCanonObj : List (String × Json) → List (String × Json)
  | [] => []
  | (k, v) :: rest => (k, pyCanon v) :: pyCanonObj rest

end

/-- Python `a == b` on JSON-like values. -/
def pyEq (a b : Json) : Bool :=
  pyCanon a = pyCanon b

/-! ## `normalize.py` — literals, unit conversion, shape coercion, synonyms -/

/-- `normalize._to_literal`: convert a primitive into an IR literal object
(`bool` is tested before `int` exactly as in the source). -/
def toLiteral (v : Json) : Json :=
  match v with
  | .bool b => .obj [("bool", .bool b)]
  | .num n => .obj [("number", .num n)]
  | .null => .obj [("string", .str "")]
  | v => .obj [("string", .str (pyStr v))]

/-- `normalize._unit_seconds`: convert duration+unit into seconds if
possible (`None` when the duration is not a number). -/
def unitSeconds (duration unit : Json) : Option Int :=
  if !isPyNumber duration then none
  else if !isStr unit then some (pyToInt duration)
  else
    let u := pyLower (pyStrip (pyStr unit))
    if strIn u ["s", "sec", "secs", "second", "seconds"] then some (pyToInt duration)
    else if strIn u ["m", "min", "mins", "minute", "minutes"] then
      some (pyToInt duration * 60)
    else if strIn u ["h", "hr", "hrs", "hour", "hours"] then
      some (pyToInt duration * 3600)
    else some (pyToInt duration)

/-- The `id_to_kind` map built at the start of `coerce_ir_shape` by
iterating `device_catalog.get("devices", []) or []` and the same for
`globals` — the only statements of `coerce_ir_shape` that can raise
(iterating a truthy non-iterable raises `TypeError`). -/
def buildIdToKind (deviceCatalog : Obj) : Except Err (List (String × String)) := do
  let devs ← pyIter (pyOr (objGetD deviceCatalog "devices" (.arr [])) (.arr []))
  let step := fun (m : List (String × String)) (d : Json) =>
    match d with
    | .obj o =>
        if objHas o "id" && objHas o "kind" then
          kvSet m (pyStr (objGet o "id")) (pyStr (objGet o "kind"))
        else m
    | _ => m
  let m0 := devs.foldl step []
  let gls ← pyIter (pyOr (objGetD deviceCatalog "globals" (.arr [])) (.arr []))
  return gls.foldl step m0

/-- Per-device-object repair in `coerce_ir_shape` (`name` → `id` rename and
`kind` fill-in from the catalog). -/
def coerceDeviceObj (idToKind : List (String × String)) (d : Json) : Json :=
  match d with
  | .obj o =>
      let o1 :=
        if !objHas o "id" && objHas o "name" then
          objSet (objPopAll o "name") "id" (objGet o "name")
        else o
      let o2 :=
        if !objHas o1 "kind" && isStr (objGet o1 "id") then
          objSet o1 "kind"
            (match kvGet? idToKind (pyStr (objGet o1 "id")) with
             | some k => .str k
             | none => objGetD o1 "kind" (.str "unknown"))
        else o1
      .obj o2
  | d => d

/-- The `triggers`-shaped value used by the device-inference scan
(`trig_any` juggling in `coerce_ir_shape`). -/
def inferAnyList (tr0 : Obj) (plural singular : String) : Json :=
  let t0 := objGet tr0 plural
  let t1 := if isDict t0 then .arr [t0] else t0
  if !isList t1 && isDict (objGet tr0 singular) then .arr [objGet tr0 singular]
  else t1

/-- Record a device reference into the `inferred` map. -/
def inferFromItem (idToKind : List (String × String))
    (m : List (String × String)) (t0 : Json) : List (String × String) :=
  match t0 with
  | .obj o =>
      let devId := pyOr (objGet o "device")
        (pyOr (objGet o "deviceId") (objGet o "device_id"))
      match devId with
      | .str s => kvSet m s ((kvGet? idToKind s).getD "unknown")
      | _ => m
  | _ => m

/-- The device-inference scan of `coerce_ir_shape` (devices referenced in
triggers/actions of transitions). -/
def inferDevices (idToKind : List (String × String)) (ir : Obj) :
    List (String × String) :=
  match objGet? ir "stateMachine" with
  | some (.obj sm0) =>
      match objGet? sm0 "transitions" with
      | some (.arr trans0) =>
          trans0.foldl (fun m tr0 =>
            match tr0 with
            | .obj trO =>
                let m1 := match inferAnyList trO "triggers" "trigger" with
                  | .arr ts => ts.foldl (inferFromItem idToKind) m
                  | _ => m
                match inferAnyList trO "actions" "action" with
                | .arr as0 => as0.foldl (inferFromItem idToKind) m1
                | _ => m1
            | _ => m) []
      | _ => []
  | _ => []

/-- Trigger-shape coercion in `coerce_ir_shape` (canonical
`{type, ref:{device,path}}` with `value`/`cron`, timer forms rewritten to
`after`). -/
def coerceTrigger (t : Json) : Json :=
  match t with
  | .obj o =>
      let dev0 := pyOr (objGet o "device")
        (pyOr (objGet o "deviceId") (objGet o "device_id"))
      let attr0 := pyOr (objGet o "path") (pyOr (objGet o "attribute")
        (pyOr (objGet o "attr") (pyOr (objGet o "property") (objGet o "prop"))))
      let devAttr := match objGet o "ref" with
        | .obj r =>
            (pyOr dev0 (pyOr (objGet r "device")
               (pyOr (objGet r "deviceId") (objGet r "device_id"))),
             pyOr attr0 (pyOr (objGet r "path") (pyOr (objGet r "attribute")
               (pyOr (objGet r "attr") (pyOr (objGet r "property") (objGet r "prop"))))))
        | _ => (dev0, attr0)
      let dev := devAttr.1
      let attr := devAttr.2
      let typ0 := pyOr (objGet o "type") (pyOr (objGet o "condition") (objGet o "event"))
      let rawTyp : Option String :=
        match typ0 with
        | .str s => some (pyLower (pyStrip s))
        | _ => none
      let timerCond :=
        match rawTyp with
        | some rt =>
            strIn rt ["after", "timer", "delay"] ||
              (rt = "schedule" && !objHas o "cron" && objHas o "seconds")
        | none => objHas o "seconds" || objHas o "duration"
      let timerSecs : Option Int :=
        if isPyNumber (objGet o "seconds") then some (pyToInt (objGet o "seconds"))
        else if objHas o "duration" then unitSeconds (objGet o "duration") (objGet o "unit")
        else none
      match (if timerCond then timerSecs else none) with
      | some s => .obj [("type", .str "after"), ("seconds", .num s)]
      | none =>
        let typ1 := if typ0 = .null && objHas o "becomes" then .str "becomes" else typ0
        let typ2 :=
          if typ1 = .null && isStr dev && isStr attr then
            (if ["value", "equals", "state", "becomes", "val"].any (objHas o) then
              .str "becomes"
            else .str "changes")
          else typ1
        let typ3 :=
          if typ2 = .null && ["cron", "schedule", "time"].any (objHas o) then
            .str "schedule"
          else typ2
        let typ4 := match typ3 with | .str s => Json.str (pyStrip s) | t => t
        -- the `.strip()` line is duplicated verbatim in the source
        let typ5 := match typ4 with | .str s => Json.str (pyStrip s) | t => t
        match dev, attr, typ5 with
        | .str devS, .str attrS, .str typS =>
            let newT0 : Obj :=
              [("type", .str typS),
               ("ref", .obj [("device", .str devS), ("path", .str attrS)])]
            if typS = "becomes" then
              let v0 := objGet o "value"
              let v1 := if v0 = .null && objHas o "becomes" then objGet o "becomes" else v0
              let v2 :=
                if v1 = .null then
                  pyOr (objGet o "equals") (pyOr (objGet o "state") (objGet o "val"))
                else v1
              let value := match v2 with
                | .obj vo =>
                    if ["string", "number", "bool"].any (objHas vo) then .obj vo
                    else toLiteral (.obj vo)
                | v => toLiteral v
              .obj (objSet newT0 "value" value)
            else if typS = "schedule" then
              let cron := pyOr (objGet o "cron") (pyOr (objGet o "schedule")
                (pyOr (objGet o "time") (pyOr (objGet o "at") (objGet o "event"))))
              match cron with
              | .str cronS => .obj (objSet newT0 "cron" (.str cronS))
              | _ =>
                  match timerSecs with
                  | some s => .obj [("type", .str "after"), ("seconds", .num s)]
                  | none => .obj newT0
            else .obj newT0
        | _, _, _ => .obj o
  | t => t

/-- Action-shape coercion in `coerce_ir_shape`; `none` means the action is
dropped (non-dictionary entries and no-op command names). -/
def coerceAction (idToKind : List (String × String)) (a : Json) : Option Json :=
  match a with
  | .obj o0 =>
      let o1 :=
        if !objHas o0 "type" && isStr (objGet o0 "device") && isStr (objGet o0 "command")
        then objSet o0 "type" (.str "command")
        else o0
      let o2 :=
        if !objHas o1 "type" && pyEqStr (objGet o1 "action") "delay" then
          objSet o1 "type" (.str "delay")
        else o1
      let o3 :=
        if pyEqStr (objGet o2 "type") "delay" && !objHas o2 "seconds" then
          match (if objHas o2 "duration" then
              unitSeconds (objGet o2 "duration") (objGet o2 "unit") else none) with
          -- (the source's `if secs is None and "seconds" in a` branch is
          -- unreachable here: this branch has `"seconds" not in a`)
          | some s => objSet (objPopAll (objPopAll o2 "duration") "unit") "seconds" (.num s)
          | none => o2
        else o2
      let o4 :=
        if pyEqStr (objGet o3 "type") "delay" then
          -- (the source's inner `if "seconds" not in a and isinstance(...)`
          -- assignment is likewise unreachable)
          objPopAll o3 "action"
        else o3
      let cmdRes : Option Obj :=
        if pyEqStr (objGet o4 "type") "command" then
          let o5 :=
            if !objHas o4 "device" then
              let popped := objGet o4 "deviceId"
              let o4' := objPopAll o4 "deviceId"
              objSet o4' "device" (pyOr popped (objGet o4' "device"))
            else o4
          let o6 := match objGet o5 "device" with
            | .obj dobj =>
                if objHas dobj "id" then objSet o5 "device" (objGet dobj "id") else o5
            | _ => o5
          let o7 :=
            if !objHas o6 "args" && isDict (objGet o6 "parameters") then
              let o6' := match objGet o6 "parameters" with
                | .obj params =>
                    if !params.isEmpty then
                      if objHas params "mode" then
                        objSet o6 "args"
                          (.arr [.obj [("string", .str (pyStr (objGet params "mode")))]])
                      else if params.length = 1 then
                        match params with
                        | (_, pv) :: _ => objSet o6 "args" (.arr [toLiteral pv])
                        | [] => o6
                      else o6
                    else o6
                | _ => o6
              objPopAll o6' "parameters"
            else o6
          let o8 := match objGet? o7 "args" with
            | some (.arr argsL) =>
                objSet o7 "args" (.arr (argsL.map (fun av =>
                  match av with
                  | .obj avo =>
                      if ["string", "number", "bool"].any (objHas avo) then .obj avo
                      else toLiteral (.obj avo)
                  | av => toLiteral av)))
            | _ => o7
          match objGet o8 "device", objGet o8 "command" with
          | .str devId, .str cmd =>
              let c0 := pyLower (pyStrip cmd)
              if strIn c0 ["none", "noop", "no-op", "do_nothing", "do nothing", "nothing"]
              then none
              else
                let kind := kvGet? idToKind devId
                let o9 :=
                  if kind = some "alarm" && c0 = "on" then
                    objSet o8 "command" (.str "siren")
                  else o8
                let o10 :=
                  if kind = some "alarm" && (c0 = "deactivate" || c0 = "disable") then
                    objSet o9 "command" (.str "off")
                  else o9
                some o10
          | _, _ => some o8
        else some o4
      match cmdRes with
      | none => none
      | some oC =>
          let oN :=
            if pyEqStr (objGet oC "type") "notify" && !objHas oC "message" then
              if objHas oC "text" then
                objSet (objPopAll oC "text") "message" (objGet oC "text")
              else if objHas oC "msg" then
                objSet (objPopAll oC "msg") "message" (objGet oC "msg")
              else objSet oC "message" (.str "")
            else oC
          some (.obj oN)
  | _ => none

/-- Per-state repair in `coerce_ir_shape` (`name` → `id` rename; redundant
`name` dropped when equal to `id`). -/
def coerceStateObj (s : Json) : Json :=
  match s with
  | .obj st =>
      let st1 :=
        if !objHas st "id" && objHas st "name" then
          objSet (objPopAll st "name") "id" (objGet st "name")
        else st
      let st2 :=
        if objHas st1 "name" && objHas st1 "id" &&
            pyEq (objGet st1 "name") (objGet st1 "id") then
          objPopAll st1 "name"
        else st1
      .obj st2
  | s => s

/-- Per-transition shape coercion in `coerce_ir_shape` (endpoint renames,
singular/dict wrapping, endpoint fallback, list guarantees, trigger and
action coercion). -/
def coerceTransition (idToKind : List (String × String)) (stateIds : List String)
    (smInitial : Json) (tr : Json) : Json :=
  match tr with
  | .obj t0 =>
      let t1 := if !objHas t0 "to" && objHas t0 "target" then
          objSet (objPopAll t0 "target") "to" (objGet t0 "target") else t0
      let t2 := if !objHas t1 "to" && objHas t1 "next" then
          objSet (objPopAll t1 "next") "to" (objGet t1 "next") else t1
      let t3 := if !objHas t2 "from" && objHas t2 "source" then
          objSet (objPopAll t2 "source") "from" (objGet t2 "source") else t2
      let t4 := if !objHas t3 "from" && objHas t3 "state" then
          objSet (objPopAll t3 "state") "from" (objGet t3 "state") else t3
      let t5 := if !objHas t4 "triggers" && isDict (objGet t4 "trigger") then
          objSet (objPopAll t4 "trigger") "triggers" (.arr [objGet t4 "trigger"]) else t4
      let t6 := if !objHas t5 "actions" && isDict (objGet t5 "action") then
          objSet (objPopAll t5 "action") "actions" (.arr [objGet t5 "action"]) else t5
      let t7 := if isDict (objGet t6 "triggers") then
          objSet t6 "triggers" (.arr [objGet t6 "triggers"]) else t6
      let t8 := if isDict (objGet t7 "actions") then
          objSet t7 "actions" (.arr [objGet t7 "actions"]) else t7
      let t9 :=
        if !objHas t8 "from" || !isStr (objGet t8 "from") || !pyTruthy (objGet t8 "from")
        then
          objSet t8 "from"
            (if isStr smInitial then smInitial
             else .str (match stateIds with | s :: _ => s | [] => "Idle"))
        else t8
      let t10 :=
        if !objHas t9 "to" || !isStr (objGet t9 "to") || !pyTruthy (objGet t9 "to") then
          let fallbackTo := stateIds.find? (fun sid => !pyEqStr (objGet t9 "from") sid)
          objSet t9 "to"
            (pyOr (match fallbackTo with | some s => .str s | none => .null)
              (objGet t9 "from"))
        else t9
      let t11 := if !objHas t10 "triggers" || !isList (objGet t10 "triggers") then
          objSet t10 "triggers" (.arr []) else t10
      let t12 := if !objHas t11 "actions" || !isList (objGet t11 "actions") then
          objSet t11 "actions" (.arr []) else t11
      let t13 := match objGet? t12 "triggers" with
        | some (.arr tgs) => objSet t12 "triggers" (.arr (tgs.map coerceTrigger))
        | _ => t12
      let t14 := match objGet? t13 "actions" with
        | some (.arr acts) =>
            objSet t13 "actions" (.arr (acts.filterMap (coerceAction idToKind)))
        | _ => t13
      .obj t14
  | tr => tr

/-- The body of `coerce_ir_shape` after `id_to_kind` has been built (all of
it is exception-free). -/
def coercePure (idToKind : List (String × String)) (ir0 : Obj) : Obj :=
  -- devices list repair
  let ir1 :=
    match objGet? ir0 "devices" with
    | some (.arr devs) =>
        if !devs.isEmpty && devs.all isStr then
          objSet ir0 "devices" (.arr (devs.map (fun x =>
            .obj [("id", x),
                  ("kind", .str ((kvGet? idToKind (pyStr x)).getD "unknown"))])))
        else if !devs.isEmpty && devs.all isDict then
          objSet ir0 "devices" (.arr (devs.map (coerceDeviceObj idToKind)))
        else ir0
    | _ => ir0
  -- devices inference when missing/empty
  let ir2 :=
    if !isList (objGet ir1 "devices") || !pyTruthy (objGet ir1 "devices") then
      let inferred := inferDevices idToKind ir1
      if !inferred.isEmpty then
        objSet ir1 "devices"
          (.arr ((sortPairsByKey inferred).map (fun p =>
            .obj [("id", .str p.1), ("kind", .str p.2)])))
      else ir1
    else ir1
  match objGet? ir2 "stateMachine" with
  | some (.obj sm) =>
      -- states
      let sm1 :=
        match objGet? sm "states" with
        | some (.arr states) =>
            let states1 :=
              if !states.isEmpty && states.all isStr then
                states.map (fun s => Json.obj [("id", s)])
              else states
            objSet sm "states" (.arr (states1.map coerceStateObj))
        | _ => sm
      -- initial
      let sm2 :=
        if !objHas sm1 "initial" || !isStr (objGet sm1 "initial") ||
            !pyTruthy (objGet sm1 "initial") then
          let firstStateId : Option String :=
            match objGet? sm1 "states" with
            | some (.arr (s0 :: _)) =>
                match s0 with
                | .obj o =>
                    match objGet? o "id" with
                    | some (.str sid) => some sid
                    | _ => none
                | _ => none
            | _ => none
          objSet sm1 "initial"
            (.str (match firstStateId with
                   | some s => if s ≠ "" then s else "Idle"
                   | none => "Idle"))
        else sm1
      -- transitions
      let sm3 :=
        match objGet? sm2 "transitions" with
        | some (.arr transitions) =>
            let stateIds :=
              match objGet? sm2 "states" with
              | some (.arr sts) =>
                  sts.foldl (fun acc s =>
                    match s with
                    | .obj o =>
                        match objGet? o "id" with
                        | some (.str sid) => acc ++ [sid]
                        | _ => acc
                    | _ => acc) []
              | _ => []
            objSet sm2 "transitions"
              (.arr (transitions.map
                (coerceTransition idToKind stateIds (objGet sm2 "initial"))))
        | _ => sm2
      objSet ir2 "stateMachine" (.obj sm3)
  | _ => ir2

/-- `normalize.coerce_ir_shape`: builds `id_to_kind` from the catalog (the
only fallible part, a `TypeError` when a truthy non-iterable is iterated)
and then applies the exception-free shape rewrites. -/
def coerceIrShape (ir : Obj) (deviceCatalog : Obj) : Except Err Obj :=
  match buildIdToKind deviceCatalog with
  | .error e => .error e
  | .ok m => .ok (coercePure m ir)

/-- `coerce_ir_shape` with the caller's document after the call as second
component: the source mutates `ir` in place throughout, so on success the
caller's document is the returned document; on the (early) `TypeError` no
mutation has happened yet. -/
def coerceIrShapeT (ir : Obj) (deviceCatalog : Obj) : Except Err Obj × Obj :=
  match buildIdToKind deviceCatalog with
  | .error e => (.error e, ir)
  | .ok m => (.ok (coercePure m ir), coercePure m ir)

/-- `normalize.VALUE_SYNONYMS`. -/
def VALUE_SYNONYMS : List (String × String) :=
  [("detected", "active"), ("motion", "active"), ("movement", "active"),
   ("no motion", "inactive"), ("no_motion", "inactive"),
   ("opened", "open"), ("shut", "closed"),
   ("home", "present"), ("away", "not present"), ("not_home", "not present"),
   ("true", "on"), ("false", "off")]

/-- `normalize._normalize_literal`. -/
def normalizeLiteral (lit : Obj) : Obj :=
  if objHas lit "string" then
    let s := pyStrip (pyStr (objGet lit "string"))
    match kvGet? VALUE_SYNONYMS (pyLower s) with
    | some v => [("string", .str v)]
    | none => [("string", .str s)]
  else lit

/-- Python error message for iterating a non-iterable. -/
def pyIterErr : Err := "TypeError: object is not iterable"

/-- The `expr["lit"]` normalization step of `walk_expr`. -/
def litStep (o : Obj) : Obj :=
  match objGet? o "lit" with
  | some (.obj l) => objSet o "lit" (.obj (normalizeLiteral l))
  | _ => o

/-- Walk a list of argument expressions with walker `w`, stopping at the
first error while keeping the mutations already performed. -/
def walkExprListF (w : Json → Json × Option Err) : List Json → List Json × Option Err
  | [] => ([], none)
  | a :: rest =>
      match w a with
      | (a', some e) => (a' :: rest, some e)
      | (a', none) =>
          match walkExprListF w rest with
          | (r', err) => (a' :: r', err)

/-- `normalize_ir`'s `walk_expr`, threading the in-place mutation and a
possible `TypeError` (raised when `expr["args"]` is a truthy non-iterable).
`fuel` bounds the recursion depth; every call site passes the expression's
nesting depth, which always suffices, so the `0` branch is unreachable. -/
def walkExprT : Nat → Json → Json × Option Err
  | 0, e => (e, some "model: fuel exhausted")
  | fuel + 1, e =>
    match e with
    | .obj o =>
        let o1 := litStep o
        if objHas o1 "op" && objHas o1 "args" then
          match objGetD o1 "args" (.arr []) with
          | .arr l =>
              match walkExprListF (fun a => walkExprT fuel a) l with
              | (l', err) => (.obj (objSet o1 "args" (.arr l')), err)
          | .str _ => (.obj o1, none)
          | .obj _ => (.obj o1, none)
          | _ => (.obj o1, some pyIterErr)
        else (.obj o1, none)
    | e => (e, none)

/-- The argument list walk at a given fuel. -/
def walkExprListT (fuel : Nat) (l : List Json) : List Json × Option Err :=
  walkExprListF (fun a => walkExprT fuel a) l

/-- `normalize_ir`'s `walk_triggers` (no-op on non-lists; never raises). -/
def walkTriggersF (triggers : Json) : Json :=
  match triggers with
  | .arr ts => .arr (ts.map (fun t =>
      match t with
      | .obj o =>
          if pyEqStr (objGet o "type") "becomes" then
            match objGet? o "value" with
            | some (.obj vo) => .obj (objSet o "value" (.obj (normalizeLiteral vo)))
            | _ => .obj o
          else .obj o
      | t => t))
  | t => t

/-- `normalize_ir`'s `walk_actions` (command-alias table; never raises). -/
def walkActionsF (actions : Json) : Json :=
  match actions with
  | .arr as0 => .arr (as0.map (fun a =>
      match a with
      | .obj o =>
          if pyEqStr (objGet o "type") "command" then
            match objGet o "command" with
            | .str cmd =>
                let c := pyLower (pyStrip cmd)
                if strIn c ["turn_on", "turnon", "on"] then
                  .obj (objSet o "command" (.str "on"))
                else if strIn c ["turn_off", "turnoff", "off"] then
                  .obj (objSet o "command" (.str "off"))
                else .obj o
            | _ => .obj o
          else .obj o
      | a => a))
  | a => a

/-- One transition of the `normalize_ir` main loop: triggers, then guard
(which may raise), then actions. -/
def normalizeTransition (tr : Json) : Json × Option Err :=
  match tr with
  | .obj o =>
      let o1 := if objHas o "triggers" then
          objSet o "triggers" (walkTriggersF (objGet o "triggers"))
        else o
      if objHas o1 "guard" then
        match walkExprT (jsonDepth (objGet o1 "guard")) (objGet o1 "guard") with
        | (g', some e) => (.obj (objSet o1 "guard" g'), some e)
        | (g', none) =>
            let o2 := objSet o1 "guard" g'
            let o3 := if objHas o2 "actions" then
                objSet o2 "actions" (walkActionsF (objGet o2 "actions"))
              else o2
            (.obj o3, none)
      else
        let o3 := if objHas o1 "actions" then
            objSet o1 "actions" (walkActionsF (objGet o1 "actions"))
          else o1
        (.obj o3, none)
  | tr => (tr, none)

/-- The transitions loop of `normalize_ir` (first error aborts, keeping the
mutations already applied). -/
def normalizeTransList : List Json → List Json × Option Err
  | [] => ([], none)
  | tr :: rest =>
      match normalizeTransition tr with
      | (tr', some e) => (tr' :: rest, some e)
      | (tr', none) =>
          match normalizeTransList rest with
          | (r', err) => (tr' :: r', err)

/-- Invariant expressions of one state (each walked like a guard). -/
def normalizeInvList : List Json → List Json × Option Err
  | [] => ([], none)
  | e :: rest =>
      match walkExprT (jsonDepth e) e with
      | (e', some err) => (e' :: rest, some err)
      | (e', none) =>
          match normalizeInvList rest with
          | (r', err) => (e' :: r', err)

/-- One state of the `normalize_ir` states loop. -/
def normalizeState (st : Json) : Json × Option Err :=
  match st with
  | .obj o =>
      match objGet? o "invariants" with
      | some (.arr inv) =>
          match normalizeInvList inv with
          | (inv', err) => (.obj (objSet o "invariants" (.arr inv')), err)
      | _ => (.obj o, none)
  | st => (st, none)

/-- The states loop of `normalize_ir`. -/
def normalizeStateList : List Json → List Json × Option Err
  | [] => ([], none)
  | st :: rest =>
      match normalizeState st with
      | (st', some e) => (st' :: rest, some e)
      | (st', none) =>
          match normalizeStateList rest with
          | (r', err) => (st' :: r', err)

/-- Transitions phase of `normalize_ir` on the state machine
(`for tr in sm.get("transitions", [])`; iterating a present non-iterable
raises, strings/dicts iterate to non-dictionary items which are skipped). -/
def normalizeSmTransitions (sm : Obj) : Obj × Option Err :=
  match objGetD sm "transitions" (.arr []) with
  | .arr trs =>
      match normalizeTransList trs with
      | (trs', err) =>
          (if objHas sm "transitions" then objSet sm "transitions" (.arr trs') else sm,
           err)
  | .str _ => (sm, none)
  | .obj _ => (sm, none)
  | _ => (sm, some pyIterErr)

/-- States phase of `normalize_ir`. -/
def normalizeSmStates (sm : Obj) : Obj × Option Err :=
  match objGetD sm "states" (.arr []) with
  | .arr sts =>
      match normalizeStateList sts with
      | (sts', err) =>
          (if objHas sm "states" then objSet sm "states" (.arr sts') else sm, err)
  | .str _ => (sm, none)
  | .obj _ => (sm, none)
  | _ => (sm, some pyIterErr)

/-- `normalize.normalize_ir`, with the caller's document after the call as
first component (the source mutates `ir` in place and returns it) and the
raised exception, if any, as second. -/
def normalizeIrT (ir : Obj) : Obj × Option Err :=
  match objGet? ir "stateMachine" with
  | some (.obj sm) =>
      match normalizeSmTransitions sm with
      | (sm1, some e) => (objSet ir "stateMachine" (.obj sm1), some e)
      | (sm1, none) =>
          match normalizeSmStates sm1 with
          | (sm2, err) => (objSet ir "stateMachine" (.obj sm2), err)
  | some _ => (ir, none)
  | none => (ir, none)

/-- `normalize.normalize_ir` as a fallible function (`.ok` = the value the
source returns, which is also the caller's mutated document). -/
def normalizeIr (ir : Obj) : Except Err Obj :=
  match normalizeIrT ir with
  | (o, none) => .ok o
  | (_, some e) => .error e

theorem objSet_objSet_same (o : Obj) (k : String) (v w : Json) :
    objSet (objSet o k v) k w = objSet o k w := by
  induction o with
  | nil => simp [objSet]
  | cons p rest ih =>
      obtain ⟨k', v'⟩ := p
      by_cases h : k' = k
      · simp [objSet, h]
      · simp [objSet, h, ih]

/-- Assignments to distinct keys commute, provided at least one of the keys
is already present (so that at most one of them appends). -/
theorem objSet_comm (o : Obj) (k k' : String) (v w : Json) (h : k ≠ k')
    (hmem : objHas o k = true ∨ objHas o k' = true) :
    objSet (objSet o k v) k' w = objSet (objSet o k' w) k v := by
  induction o with
  | nil => simp [objHas, objGet?] at hmem
  | cons p rest ih =>
      obtain ⟨k0, v0⟩ := p
      by_cases h0 : k0 = k
      · subst h0
        simp [objSet, h, Ne.symm h]
      · by_cases h1 : k0 = k'
        · subst h1
          simp [objSet, h0, Ne.symm h]
        · have hmem' : objHas rest k = true ∨ objHas rest k' = true := by
            rcases hmem with hm | hm
            · left
              simpa [objHas, objGet?, h0] using hm
            · right
              simpa [objHas, objGet?, h1] using hm
          simp [objSet, h0, h1, ih hmem']

theorem objHas_of_objGet? (o : Obj) (k : String) (v : Json)
    (h : objGet? o k = some v) : objHas o k = true := by
  simp [objHas, h]

theorem objGetD_of_objGet? (o : Obj) (k : String) (v d : Json)
    (h : objGet? o k = some v) : objGetD o k d = v := by
  simp [objGetD, h]

theorem objGet?_of_objHas_objGetD (o : Obj) (k : String) (d : Json)
    (h : objHas o k = true) : objGet? o k = some (objGetD o k d) := by
  rcases hg : objGet? o k with _ | v
  · simp [objHas, hg] at h
  · simp [objGetD, hg]

theorem jsonDepth_pos (e : Json) : 1 ≤ jsonDepth e := by
  cases e <;> simp [jsonDepth]

theorem jsonDepthObj_lookup (o : Obj) (k : String) (v : Json)
    (h : objGet? o k = some v) : jsonDepth v ≤ jsonDepthObj o := by
  induction o with
  | nil => simp [objGet?] at h
  | cons p rest ih =>
      obtain ⟨k0, v0⟩ := p
      by_cases h0 : k0 = k
      · simp [objGet?, h0] at h
        subst h
        simp [jsonDepthObj]
      · simp [objGet?, h0] at h
        have := ih h
        simp [jsonDepthObj]
        omega

theorem jsonDepthList_mem (l : List Json) (a : Json) (h : a ∈ l) :
    jsonDepth a ≤ jsonDepthList l := by
  induction l with
  | nil => cases h
  | cons b rest ih =>
      rcases List.mem_cons.mp h with rfl | h
      · simp [jsonDepthList]
      · have := ih h
        simp [jsonDepthList]
        omega

theorem jsonDepthObj_objSet (o : Obj) (k : String) (v w : Json)
    (hget : objGet? o k = some w) (hle : jsonDepth v ≤ jsonDepth w) :
    jsonDepthObj (objSet o k v) ≤ jsonDepthObj o := by
  induction o with
  | nil => simp [objGet?] at hget
  | cons p rest ih =>
      obtain ⟨k0, v0⟩ := p
      by_cases h0 : k0 = k
      · simp [objGet?, h0] at hget
        subst hget
        simp [objSet, h0, jsonDepthObj]
        omega
      · simp [objGet?, h0] at hget
        have := ih hget
        simp [objSet, h0, jsonDepthObj]
        omega

/-- Depth of a normalized literal never exceeds the original's. -/
theorem jsonDepth_normalizeLiteral (l : Obj) :
    jsonDepth (.obj (normalizeLiteral l)) ≤ jsonDepth (.obj l) := by
  unfold normalizeLiteral
  by_cases h : objHas l "string" = true
  · simp only [h, if_true]
    rcases hg : objGet? l "string" with _ | v
    · simp [objHas, hg] at h
    · have hv : jsonDepth v ≤ jsonDepthObj l := jsonDepthObj_lookup l _ v hg
      have hv1 : 1 ≤ jsonDepth v := jsonDepth_pos v
      rcases kvGet? VALUE_SYNONYMS (pyLower (pyStrip (pyStr (objGet l "string")))) with _ | s
      · simp [jsonDepth, jsonDepthObj]
        omega
      · simp [jsonDepth, jsonDepthObj]
        omega
  · simp [h]

theorem pyStrip_eq_rdropWhile (s : String) :
    pyStrip s = String.mk (List.rdropWhile isPySpace (s.toList.dropWhile isPySpace)) := rfl

theorem dropWhile_head_false {α} (p : α → Bool) (l : List α) (c : α) (r : List α)
    (h : l.dropWhile p = c :: r) : p c = false := by
  induction l with
  | nil => simp [List.dropWhile] at h
  | cons a rest ih =>
      rw [List.dropWhile_cons] at h
      by_cases ha : p a = true
      · rw [if_pos ha] at h
        exact ih h
      · rw [if_neg ha] at h
        obtain ⟨rfl, -⟩ := List.cons.inj h
        simpa using ha

theorem stripChars_dropWhile (q : Char → Bool) (x : List Char) :
    (List.rdropWhile q (x.dropWhile q)).dropWhile q
      = List.rdropWhile q (x.dropWhile q) := by
  rcases hy : List.rdropWhile q (x.dropWhile q) with _ | ⟨c, r⟩
  · simp
  · obtain ⟨t, ht⟩ := List.rdropWhile_prefix q (x.dropWhile q)
    rw [hy] at ht
    have hx : x.dropWhile q = c :: (r ++ t) := by rw [← ht]; simp
    have hc := dropWhile_head_false q x c (r ++ t) hx
    rw [List.dropWhile_cons, hc]
    simp

theorem pyStrip_idem (s : String) : pyStrip (pyStrip s) = pyStrip s := by
  rw [pyStrip_eq_rdropWhile, pyStrip_eq_rdropWhile]
  congr 1
  have htl : (String.mk (List.rdropWhile isPySpace (s.toList.dropWhile isPySpace))).toList
      = List.rdropWhile isPySpace (s.toList.dropWhile isPySpace) := rfl
  rw [htl, stripChars_dropWhile]
  exact List.rdropWhile_idempotent _ _

theorem kvGet?_mem (m : List (String × String)) (k v : String)
    (h : kvGet? m k = some v) : (k, v) ∈ m := by
  induction m with
  | nil => simp [kvGet?] at h
  | cons p rest ih =>
      obtain ⟨k0, v0⟩ := p
      by_cases h0 : k0 = k
      · subst h0
        simp [kvGet?] at h
        simp [h]
      · simp [kvGet?, h0] at h
        exact List.mem_cons_of_mem _ (ih h)

/-- Every canonical token in the synonym table is a fixed point: it strips
to itself and is not itself a key of the table. -/
theorem value_synonyms_canonical :
    VALUE_SYNONYMS.all (fun p =>
      pyStrip p.2 = p.2 && (kvGet? VALUE_SYNONYMS (pyLower p.2)).isNone) = true := by
  decide

theorem normalizeLiteral_idem (l : Obj) :
    normalizeLiteral (normalizeLiteral l) = normalizeLiteral l := by
  by_cases h : objHas l "string" = true
  · rcases hg : objGet? l "string" with _ | v
    · simp [objHas, hg] at h
    · have hv : objGet l "string" = v := by simp [objGet, objGetD, hg]
      rcases hkv : kvGet? VALUE_SYNONYMS (pyLower (pyStrip (pyStr v))) with _ | w
      · -- not a synonym: the stripped string is stable
        have h1 : normalizeLiteral l = [("string", .str (pyStrip (pyStr v)))] := by
          unfold normalizeLiteral
          rw [if_pos h, hv]
          simp only [hkv]
        rw [h1]
        unfold normalizeLiteral
        have h2 : objHas [("string", Json.str (pyStrip (pyStr v)))] "string" = true := by
          simp [objHas, objGet?]
        rw [if_pos h2]
        have h3 : objGet [("string", Json.str (pyStrip (pyStr v)))] "string"
            = .str (pyStrip (pyStr v)) := by
          simp [objGet, objGetD, objGet?]
        rw [h3]
        have h4 : pyStr (Json.str (pyStrip (pyStr v))) = pyStrip (pyStr v) := rfl
        rw [h4, pyStrip_idem]
        simp only [hkv]
      · -- a synonym: the canonical token is a fixed point
        have hmem := kvGet?_mem _ _ _ hkv
        have hcanon := List.all_eq_true.mp value_synonyms_canonical _ hmem
        simp only [Bool.and_eq_true, Option.isNone_iff_eq_none, decide_eq_true_eq] at hcanon
        have h1 : normalizeLiteral l = [("string", .str w)] := by
          unfold normalizeLiteral
          rw [if_pos h, hv]
          simp only [hkv]
        rw [h1]
        unfold normalizeLiteral
        have h2 : objHas [("string", Json.str w)] "string" = true := by
          simp [objHas, objGet?]
        rw [if_pos h2]
        have h3 : objGet [("string", Json.str w)] "string" = .str w := by
          simp [objGet, objGetD, objGet?]
        rw [h3]
        have h4 : pyStr (Json.str w) = w := rfl
        rw [h4, hcanon.1]
        simp only [hcanon.2]
  · have h1 : normalizeLiteral l = l := by
      unfold normalizeLiteral
      rw [if_neg h]
    rw [h1, h1]

theorem litStep_idem (o : Obj) : litStep (litStep o) = litStep o := by
  unfold litStep
  rcases hg : objGet? o "lit" with _ | v
  · simp [hg]
  · match v, hg with
    | .obj l, hg =>
        simp only [hg]
        rw [objGet?_objSet_same]
        simp only [normalizeLiteral_idem, objSet_objSet_same]
    | .null, hg => simp [hg]
    | .bool b, hg => simp [hg]
    | .num n, hg => simp [hg]
    | .str s, hg => simp [hg]
    | .arr l, hg => simp [hg]

theorem litStep_objSet_ne (x : Obj) (k : String) (v : Json)
    (hx : litStep x = x) (hk : k ≠ "lit") :
    litStep (objSet x k v) = objSet x k v := by
  unfold litStep at hx ⊢
  rcases hg : objGet? x "lit" with _ | w
  · rw [objGet?_objSet_ne x k "lit" v hk, hg]
  · rw [objGet?_objSet_ne x k "lit" v hk, hg]
    match w, hg, hx with
    | .obj l, hg, hx =>
        simp only [hg] at hx
        simp only
        have hmem : objHas x k = true ∨ objHas x "lit" = true :=
          Or.inr (objHas_of_objGet? x "lit" _ hg)
        rw [objSet_comm x k "lit" v _ hk hmem, hx]
    | .null, hg, hx => rfl
    | .bool b, hg, hx => rfl
    | .num n, hg, hx => rfl
    | .str s, hg, hx => rfl
    | .arr l, hg, hx => rfl

theorem jsonDepthObj_litStep (o : Obj) : jsonDepthObj (litStep o) ≤ jsonDepthObj o := by
  unfold litStep
  rcases hg : objGet? o "lit" with _ | v
  · simp
  · match v, hg with
    | .obj l, hg =>
        simp only
        exact jsonDepthObj_objSet o "lit" _ _ hg (jsonDepth_normalizeLiteral l)
    | .null, hg => simp
    | .bool b, hg => simp
    | .num n, hg => simp
    | .str s, hg => simp
    | .arr l, hg => simp

theorem objHas_litStep (o : Obj) (k : String) (hk : k ≠ "lit") :
    objHas (litStep o) k = objHas o k := by
  unfold litStep
  rcases hg : objGet? o "lit" with _ | v
  · rfl
  · match v with
    | .obj l => exact objHas_objSet_ne o "lit" k _ (Ne.symm hk)
    | .null => rfl
    | .bool b => rfl
    | .num n => rfl
    | .str s => rfl
    | .arr l => rfl

theorem walkExprListF_congr (w1 w2 : Json → Json × Option Err) (l : List Json)
    (h : ∀ a ∈ l, w1 a = w2 a) : walkExprListF w1 l = walkExprListF w2 l := by
  induction l with
  | nil => rfl
  | cons a rest ih =>
      unfold walkExprListF
      rw [h a (List.mem_cons_self a rest),
        ih (fun b hb => h b (List.mem_cons_of_mem a hb))]

theorem walkExprT_args_val (o : Obj) (l : List Json)
    (hcond : (objHas (litStep o) "op" && objHas (litStep o) "args") = true)
    (hv : objGetD (litStep o) "args" (.arr []) = .arr l) :
    objGet? (litStep o) "args" = some (.arr l) := by
  have := objGet?_of_objHas_objGetD (litStep o) "args" (.arr [])
    (Bool.and_elim_right hcond)
  rw [hv] at this
  exact this

theorem walkExprT_fuelInv :
    ∀ f g e, jsonDepth e ≤ f → jsonDepth e ≤ g → walkExprT f e = walkExprT g e := by
  intro f
  induction f with
  | zero =>
      intro g e hf
      have := jsonDepth_pos e
      omega
  | succ f ih =>
      intro g e hf hg
      match g with
      | 0 =>
          have := jsonDepth_pos e
          omega
      | g' + 1 =>
          match e with
          | .null => rfl
          | .bool b => rfl
          | .num n => rfl
          | .str s => rfl
          | .arr l => rfl
          | .obj o =>
              simp only [walkExprT]
              by_cases hcond : (objHas (litStep o) "op" && objHas (litStep o) "args") = true
              · simp only [hcond, if_true]
                rcases hv : objGetD (litStep o) "args" (.arr []) with _ | b | n | s | l | o2
                · simp
                · simp
                · simp
                · simp
                · simp only
                  have hget := walkExprT_args_val o l hcond hv
                  have hdo : jsonDepthObj o ≤ f := by
                    simp [jsonDepth] at hf
                    omega
                  have hdo2 : jsonDepthObj o ≤ g' := by
                    simp [jsonDepth] at hg
                    omega
                  have hdl : jsonDepth (.arr l) ≤ jsonDepthObj (litStep o) :=
                    jsonDepthObj_lookup _ _ _ hget
                  have hdl2 : 1 + jsonDepthList l ≤ jsonDepthObj o := by
                    have := jsonDepthObj_litStep o
                    simp [jsonDepth] at hdl
                    omega
                  have heq : walkExprListF (fun a => walkExprT f a) l
                      = walkExprListF (fun a => walkExprT g' a) l := by
                    apply walkExprListF_congr
                    intro a ha
                    have hda := jsonDepthList_mem l a ha
                    exact ih g' a (by omega) (by omega)
                  rw [heq]
                · simp
              · simp [hcond]

theorem walkExprListT_depth_of (f : Nat)
    (h : ∀ e, jsonDepth (walkExprT f e).1 ≤ jsonDepth e) :
    ∀ l, jsonDepthList (walkExprListF (fun a => walkExprT f a) l).1 ≤ jsonDepthList l := by
  intro l
  induction l with
  | nil => simp [walkExprListF, jsonDepthList]
  | cons a rest ih =>
      rcases ha : walkExprT f a with ⟨a', err⟩
      have hda : jsonDepth a' ≤ jsonDepth a := by
        have := h a
        rw [ha] at this
        exact this
      match err with
      | some e2 =>
          simp only [walkExprListF, ha, jsonDepthList]
          omega
      | none =>
          rcases hr : walkExprListF (fun a => walkExprT f a) rest with ⟨r', err2⟩
          rw [hr] at ih
          simp only [walkExprListF, ha, hr, jsonDepthList]
          simp only at ih
          omega

theorem walkExprT_depth : ∀ f e, jsonDepth (walkExprT f e).1 ≤ jsonDepth e := by
  intro f
  induction f with
  | zero => intro e; simp [walkExprT]
  | succ f ih =>
      intro e
      match e with
      | .null => simp [walkExprT]
      | .bool b => simp [walkExprT]
      | .num n => simp [walkExprT]
      | .str s => simp [walkExprT]
      | .arr l => simp [walkExprT]
      | .obj o =>
          simp only [walkExprT]
          have hlit : jsonDepthObj (litStep o) ≤ jsonDepthObj o := jsonDepthObj_litStep o
          by_cases hcond : (objHas (litStep o) "op" && objHas (litStep o) "args") = true
          · simp only [hcond, if_true]
            rcases hv : objGetD (litStep o) "args" (.arr []) with _ | b | n | s | l | o2
            · simp [jsonDepth]
              omega
            · simp [jsonDepth]
              omega
            · simp [jsonDepth]
              omega
            · simp [jsonDepth]
              omega
            · simp only
              have hget := walkExprT_args_val o l hcond hv
              rcases hl : walkExprListF (fun a => walkExprT f a) l with ⟨l', err⟩
              have hdl : jsonDepthList l' ≤ jsonDepthList l := by
                have := walkExprListT_depth_of f ih l
                rw [hl] at this
                exact this
              have hset : jsonDepthObj (objSet (litStep o) "args" (.arr l'))
                  ≤ jsonDepthObj (litStep o) := by
                apply jsonDepthObj_objSet _ _ _ _ hget
                simp [jsonDepth]
                omega
              simp only [hl, jsonDepth]
              omega
            · simp [jsonDepth]
              omega
          · simp only [hcond, if_false]
            simp [jsonDepth]
            omega

theorem walkExprListF_idem (f : Nat)
    (helem : ∀ e e', walkExprT f e = (e', none) → walkExprT f e' = (e', none)) :
    ∀ l l', walkExprListF (fun a => walkExprT f a) l = (l', none) →
      walkExprListF (fun a => walkExprT f a) l' = (l', none) := by
  intro l
  induction l with
  | nil =>
      intro l' h
      simp only [walkExprListF] at h
      obtain ⟨rfl, -⟩ := Prod.mk.inj (h)
      rfl
  | cons a rest ih =>
      intro l' h
      rcases ha : walkExprT f a with ⟨a', err⟩
      match err with
      | some e2 =>
          simp only [walkExprListF, ha] at h
          cases (Prod.mk.inj h).2
      | none =>
          rcases hr : walkExprListF (fun a => walkExprT f a) rest with ⟨r', err2⟩
          simp only [walkExprListF, ha, hr] at h
          obtain ⟨rfl, herr⟩ := Prod.mk.inj h
          match err2, herr with
          | none, _ =>
              have ha' := helem a a' ha
              have hr' := ih r' hr
              simp only [walkExprListF, ha', hr']

theorem walkExprT_idem :
    ∀ f e e', walkExprT f e = (e', none) → walkExprT f e' = (e', none) := by
  intro f
  induction f with
  | zero =>
      intro e e' h
      simp [walkExprT] at h
  | succ f ih =>
      intro e e' h
      match e with
      | .null => exact (Prod.mk.inj h).1 ▸ h
      | .bool b => exact (Prod.mk.inj h).1 ▸ h
      | .num n => exact (Prod.mk.inj h).1 ▸ h
      | .str s => exact (Prod.mk.inj h).1 ▸ h
      | .arr l => exact (Prod.mk.inj h).1 ▸ h
      | .obj o =>
          simp only [walkExprT] at h
          by_cases hcond : (objHas (litStep o) "op" && objHas (litStep o) "args") = true
          · simp only [hcond, if_true] at h
            rcases hv : objGetD (litStep o) "args" (.arr []) with _ | b | n | s | l | o2
            all_goals simp only [hv] at h
            · cases (Prod.mk.inj h).2
            · cases (Prod.mk.inj h).2
            · cases (Prod.mk.inj h).2
            · -- args is a string: the walk is a no-op
              obtain ⟨rfl, -⟩ := Prod.mk.inj h
              simp only [walkExprT, litStep_idem]
              rw [if_pos hcond, hv]
            · -- args is a list
              rcases hl : walkExprListF (fun a => walkExprT f a) l with ⟨l', err⟩
              simp only [hl] at h
              obtain ⟨rfl, herr⟩ := Prod.mk.inj h
              match err, herr with
              | none, _ =>
                  have hx := litStep_objSet_ne (litStep o) "args" (.arr l')
                    (litStep_idem o) (by decide)
                  simp only [walkExprT, hx]
                  have hop : objHas (objSet (litStep o) "args" (.arr l')) "op" = true := by
                    rw [objHas_objSet_ne _ _ _ _ (by decide)]
                    exact Bool.and_elim_left hcond
                  have hargs : objHas (objSet (litStep o) "args" (.arr l')) "args" = true :=
                    objHas_objSet_same _ _ _
                  rw [if_pos (by rw [hop, hargs]; rfl)]
                  have hgd : objGetD (objSet (litStep o) "args" (.arr l')) "args" (.arr [])
                      = .arr l' := by
                    simp [objGetD, objGet?_objSet_same]
                  have hl' := walkExprListF_idem f ih l l' hl
                  simp only [hgd, hl', objSet_objSet_same]
            · -- args is a dict: the walk is a no-op
              obtain ⟨rfl, -⟩ := Prod.mk.inj h
              simp only [walkExprT, litStep_idem]
              rw [if_pos hcond, hv]
          · simp only [hcond, if_false] at h
            obtain ⟨rfl, -⟩ := Prod.mk.inj h
            simp only [walkExprT, litStep_idem]
            rw [if_neg hcond]

/-- The `walk_expr` call as made by `normalize_ir` (fuel = depth of the
walked expression) is idempotent. -/
theorem walkExpr_call_idem (g g' : Json)
    (h : walkExprT (jsonDepth g) g = (g', none)) :
    walkExprT (jsonDepth g') g' = (g', none) := by
  have h1 : walkExprT (jsonDepth g) g' = (g', none) := walkExprT_idem _ g g' h
  have hd : jsonDepth g' ≤ jsonDepth g := by
    have := walkExprT_depth (jsonDepth g) g
    rw [h] at this
    exact this
  rw [walkExprT_fuelInv (jsonDepth g') (jsonDepth g) g' (le_refl _) hd]
  exact h1

theorem walkTriggersF_idem (t : Json) :
    walkTriggersF (walkTriggersF t) = walkTriggersF t := by
  match t with
  | .null => rfl
  | .bool b => rfl
  | .num n => rfl
  | .str s => rfl
  | .obj o => rfl
  | .arr ts =>
      simp only [walkTriggersF, List.map_map]
      congr 1
      apply List.map_congr_left
      intro t ht
      simp only [Function.comp_apply]
      match t with
      | .null => rfl
      | .bool b => rfl
      | .num n => rfl
      | .str s => rfl
      | .arr l => rfl
      | .obj o =>
          by_cases hb : pyEqStr (objGet o "type") "becomes" = true
          · simp only [hb, if_true]
            rcases hv : objGet? o "value" with _ | v
            · simp [hb, hv]
            · match v, hv with
              | .obj vo, hv =>
                  simp only [hv]
                  have hb2 : pyEqStr (objGet (objSet o "value" (.obj (normalizeLiteral vo)))
                      "type") "becomes" = true := by
                    rw [objGet, objGetD, objGet?_objSet_ne _ _ _ _ (by decide)]
                    exact hb
                  simp only [hb2, if_true, objGet?_objSet_same]
                  rw [normalizeLiteral_idem, objSet_objSet_same]
              | .null, hv => simp [hb, hv]
              | .bool b2, hv => simp [hb, hv]
              | .num n2, hv => simp [hb, hv]
              | .str s2, hv => simp [hb, hv]
              | .arr l2, hv => simp [hb, hv]
          · simp [hb]

theorem walkActionsF_idem (t : Json) :
    walkActionsF (walkActionsF t) = walkActionsF t := by
  match t with
  | .null => rfl
  | .bool b => rfl
  | .num n => rfl
  | .str s => rfl
  | .obj o => rfl
  | .arr as0 =>
      simp only [walkActionsF, List.map_map]
      congr 1
      apply List.map_congr_left
      intro a ha
      simp only [Function.comp_apply]
      match a with
      | .null => rfl
      | .bool b => rfl
      | .num n => rfl
      | .str s => rfl
      | .arr l => rfl
      | .obj o =>
          by_cases hc : pyEqStr (objGet o "type") "command" = true
          · simp only [hc, if_true]
            rcases hv : objGet o "command" with _ | b | n | s | l | o2
            · simp [hc, hv]
            · simp [hc, hv]
            · simp [hc, hv]
            · simp only
              by_cases hon : strIn (pyLower (pyStrip s)) ["turn_on", "turnon", "on"] = true
              · simp only [hon, if_true]
                have ht : pyEqStr (objGet (objSet o "command" (.str "on")) "type")
                    "command" = true := by
                  rw [objGet, objGetD, objGet?_objSet_ne _ _ _ _ (by decide)]
                  exact hc
                have hg : objGet (objSet o "command" (.str "on")) "command" = .str "on" := by
                  simp [objGet, objGetD, objGet?_objSet_same]
                simp only [ht, if_true, hg]
                have : strIn (pyLower (pyStrip "on")) ["turn_on", "turnon", "on"] = true := by
                  decide
                simp only [this, if_true, objSet_objSet_same]
              · by_cases hoff : strIn (pyLower (pyStrip s)) ["turn_off", "turnoff", "off"] = true
                · simp only [hon, hoff, if_true, if_false, Bool.false_eq_true]
                  have ht : pyEqStr (objGet (objSet o "command" (.str "off")) "type")
                      "command" = true := by
                    rw [objGet, objGetD, objGet?_objSet_ne _ _ _ _ (by decide)]
                    exact hc
                  have hg : objGet (objSet o "command" (.str "off")) "command"
                      = .str "off" := by
                    simp [objGet, objGetD, objGet?_objSet_same]
                  simp only [ht, if_true, hg]
                  have h1 : strIn (pyLower (pyStrip "off")) ["turn_on", "turnon", "on"]
                      = false := by decide
                  have h2 : strIn (pyLower (pyStrip "off")) ["turn_off", "turnoff", "off"]
                      = true := by decide
                  simp only [h1, h2, if_true, if_false, Bool.false_eq_true,
                    objSet_objSet_same]
                · simp [hon, hoff, hc, hv]
            · simp [hc, hv]
            · simp [hc, hv]
          · simp [hc]

theorem trigStep_fix (x : Obj)
    (h : ∀ w, objGet? x "triggers" = some w → walkTriggersF w = w) :
    (if objHas x "triggers" then
      objSet x "triggers" (walkTriggersF (objGet x "triggers")) else x) = x := by
  by_cases hx : objHas x "triggers" = true
  · rw [if_pos hx]
    have hg : objGet? x "triggers" = some (objGet x "triggers") :=
      objGet?_of_objHas_objGetD x "triggers" .null hx
    rw [h _ hg]
    exact objSet_self x "triggers" _ hg
  · rw [if_neg hx]

theorem actStep_fix (x : Obj)
    (h : ∀ w, objGet? x "actions" = some w → walkActionsF w = w) :
    (if objHas x "actions" then
      objSet x "actions" (walkActionsF (objGet x "actions")) else x) = x := by
  by_cases hx : objHas x "actions" = true
  · rw [if_pos hx]
    have hg : objGet? x "actions" = some (objGet x "actions") :=
      objGet?_of_objHas_objGetD x "actions" .null hx
    rw [h _ hg]
    exact objSet_self x "actions" _ hg
  · rw [if_neg hx]

/-- A transition whose triggers/guard/actions values are already walk-fixed
passes through `normalizeTransition` unchanged. -/
theorem normalizeTransition_fix (x : Obj)
    (hTf : ∀ w, objGet? x "triggers" = some w → walkTriggersF w = w)
    (hGf : ∀ w, objGet? x "guard" = some w → walkExprT (jsonDepth w) w = (w, none))
    (hAf : ∀ w, objGet? x "actions" = some w → walkActionsF w = w) :
    normalizeTransition (.obj x) = (.obj x, none) := by
  simp only [normalizeTransition]
  rw [trigStep_fix x hTf]
  by_cases hG : objHas x "guard" = true
  · rw [if_pos hG]
    have hg : objGet? x "guard" = some (objGet x "guard") :=
      objGet?_of_objHas_objGetD x "guard" .null hG
    rw [hGf _ hg]
    simp only [objSet_self x "guard" _ hg]
    rw [actStep_fix x hAf]
  · rw [if_neg hG]
    rw [actStep_fix x hAf]

theorem normalizeTransition_idem (tr tr' : Json)
    (h : normalizeTransition tr = (tr', none)) :
    normalizeTransition tr' = (tr', none) := by
  match tr with
  | .null => exact (Prod.mk.inj h).1 ▸ h
  | .bool b => exact (Prod.mk.inj h).1 ▸ h
  | .num n => exact (Prod.mk.inj h).1 ▸ h
  | .str s => exact (Prod.mk.inj h).1 ▸ h
  | .arr l => exact (Prod.mk.inj h).1 ▸ h
  | .obj o =>
      simp only [normalizeTransition] at h
      -- the trigger-stepped object satisfies the triggers fixed-point property
      have hTF1 : ∀ w, objGet? (if objHas o "triggers" = true then
          objSet o "triggers" (walkTriggersF (objGet o "triggers")) else o) "triggers"
          = some w → walkTriggersF w = w := by
        intro w hw
        by_cases hT : objHas o "triggers" = true
        · rw [if_pos hT, objGet?_objSet_same] at hw
          obtain rfl := Option.some.inj hw
          exact walkTriggersF_idem _
        · rw [if_neg hT] at hw
          rw [objHas] at hT
          rw [hw] at hT
          simp at hT
      set o1 := (if objHas o "triggers" = true then
        objSet o "triggers" (walkTriggersF (objGet o "triggers")) else o) with ho1
      by_cases hG : objHas o1 "guard" = true
      · rw [if_pos hG] at h
        rcases hw : walkExprT (jsonDepth (objGet o1 "guard")) (objGet o1 "guard")
          with ⟨g', err⟩
        rw [hw] at h
        match err, h with
        | none, h =>
            simp only at h
            obtain ⟨htr', -⟩ := Prod.mk.inj h
            -- tr' = .obj o3 with o3 the action-stepped guard-updated object
            by_cases hA : objHas (objSet o1 "guard" g') "actions" = true
            · rw [if_pos hA] at htr'
              subst htr'
              apply normalizeTransition_fix
              · intro w hw2
                apply hTF1
                rw [← hw2, objGet?_objSet_ne _ _ _ _ (by decide),
                  objGet?_objSet_ne _ _ _ _ (by decide)]
              · intro w hw2
                rw [objGet?_objSet_ne _ _ _ _ (by decide), objGet?_objSet_same] at hw2
                obtain rfl := Option.some.inj hw2
                have hgv : objGet o1 "guard" = objGetD o1 "guard" .null := rfl
                exact walkExpr_call_idem _ _ hw
              · intro w hw2
                rw [objGet?_objSet_same] at hw2
                obtain rfl := Option.some.inj hw2
                exact walkActionsF_idem _
            · rw [if_neg hA] at htr'
              subst htr'
              apply normalizeTransition_fix
              · intro w hw2
                apply hTF1
                rw [← hw2, objGet?_objSet_ne _ _ _ _ (by decide)]
              · intro w hw2
                rw [objGet?_objSet_same] at hw2
                obtain rfl := Option.some.inj hw2
                exact walkExpr_call_idem _ _ hw
              · intro w hw2
                rw [objHas, objGet?_objSet_ne _ _ _ _ (by decide)] at hA
                rw [objGet?_objSet_ne _ _ _ _ (by decide)] at hw2
                rw [hw2] at hA
                simp at hA
      · rw [if_neg hG] at h
        obtain ⟨htr', -⟩ := Prod.mk.inj h
        by_cases hA : objHas o1 "actions" = true
        · rw [if_pos hA] at htr'
          subst htr'
          apply normalizeTransition_fix
          · intro w hw2
            apply hTF1
            rw [← hw2, objGet?_objSet_ne _ _ _ _ (by decide)]
          · intro w hw2
            rw [objGet?_objSet_ne _ _ _ _ (by decide)] at hw2
            rw [objHas] at hG
            rw [hw2] at hG
            simp at hG
          · intro w hw2
            rw [objGet?_objSet_same] at hw2
            obtain rfl := Option.some.inj hw2
            exact walkActionsF_idem _
        · rw [if_neg hA] at htr'
          subst htr'
          apply normalizeTransition_fix
          · exact hTF1
          · intro w hw2
            rw [objHas] at hG
            rw [hw2] at hG
            simp at hG
          · intro w hw2
            rw [objHas] at hA
            rw [hw2] at hA
            simp at hA

theorem objGetD_objSet_ne (o : Obj) (k k' : String) (v d : Json) (h : k ≠ k') :
    objGetD (objSet o k v) k' d = objGetD o k' d := by
  simp [objGetD, objGet?_objSet_ne o k k' v h]

theorem objGetD_objSet_same (o : Obj) (k : String) (v d : Json) :
    objGetD (objSet o k v) k d = v := by
  simp [objGetD, objGet?_objSet_same]

theorem normalizeTransList_idem (l l' : List Json)
    (h : normalizeTransList l = (l', none)) :
    normalizeTransList l' = (l', none) := by
  induction l generalizing l' with
  | nil =>
      simp only [normalizeTransList] at h
      obtain ⟨rfl, -⟩ := Prod.mk.inj h
      rfl
  | cons tr rest ih =>
      rcases ht : normalizeTransition tr with ⟨tr', err⟩
      match err with
      | some e =>
          simp only [normalizeTransList, ht] at h
          cases (Prod.mk.inj h).2
      | none =>
          rcases hr : normalizeTransList rest with ⟨r', err2⟩
          simp only [normalizeTransList, ht, hr] at h
          obtain ⟨rfl, herr⟩ := Prod.mk.inj h
          match err2, herr with
          | none, _ =>
              have ht' := normalizeTransition_idem tr tr' ht
              have hr' := ih r' hr
              simp only [normalizeTransList, ht', hr']

theorem normalizeInvList_idem (l l' : List Json)
    (h : normalizeInvList l = (l', none)) :
    normalizeInvList l' = (l', none) := by
  induction l generalizing l' with
  | nil =>
      simp only [normalizeInvList] at h
      obtain ⟨rfl, -⟩ := Prod.mk.inj h
      rfl
  | cons e0 rest ih =>
      rcases he : walkExprT (jsonDepth e0) e0 with ⟨e0', err⟩
      match err with
      | some e2 =>
          simp only [normalizeInvList, he] at h
          cases (Prod.mk.inj h).2
      | none =>
          rcases hr : normalizeInvList rest with ⟨r', err2⟩
          simp only [normalizeInvList, he, hr] at h
          obtain ⟨rfl, herr⟩ := Prod.mk.inj h
          match err2, herr with
          | none, _ =>
              have he' := walkExpr_call_idem e0 e0' he
              have hr' := ih r' hr
              simp only [normalizeInvList, he', hr']

theorem normalizeState_idem (st st' : Json)
    (h : normalizeState st = (st', none)) :
    normalizeState st' = (st', none) := by
  match st with
  | .null => exact (Prod.mk.inj h).1 ▸ h
  | .bool b => exact (Prod.mk.inj h).1 ▸ h
  | .num n => exact (Prod.mk.inj h).1 ▸ h
  | .str s => exact (Prod.mk.inj h).1 ▸ h
  | .arr l => exact (Prod.mk.inj h).1 ▸ h
  | .obj o =>
      rcases hg : objGet? o "invariants" with _ | v
      · simp only [normalizeState, hg] at h
        obtain ⟨rfl, -⟩ := Prod.mk.inj h
        simp only [normalizeState, hg]
      · match v, hg with
        | .arr inv, hg =>
            rcases hi : normalizeInvList inv with ⟨inv', err⟩
            simp only [normalizeState, hg, hi] at h
            obtain ⟨rfl, herr⟩ := Prod.mk.inj h
            match err, herr with
            | none, _ =>
                have hi' := normalizeInvList_idem inv inv' hi
                simp only [normalizeState, objGet?_objSet_same, hi',
                  objSet_objSet_same]
        | .null, hg =>
            simp only [normalizeState, hg] at h
            obtain ⟨rfl, -⟩ := Prod.mk.inj h
            simp only [normalizeState, hg]
        | .bool b, hg =>
            simp only [normalizeState, hg] at h
            obtain ⟨rfl, -⟩ := Prod.mk.inj h
            simp only [normalizeState, hg]
        | .num n, hg =>
            simp only [normalizeState, hg] at h
            obtain ⟨rfl, -⟩ := Prod.mk.inj h
            simp only [normalizeState, hg]
        | .str s, hg =>
            simp only [normalizeState, hg] at h
            obtain ⟨rfl, -⟩ := Prod.mk.inj h
            simp only [normalizeState, hg]
        | .obj o2, hg =>
            simp only [normalizeState, hg] at h
            obtain ⟨rfl, -⟩ := Prod.mk.inj h
            simp only [normalizeState, hg]

theorem normalizeStateList_idem (l l' : List Json)
    (h : normalizeStateList l = (l', none)) :
    normalizeStateList l' = (l', none) := by
  induction l generalizing l' with
  | nil =>
      simp only [normalizeStateList] at h
      obtain ⟨rfl, -⟩ := Prod.mk.inj h
      rfl
  | cons st rest ih =>
      rcases ht : normalizeState st with ⟨st', err⟩
      match err with
      | some e =>
          simp only [normalizeStateList, ht] at h
          cases (Prod.mk.inj h).2
      | none =>
          rcases hr : normalizeStateList rest with ⟨r', err2⟩
          simp only [normalizeStateList, ht, hr] at h
          obtain ⟨rfl, herr⟩ := Prod.mk.inj h
          match err2, herr with
          | none, _ =>
              have ht' := normalizeState_idem st st' ht
              have hr' := ih r' hr
              simp only [normalizeStateList, ht', hr']

theorem normalizeSmStates_shape (sm sm' : Obj) (e : Option Err)
    (h : normalizeSmStates sm = (sm', e)) :
    sm' = sm ∨ ∃ w, sm' = objSet sm "states" w := by
  rcases hG : objGetD sm "states" (.arr []) with _ | b | n | s | sts | o2 <;>
    simp only [normalizeSmStates, hG] at h
  · exact Or.inl (Prod.mk.inj h).1.symm
  · exact Or.inl (Prod.mk.inj h).1.symm
  · exact Or.inl (Prod.mk.inj h).1.symm
  · exact Or.inl (Prod.mk.inj h).1.symm
  · rcases hL : normalizeStateList sts with ⟨sts', err⟩
    simp only [hL] at h
    have h1 := (Prod.mk.inj h).1
    by_cases hHas : objHas sm "states"
    · rw [if_pos hHas] at h1
      exact Or.inr ⟨.arr sts', h1.symm⟩
    · rw [if_neg hHas] at h1
      exact Or.inl h1.symm
  · exact Or.inl (Prod.mk.inj h).1.symm

theorem normalizeSmTransitions_after_states (sm sm1 sm2 : Obj)
    (hT : normalizeSmTransitions sm = (sm1, none))
    (hS : normalizeSmStates sm1 = (sm2, none)) :
    normalizeSmTransitions sm2 = (sm2, none) := by
  have hGD : objGetD sm2 "transitions" (.arr []) = objGetD sm1 "transitions" (.arr []) := by
    rcases normalizeSmStates_shape sm1 sm2 none hS with h2 | ⟨w, h2⟩
    · rw [h2]
    · rw [h2]; exact objGetD_objSet_ne sm1 "states" "transitions" w _ (by decide)
  have hHas2 : objHas sm2 "transitions" = objHas sm1 "transitions" := by
    rcases normalizeSmStates_shape sm1 sm2 none hS with h2 | ⟨w, h2⟩
    · rw [h2]
    · rw [h2]; exact objHas_objSet_ne sm1 "states" "transitions" w (by decide)
  rcases hG : objGetD sm "transitions" (.arr []) with _ | b | n | s | trs | o2 <;>
    simp only [normalizeSmTransitions, hG] at hT
  · cases (Prod.mk.inj hT).2
  · cases (Prod.mk.inj hT).2
  · cases (Prod.mk.inj hT).2
  · have h1 := (Prod.mk.inj hT).1
    rw [← h1] at hGD hHas2
    simp only [normalizeSmTransitions, hGD, hG, hHas2]
  · rcases hL : normalizeTransList trs with ⟨trs', err⟩
    simp only [hL] at hT
    obtain ⟨h1, herr⟩ := Prod.mk.inj hT
    match err, herr with
    | none, _ =>
        by_cases hHas : objHas sm "transitions"
        · rw [if_pos hHas] at h1
          have hGD1 : objGetD sm1 "transitions" (.arr []) = .arr trs' := by
            rw [← h1]; exact objGetD_objSet_same sm "transitions" (.arr trs') _
          have hHas1 : objHas sm1 "transitions" = true := by
            rw [← h1]; exact objHas_objSet_same sm "transitions" (.arr trs')
          have hGD2 : objGetD sm2 "transitions" (.arr []) = .arr trs' := hGD.trans hGD1
          have hHas2' : objHas sm2 "transitions" = true := hHas2.trans hHas1
          have hidem := normalizeTransList_idem trs trs' hL
          have hget2 : objGet? sm2 "transitions" = some (.arr trs') := by
            have := objGet?_of_objHas_objGetD sm2 "transitions" (.arr []) hHas2'
            rw [hGD2] at this; exact this
          simp only [normalizeSmTransitions, hGD2, hidem, hHas2', if_true,
            objSet_self sm2 "transitions" (.arr trs') hget2]
        · rw [if_neg hHas] at h1
          rw [← h1] at hGD hHas2
          simp only [normalizeSmTransitions, hGD, hG, hL, hHas2, hHas,
            Bool.false_eq_true, if_false]
  · have h1 := (Prod.mk.inj hT).1
    rw [← h1] at hGD hHas2
    simp only [normalizeSmTransitions, hGD, hG, hHas2]

theorem normalizeSmStates_idem (sm1 sm2 : Obj)
    (hS : normalizeSmStates sm1 = (sm2, none)) :
    normalizeSmStates sm2 = (sm2, none) := by
  rcases hG : objGetD sm1 "states" (.arr []) with _ | b | n | s | sts | o2 <;>
    simp only [normalizeSmStates, hG] at hS
  · cases (Prod.mk.inj hS).2
  · cases (Prod.mk.inj hS).2
  · cases (Prod.mk.inj hS).2
  · have h1 := (Prod.mk.inj hS).1
    rw [← h1]
    simp only [normalizeSmStates, hG]
  · rcases hL : normalizeStateList sts with ⟨sts', err⟩
    simp only [hL] at hS
    obtain ⟨h1, herr⟩ := Prod.mk.inj hS
    match err, herr with
    | none, _ =>
        by_cases hHas : objHas sm1 "states"
        · rw [if_pos hHas] at h1
          have hGD2 : objGetD sm2 "states" (.arr []) = .arr sts' := by
            rw [← h1]; exact objGetD_objSet_same sm1 "states" (.arr sts') _
          have hHas2 : objHas sm2 "states" = true := by
            rw [← h1]; exact objHas_objSet_same sm1 "states" (.arr sts')
          have hidem := normalizeStateList_idem sts sts' hL
          have hget2 : objGet? sm2 "states" = some (.arr sts') := by
            have := objGet?_of_objHas_objGetD sm2 "states" (.arr []) hHas2
            rw [hGD2] at this; exact this
          simp only [normalizeSmStates, hGD2, hidem, hHas2, if_true,
            objSet_self sm2 "states" (.arr sts') hget2]
        · rw [if_neg hHas] at h1
          rw [← h1]
          simp only [normalizeSmStates, hG, hL, hHas, Bool.false_eq_true, if_false]
  · have h1 := (Prod.mk.inj hS).1
    rw [← h1]
    simp only [normalizeSmStates, hG]

theorem normalizeIrT_idem (ir ir' : Obj)
    (h : normalizeIrT ir = (ir', none)) :
    normalizeIrT ir' = (ir', none) := by
  rcases hG : objGet? ir "stateMachine" with _ | v
  · simp only [normalizeIrT, hG] at h
    rw [← (Prod.mk.inj h).1]
    simp only [normalizeIrT, hG]
  · match v, hG with
    | .obj sm, hG =>
        rcases hT : normalizeSmTransitions sm with ⟨sm1, e1⟩
        match e1 with
        | some e =>
            simp only [normalizeIrT, hG, hT] at h
            cases (Prod.mk.inj h).2
        | none =>
            rcases hS : normalizeSmStates sm1 with ⟨sm2, e2⟩
            simp only [normalizeIrT, hG, hT, hS] at h
            obtain ⟨h1, herr⟩ := Prod.mk.inj h
            match e2, herr with
            | none, _ =>
                have hg2 : objGet? ir' "stateMachine" = some (.obj sm2) := by
                  rw [← h1]; exact objGet?_objSet_same ir "stateMachine" (.obj sm2)
                have hT2 := normalizeSmTransitions_after_states sm sm1 sm2 hT hS
                have hS2 := normalizeSmStates_idem sm1 sm2 hS
                have hcollapse : objSet ir' "stateMachine" (.obj sm2) = ir' := by
                  exact objSet_self ir' "stateMachine" (.obj sm2) hg2
                simp only [normalizeIrT, hg2, hT2, hS2, hcollapse]
    | .null, hG =>
        simp only [normalizeIrT, hG] at h
        rw [← (Prod.mk.inj h).1]
        simp only [normalizeIrT, hG]
    | .bool b, hG =>
        simp only [normalizeIrT, hG] at h
        rw [← (Prod.mk.inj h).1]
        simp only [normalizeIrT, hG]
    | .num n, hG =>
        simp only [normalizeIrT, hG] at h
        rw [← (Prod.mk.inj h).1]
        simp only [normalizeIrT, hG]
    | .str s, hG =>
        simp only [normalizeIrT, hG] at h
        rw [← (Prod.mk.inj h).1]
        simp only [normalizeIrT, hG]
    | .arr l, hG =>
        simp only [normalizeIrT, hG] at h
        rw [← (Prod.mk.inj h).1]
        simp only [normalizeIrT, hG]

/-- C9: `normalize_ir` is idempotent on every document it accepts: if a
first run returns `out` (without raising), running `normalize_ir` on `out`
returns `out` unchanged — no canonical token produced by the literal
synonym mapping or the command alias table is remapped by a second pass. -/
theorem normalize_ir_idempotent (ir out : Obj)
    (h : normalizeIr ir = .ok out) : normalizeIr out = .ok out := by
  unfold normalizeIr at h ⊢
  rcases hT : normalizeIrT ir with ⟨o, err⟩
  rw [hT] at h
  match err, h with
  | none, h =>
      have ho : o = out := Except.ok.inj h
      rw [ho] at hT
      simp only [normalizeIrT_idem ir out hT]

/-- A concrete document exercising the literal synonym mapping
(a becomes-trigger with value "detected"). -/
def c9IrW : Obj :=
  [("stateMachine", .obj [
    ("states", .arr [.obj [("id", .str "Idle")], .obj [("id", .str "On")]]),
    ("transitions", .arr [.obj [
      ("from", .str "Idle"), ("to", .str "On"),
      ("triggers", .arr [.obj [("type", .str "becomes"),
        ("ref", .obj [("device", .str "motion"), ("path", .str "motion")]),
        ("value", .obj [("string", .str "detected")])]]),
      ("actions", .arr [])]])])]

/-- The result of one normalization pass on `c9IrW`. -/
def c9OutW : Obj := (normalizeIrT c9IrW).1

theorem normalize_ir_idempotent_witness :
    normalizeIr c9IrW = .ok c9OutW ∧ normalizeIr c9OutW = .ok c9OutW :=
  ⟨rfl, normalize_ir_idempotent c9IrW c9OutW rfl⟩

/-! ## Claim C7 — pipeline stages and the caller's document -/

/-- A document on which `normalize_ir` rewrites a literal (the synonym
"detected" becomes "active"), so the caller's document changes. -/
def c7Doc : Obj :=
  [("stateMachine", .obj [("transitions", .arr [.obj [
    ("triggers", .arr [.obj [("type", .str "becomes"),
      ("value", .obj [("string", .str "detected")])]])]])])]

/-- A document on which `coerce_ir_shape` rewrites the state list (string
states become objects and an initial state is added). -/
def c7CoerceDoc : Obj :=
  [("stateMachine", .obj [("states", .arr [.str "Idle"])])]

/-- A document on which `desugar_delays_to_timer_states` splits a
transition (a delay followed by a command). -/
def c7DelayDoc : Obj :=
  [("stateMachine", .obj [("states", .arr []), ("transitions", .arr [.obj [
    ("from", .str "A"), ("to", .str "B"),
    ("actions", .arr [.obj [("type", .str "delay"), ("seconds", .num 5)],
      .obj [("type", .str "command"), ("device", .str "d"),
        ("command", .str "on")]])]])])]

/-- The caller's document after `coerce_ir_shape` on `c7CoerceDoc`. -/
def c7CoerceOut : Obj := (coerceIrShapeT c7CoerceDoc []).2

/-- The caller's document after `normalize_ir` on `c7Doc`. -/
def c7Out : Obj := (normalizeIrT c7Doc).1

/-- C7 (counterexample): `normalize_ir` succeeds on `c7Doc`, yet the
caller's document after the call differs from the original — the stage
mutates the document it is given rather than working on an owned copy. -/
theorem normalize_ir_mutates_caller_doc :
    (normalizeIrT c7Doc).2 = none ∧ (normalizeIrT c7Doc).1 ≠ c7Doc :=
  ⟨rfl, by decide⟩

/-- C7 (amended): the stages work in place. Whenever `coerce_ir_shape` or
`normalize_ir` returns a document, the caller's document after the call is
that returned document; and each of the three stages changes the caller's
document on some input, so the original is not preserved in general. -/
theorem pipeline_stages_mutate_in_place :
    (∀ ir cat out, coerceIrShape ir cat = .ok out →
      (coerceIrShapeT ir cat).2 = out) ∧
    (∀ ir out, normalizeIr ir = .ok out → (normalizeIrT ir).1 = out) ∧
    (coerceIrShapeT c7CoerceDoc []).2 ≠ c7CoerceDoc ∧
    (normalizeIrT c7Doc).1 ≠ c7Doc ∧
    desugarFn c7DelayDoc ≠ c7DelayDoc := by
  refine ⟨?_, ?_, by decide, by decide, by decide⟩
  · intro ir cat out h
    unfold coerceIrShape at h
    unfold coerceIrShapeT
    rcases hB : buildIdToKind cat with e | m
    · rw [hB] at h; cases h
    · rw [hB] at h
      simp only
      exact Except.ok.inj h
  · intro ir out h
    unfold normalizeIr at h
    rcases hT : normalizeIrT ir with ⟨o, err⟩
    rw [hT] at h
    match err, h with
    | none, h => exact Except.ok.inj h

theorem pipeline_stages_mutate_in_place_witness :
    (coerceIrShapeT c7CoerceDoc []).2 = c7CoerceOut ∧
    (normalizeIrT c7Doc).1 = c7Out :=
  ⟨pipeline_stages_mutate_in_place.1 c7CoerceDoc [] c7CoerceOut rfl,
   pipeline_stages_mutate_in_place.2.1 c7Doc c7Out rfl⟩

/-! ## Claim C6 — totality of the shape normalizer -/

/-- C6 (counterexample): on the catalog `{"devices": true}` the very first
statement of `coerce_ir_shape` iterates a truthy non-iterable and raises a
`TypeError`, so the shape normalizer does not return a document for every
raw document and catalog. -/
theorem coerce_ir_shape_raises_on_scalar_catalog :
    coerceIrShape [] [("devices", .bool true)] =
      .error "TypeError: object is not iterable" := rfl

/-- C6 (amended): `coerce_ir_shape` can fail only while iterating the
catalog; whenever the catalog's "devices" and "globals" entries are
iterable (after the `or []` defaulting), it returns a document for every
raw document, leaving unrecognized shapes as-is rather than erroring. -/
theorem coerce_ir_shape_total_on_iterable_catalog (ir cat : Obj)
    (ld : List Json)
    (hd : pyIter (pyOr (objGetD cat "devices" (.arr [])) (.arr [])) = .ok ld)
    (lg : List Json)
    (hg : pyIter (pyOr (objGetD cat "globals" (.arr [])) (.arr [])) = .ok lg) :
    ∃ out, coerceIrShape ir cat = .ok out := by
  have hB : ∃ m, buildIdToKind cat = .ok m := by
    unfold buildIdToKind
    rw [hd, hg]
    exact ⟨_, rfl⟩
  obtain ⟨m, hB⟩ := hB
  refine ⟨coercePure m ir, ?_⟩
  unfold coerceIrShape
  rw [hB]

theorem coerce_ir_shape_total_witness :
    ∃ out, coerceIrShape [] [] = .ok out :=
  coerce_ir_shape_total_on_iterable_catalog [] [] [] rfl [] rfl

/-! ## `agent_edit.py` — the constrained patch engine -/

/-- Python type names, for `AttributeError` messages. -/
def pyTypeName : Json → String
  | .null => "NoneType"
  | .bool _ => "bool"
  | .num _ => "int"
  | .str _ => "str"
  | .arr _ => "list"
  | .obj _ => "dict"

/-- Index of the first element satisfying `p`. -/
def findIdxFrom (p : Json → Bool) : List Json → Option Nat
  | [] => none
  | x :: xs => if p x then some 0 else (findIdxFrom p xs).map (· + 1)

/-- Indices of all elements satisfying `p` (Python
`[i for i, t in enumerate(ts) if ...]`). -/
def matchIdxsFrom (p : Json → Bool) : List Json → List Nat
  | [] => []
  | x :: xs =>
      if p x then 0 :: (matchIdxsFrom p xs).map (· + 1)
      else (matchIdxsFrom p xs).map (· + 1)

/-- Replace the element at index `i` by `f` of it (in-place mutation of a
list element reached through an alias). -/
def listUpdate : List Json → Nat → (Json → Json) → List Json
  | [], _, _ => []
  | x :: xs, 0, f => f x :: xs
  | x :: xs, n + 1, f => x :: listUpdate xs n f

/-- `ts.pop(i)`, keeping only the list (the popped value is unused). -/
def listEraseIdx : List Json → Nat → List Json
  | [], _ => []
  | _ :: xs, 0 => xs
  | x :: xs, n + 1 => x :: listEraseIdx xs n

/-- `l[n]` on the index lists built by `matchIdxsFrom` (callers bound-check
first, so the default is never observed). -/
def natListGet : List Nat → Nat → Nat
  | [], _ => 0
  | x :: _, 0 => x
  | _ :: xs, n + 1 => natListGet xs n

/-- `isinstance(s, dict) and s.get("id") == state_id` from
`agent_edit._find_state`. -/
def stateMatches (sid : String) (s : Json) : Bool :=
  match s with
  | .obj so => pyEq (objGetD so "id" .null) (.str sid)
  | _ => false

/-- `isinstance(t, dict) and t.get("from") == from_id and t.get("to") ==
to_id` from `_match_transition` / `_remove_transition`. -/
def transMatches (fromId toId : String) (tr : Json) : Bool :=
  match tr with
  | .obj o =>
      pyEq (objGetD o "from" .null) (.str fromId) &&
        pyEq (objGetD o "to" .null) (.str toId)
  | _ => false

/-- `isinstance(t, dict) and (t.get("from") == sid or t.get("to") == sid)`
from the `remove_state` edit. -/
def transTouches (sid : String) (tr : Json) : Bool :=
  match tr with
  | .obj o =>
      pyEq (objGetD o "from" .null) (.str sid) ||
        pyEq (objGetD o "to" .null) (.str sid)
  | _ => false

/-- `agent_edit._find_state`: iterate `sm.get("states", []) or []` and
return the position of the first dictionary state with the given id
(a truthy non-iterable raises `TypeError` as in Python). -/
def findStateIdxE (sm : Obj) (sid : String) : Except Err (Option Nat) := do
  let items ← pyIter (pyOr (objGetD sm "states" (.arr [])) (.arr []))
  return findIdxFrom (stateMatches sid) items

/-- `agent_edit._ensure_state` followed by the caller's in-place mutation
`f` of the returned state dictionary (the source returns an alias into
`sm["states"]`; writing through it updates that list entry).
`sm.setdefault("states", []).append(...)` raises `AttributeError` when an
existing `"states"` value is not a list. -/
def ensureStateApply (sm : Obj) (sid : String) (f : Obj → Obj) :
    Except Err Obj := do
  let found ← findStateIdxE sm sid
  match found with
  | some i =>
      match objGet? sm "states" with
      | some (.arr sts) =>
          return objSet sm "states" (.arr (listUpdate sts i (fun s =>
            match s with
            | .obj so => .obj (f so)
            | s => s)))
      | _ => return sm
  | none =>
      match objGet? sm "states" with
      | none => return objSet sm "states" (.arr [.obj (f [("id", .str sid)])])
      | some (.arr sts) =>
          return objSet sm "states" (.arr (sts ++ [.obj (f [("id", .str sid)])]))
      | some v =>
          throw ("AttributeError: '" ++ pyTypeName v ++
            "' object has no attribute 'append'")

/-- `agent_edit._match_transition` (its live code: lines up to the first
`return`; the text after it is unreachable). Returns the position in
`sm["transitions"]` of the matched transition — the alias the source hands
back. `index` counts matches of the same `(from, to)` pair, 0-based. -/
def matchTransitionIdx (sm : Obj) (fromId toId : String)
    (index : Option Int) : Except Err Nat :=
  match objGetD sm "transitions" (.arr []) with
  | .arr ts =>
      match matchIdxsFrom (transMatches fromId toId) ts with
      | [] =>
          .error ("No transition found from '" ++ fromId ++ "' to '" ++
            toId ++ "'")
      | i0 :: restIdxs =>
          match index with
          | none =>
              if restIdxs.isEmpty then .ok i0
              else
                .error ("Multiple transitions found from '" ++ fromId ++
                  "' to '" ++ toId ++
                  "'. Specify an explicit transition index (0.." ++
                  toString restIdxs.length ++ ") among matches.")
          | some k =>
              if k < 0 || (i0 :: restIdxs).length ≤ k then
                .error ("transition index out of range for " ++ fromId ++
                  "->" ++ toId ++ ": " ++ toString k)
              else .ok (natListGet (i0 :: restIdxs) k.toNat)
  | _ => .error "IR is missing stateMachine.transitions[] list"

/-- `agent_edit._remove_transition` (its live code; the loop after the
early returns is unreachable). A non-list or missing `transitions` value
and an empty match list are silent no-ops — the index range check runs
only after at least one match was found. -/
def removeTransition (sm : Obj) (fromId toId : String)
    (index : Option Int) : Except Err Obj :=
  match objGetD sm "transitions" (.arr []) with
  | .arr ts =>
      match matchIdxsFrom (transMatches fromId toId) ts with
      | [] => .ok sm
      | i0 :: restIdxs =>
          match index with
          | none => .ok (objSet sm "transitions" (.arr (listEraseIdx ts i0)))
          | some k =>
              if k < 0 || (i0 :: restIdxs).length ≤ k then
                .error ("transition index out of range for " ++ fromId ++
                  "->" ++ toId ++ ": " ++ toString k)
              else
                .ok (objSet sm "transitions"
                  (.arr (listEraseIdx ts (natListGet (i0 :: restIdxs) k.toNat))))
  | _ => .ok sm

/-- `str(e.get(key, ""))`. -/
def strOfGetD (e : Obj) (k : String) : String :=
  pyStr (objGetD e k (.str ""))

/-- `int(idx) if isinstance(idx, int) else None` (Python booleans are
ints: `True` is index 1, `False` index 0). -/
def indexOfJson : Json → Option Int
  | .num n => some n
  | .bool b => some (if b then 1 else 0)
  | _ => none

/-- One dictionary edit of the `apply_ir_patch` loop, acting on the
aliased `sm` (every write in the loop body targets `sm`, a state reached
through `sm["states"]`, or a transition reached through
`sm["transitions"]`). -/
def applyEdit (sm : Obj) (e : Obj) : Except Err Obj :=
  let op := objGetD e "op" .null
  if pyEq op (.str "set_state_label") then
    let sid := strOfGetD e "state_id"
    let lbl := objGetD e "label" .null
    if sid = "" || !isStr lbl then
      .error "set_state_label requires state_id (str) and label (str)"
    else ensureStateApply sm sid (fun so => objSet so "label" lbl)
  else if pyEq op (.str "set_initial") then
    let sid := strOfGetD e "state_id"
    if sid = "" then .error "set_initial requires state_id"
    else do
      let sm1 ← ensureStateApply sm sid (fun so => so)
      return objSet sm1 "initial" (.str sid)
  else if pyEq op (.str "add_state") then
    let sid := strOfGetD e "state_id"
    if sid = "" then .error "add_state requires state_id"
    else
      let lbl := objGetD e "label" .null
      ensureStateApply sm sid (fun so =>
        match lbl with
        | .str l => if l ≠ "" then objSet so "label" (.str l) else so
        | _ => so)
  else if pyEq op (.str "remove_state") then
    let sid := strOfGetD e "state_id"
    if sid = "" then .error "remove_state requires state_id"
    else
      let sm1 :=
        match objGetD sm "states" (.arr []) with
        | .arr sts =>
            objSet sm "states" (.arr (sts.filter (fun s => !stateMatches sid s)))
        | _ => sm
      let sm2 :=
        match objGetD sm1 "transitions" (.arr []) with
        | .arr ts =>
            objSet sm1 "transitions" (.arr (ts.filter (fun t => !transTouches sid t)))
        | _ => sm1
      .ok sm2
  else if pyEq op (.str "remove_transition") then
    let fromId := strOfGetD e "from"
    let toId := strOfGetD e "to"
    let index := indexOfJson (objGetD e "index" .null)
    if fromId = "" || toId = "" then
      .error "remove_transition requires from and to"
    else removeTransition sm fromId toId index
  else if pyEq op (.str "add_transition") then
    let fromId := strOfGetD e "from"
    let toId := strOfGetD e "to"
    if fromId = "" || toId = "" then
      .error "add_transition requires from and to"
    else do
      let sm1 ← ensureStateApply sm fromId (fun so => so)
      let sm2 ← ensureStateApply sm1 toId (fun so => so)
      let t0 : Obj := [("from", .str fromId), ("to", .str toId)]
      let t1 := if objHas e "triggers" then t0 ++ [("triggers", objGet e "triggers")] else t0
      let t2 := if objHas e "guard" then t1 ++ [("guard", objGet e "guard")] else t1
      let t3 := if objHas e "actions" then t2 ++ [("actions", objGet e "actions")] else t2
      match objGet? sm2 "transitions" with
      | none => return objSet sm2 "transitions" (.arr [.obj t3])
      | some (.arr ts) => return objSet sm2 "transitions" (.arr (ts ++ [.obj t3]))
      | some v =>
          throw ("AttributeError: '" ++ pyTypeName v ++
            "' object has no attribute 'append'")
  else if pyEq op (.str "update_transition") then
    let fromId := strOfGetD e "from"
    let toId := strOfGetD e "to"
    let index := indexOfJson (objGetD e "index" .null)
    if fromId = "" || toId = "" then
      .error "update_transition requires from and to (and optional index)"
    else do
      let gi ← matchTransitionIdx sm fromId toId index
      let (sm1, updFrom) ←
        if objHas e "new_from" && isStr (objGet e "new_from") &&
            pyStr (objGet e "new_from") ≠ "" then do
          let nf := pyStr (objGet e "new_from")
          let s ← ensureStateApply sm nf (fun so => so)
          pure (s, fun (t : Obj) => objSet t "from" (.str nf))
        else pure (sm, fun (t : Obj) => t)
      let (sm2, updTo) ←
        if objHas e "new_to" && isStr (objGet e "new_to") &&
            pyStr (objGet e "new_to") ≠ "" then do
          let nt := pyStr (objGet e "new_to")
          let s ← ensureStateApply sm1 nt (fun so => so)
          pure (s, fun (t : Obj) => objSet t "to" (.str nt))
        else pure (sm1, fun (t : Obj) => t)
      let updRest := fun (t : Obj) =>
        let ta := if objHas e "triggers" then objSet t "triggers" (objGet e "triggers") else t
        let tb := if objHas e "guard" then objSet ta "guard" (objGet e "guard") else ta
        if objHas e "actions" then objSet tb "actions" (objGet e "actions") else tb
      match objGet? sm2 "transitions" with
      | some (.arr ts) =>
          return objSet sm2 "transitions"
            (.arr (listUpdate ts gi (fun tr =>
              match tr with
              | .obj o => .obj (updRest (updTo (updFrom o)))
              | tr => tr)))
      | _ => return sm2
  else
    .error ("Unsupported patch op: " ++ pyStr op)

/-- The `for e in edits` loop of `apply_ir_patch` (non-dictionary entries
are skipped; the first raised error aborts the loop). -/
def applyEdits (sm : Obj) : List Json → Except Err Obj
  | [] => .ok sm
  | e :: rest =>
      match e with
      | .obj eo =>
          match applyEdit sm eo with
          | .error err => .error err
          | .ok sm' => applyEdits sm' rest
      | _ => applyEdits sm rest

/-- `agent_edit.apply_ir_patch`: deep-copy the parent, edit the copy's
state machine in place, and return the edited copy (or raise). -/
def applyIrPatch (parent patch : Obj) : Except Err Obj :=
  match objGet? parent "stateMachine" with
  | some (.obj sm) =>
      match objGetD patch "edits" (.arr []) with
      | .arr edits =>
          match applyEdits sm edits with
          | .error e => .error e
          | .ok sm' => .ok (objSet parent "stateMachine" (.obj sm'))
      | _ => .error "Patch must contain edits[] list"
  | _ => .error "IR missing stateMachine object"

/-- The edit loop threading the caller's document alongside the working
state machine: `ir = copy.deepcopy(parent_ir)` severs all sharing with the
caller's document, so every write of the loop lands in the working copy's
component and the caller's component is carried through untouched. -/
def applyEditsH : Obj × Obj → List Json → (Obj × Obj) × Option Err
  | st, [] => (st, none)
  | (p, sm), e :: rest =>
      match e with
      | .obj eo =>
          match applyEdit sm eo with
          | .error err => ((p, sm), some err)
          | .ok sm' => applyEditsH (p, sm') rest
      | _ => applyEditsH (p, sm) rest

/-- `apply_ir_patch` with the caller's `parent_ir` after the call as first
component and the returned value (or raised error) as second. -/
def applyIrPatchT (parent patch : Obj) : Obj × Except Err Obj :=
  match objGet? parent "stateMachine" with
  | some (.obj sm) =>
      match objGetD patch "edits" (.arr []) with
      | .arr edits =>
          match applyEditsH (parent, sm) edits with
          | ((p', sm'), none) => (p', .ok (objSet parent "stateMachine" (.obj sm')))
          | ((p', _), some e) => (p', .error e)
      | _ => (parent, .error "Patch must contain edits[] list")
  | _ => (parent, .error "IR missing stateMachine object")

theorem applyEditsH_fst (edits : List Json) : ∀ p sm,
    ((applyEditsH (p, sm) edits).1).1 = p := by
  induction edits with
  | nil => intro p sm; rfl
  | cons e rest ih =>
      intro p sm
      cases e with
      | obj eo =>
          rcases h : applyEdit sm eo with err | sm'
          · simp only [applyEditsH, h]
          · simp only [applyEditsH, h]; exact ih p sm'
      | null => simp only [applyEditsH]; exact ih p sm
      | bool b => simp only [applyEditsH]; exact ih p sm
      | num n => simp only [applyEditsH]; exact ih p sm
      | str s => simp only [applyEditsH]; exact ih p sm
      | arr l => simp only [applyEditsH]; exact ih p sm

theorem applyEditsH_sound (edits : List Json) : ∀ p sm,
    applyEdits sm edits =
      (match applyEditsH (p, sm) edits with
       | ((_, sm'), none) => .ok sm'
       | (_, some e) => .error e) := by
  induction edits with
  | nil => intro p sm; rfl
  | cons e rest ih =>
      intro p sm
      cases e with
      | obj eo =>
          rcases h : applyEdit sm eo with err | sm'
          · simp only [applyEdits, applyEditsH, h]
          · simp only [applyEdits, applyEditsH, h]; exact ih p sm'
      | null => simp only [applyEdits, applyEditsH]; exact ih p sm
      | bool b => simp only [applyEdits, applyEditsH]; exact ih p sm
      | num n => simp only [applyEdits, applyEditsH]; exact ih p sm
      | str s => simp only [applyEdits, applyEditsH]; exact ih p sm
      | arr l => simp only [applyEdits, applyEditsH]; exact ih p sm

/-- C3: `apply_ir_patch` never mutates its `parent_ir` argument: for every
parent document and every patch — including every patch on which it raises
— the caller's document after the call is the document it passed in, and
the call's outcome is the pure function of the two inputs. The deep copy
at the top of `apply_ir_patch` severs all sharing, so no partial
application of an aborted patch is observable to the caller. -/
theorem apply_ir_patch_preserves_parent (parent patch : Obj) :
    (applyIrPatchT parent patch).1 = parent ∧
    (applyIrPatchT parent patch).2 = applyIrPatch parent patch := by
  rcases hG : objGet? parent "stateMachine" with _ | v
  · simp only [applyIrPatchT, applyIrPatch, hG]; refine ⟨?_, ?_⟩ <;> trivial
  · match v, hG with
    | .obj sm, hG =>
        rcases hE : objGetD patch "edits" (.arr []) with _ | b | n | s | edits | o2 <;>
          simp only [applyIrPatchT, applyIrPatch, hG, hE]
        · refine ⟨?_, ?_⟩ <;> trivial
        · refine ⟨?_, ?_⟩ <;> trivial
        · refine ⟨?_, ?_⟩ <;> trivial
        · refine ⟨?_, ?_⟩ <;> trivial
        · rcases hH : applyEditsH (parent, sm) edits with ⟨⟨p', sm'⟩, err⟩
          have hfst := applyEditsH_fst edits parent sm
          rw [hH] at hfst
          have hrun := applyEditsH_sound edits parent sm
          rw [hH] at hrun
          match err with
          | none =>
              simp only [hH, hrun]
              exact ⟨hfst, trivial⟩
          | some e =>
              simp only [hH, hrun]
              exact ⟨hfst, trivial⟩
        · refine ⟨?_, ?_⟩ <;> trivial
    | .null, hG =>
        simp only [applyIrPatchT, applyIrPatch, hG]; refine ⟨?_, ?_⟩ <;> trivial
    | .bool b, hG =>
        simp only [applyIrPatchT, applyIrPatch, hG]; refine ⟨?_, ?_⟩ <;> trivial
    | .num n, hG =>
        simp only [applyIrPatchT, applyIrPatch, hG]; refine ⟨?_, ?_⟩ <;> trivial
    | .str s, hG =>
        simp only [applyIrPatchT, applyIrPatch, hG]; refine ⟨?_, ?_⟩ <;> trivial
    | .arr l, hG =>
        simp only [applyIrPatchT, applyIrPatch, hG]; refine ⟨?_, ?_⟩ <;> trivial

theorem natMap_add_add (l : List Nat) (a b : Nat) :
    (l.map (· + a)).map (· + b) = l.map (· + (a + b)) := by
  induction l with
  | nil => rfl
  | cons x xs ih => simp only [List.map_cons, ih, Nat.add_assoc]

theorem matchIdxsFrom_nil_of_nomatch (p : Json → Bool) (l : List Json)
    (h : l.all (fun x => !p x) = true) : matchIdxsFrom p l = [] := by
  induction l with
  | nil => rfl
  | cons x xs ih =>
      simp only [List.all_cons, Bool.and_eq_true] at h
      obtain ⟨ha, hb⟩ := h
      have hx : p x = false := by revert ha; cases p x <;> simp
      simp only [matchIdxsFrom, hx, Bool.false_eq_true, if_false, ih hb,
        List.map_nil]

theorem matchIdxsFrom_nomatch_append (p : Json → Bool) (xs : List Json)
    (h : xs.all (fun x => !p x) = true) (l : List Json) :
    matchIdxsFrom p (xs ++ l) = (matchIdxsFrom p l).map (· + xs.length) := by
  induction xs with
  | nil => simp
  | cons x xs ih =>
      simp only [List.all_cons, Bool.and_eq_true] at h
      obtain ⟨ha, hb⟩ := h
      have hx : p x = false := by revert ha; cases p x <;> simp
      simp only [List.cons_append, matchIdxsFrom, hx, Bool.false_eq_true,
        if_false, List.append_eq, List.length_cons]
      rw [ih hb, natMap_add_add]

theorem matchIdxs_two (p : Json → Bool) (xs ys zs : List Json) (t1 t2 : Json)
    (h1 : p t1 = true) (h2 : p t2 = true)
    (hxs : xs.all (fun x => !p x) = true)
    (hys : ys.all (fun x => !p x) = true)
    (hzs : zs.all (fun x => !p x) = true) :
    matchIdxsFrom p (xs ++ t1 :: (ys ++ t2 :: zs)) =
      [xs.length, xs.length + (ys.length + 1)] := by
  rw [matchIdxsFrom_nomatch_append p xs hxs]
  simp only [matchIdxsFrom, h1, if_true]
  rw [matchIdxsFrom_nomatch_append p ys hys]
  simp only [matchIdxsFrom, h2, if_true,
    matchIdxsFrom_nil_of_nomatch p zs hzs]
  simp only [List.map_nil, List.map_cons, natMap_add_add]
  simp only [List.cons.injEq, and_true]
  exact ⟨by omega, by omega⟩

theorem listUpdate_append (l1 l2 : List Json) (n : Nat) (f : Json → Json) :
    listUpdate (l1 ++ l2) (l1.length + n) f = l1 ++ listUpdate l2 n f := by
  induction l1 with
  | nil => simp only [List.nil_append, List.length_nil, Nat.zero_add]
  | cons x l1 ih =>
      have hn : (x :: l1).length + n = (l1.length + n) + 1 := by
        simp [List.length_cons]; omega
      rw [hn]
      simp only [List.cons_append, listUpdate, List.append_eq, ih]

theorem listEraseIdx_append (l1 : List Json) (t : Json) (r : List Json) :
    listEraseIdx (l1 ++ t :: r) l1.length = l1 ++ r := by
  induction l1 with
  | nil => rfl
  | cons x l1 ih =>
      simp only [List.cons_append, List.length_cons, listEraseIdx,
        List.append_eq, ih]

/-- C4: with exactly two transitions matching the endpoint pair `(P, Q)` —
the list is `xs ++ t1 :: ys ++ t2 :: zs` and only `t1` and `t2` match —
(a) a `remove_transition` edit with no index pops the first-declared match
`t1` and keeps `t2`; (b) `_match_transition` with no index raises the
fatal ambiguity error naming the match range `0..1`; (c) with index 1 it
selects the global position `xs.length + ys.length + 1` of the second
match (the index counts matches of the same pair, not positions in the
global transitions list), and an in-place update at that position rewrites
exactly `t2`. -/
theorem update_remove_by_match_index
    (sm : Obj) (ts xs ys zs : List Json) (t1 t2 : Json) (P Q : String)
    (hts : objGetD sm "transitions" (.arr []) = .arr ts)
    (hdec : ts = xs ++ t1 :: (ys ++ t2 :: zs))
    (h1 : transMatches P Q t1 = true) (h2 : transMatches P Q t2 = true)
    (hxs : xs.all (fun x => !transMatches P Q x) = true)
    (hys : ys.all (fun x => !transMatches P Q x) = true)
    (hzs : zs.all (fun x => !transMatches P Q x) = true) :
    removeTransition sm P Q none =
      .ok (objSet sm "transitions" (.arr (xs ++ (ys ++ t2 :: zs)))) ∧
    matchTransitionIdx sm P Q none =
      .error ("Multiple transitions found from '" ++ P ++ "' to '" ++ Q ++
        "'. Specify an explicit transition index (0.." ++ "1" ++
        ") among matches.") ∧
    matchTransitionIdx sm P Q (some 1) = .ok (xs.length + (ys.length + 1)) ∧
    ∀ f : Json → Json, listUpdate ts (xs.length + (ys.length + 1)) f =
      xs ++ t1 :: (ys ++ f t2 :: zs) := by
  subst hdec
  have hidx := matchIdxs_two (transMatches P Q) xs ys zs t1 t2 h1 h2 hxs hys hzs
  refine ⟨?_, ?_, ?_, ?_⟩
  · simp only [removeTransition, hts, hidx]
    rw [listEraseIdx_append xs t1 (ys ++ t2 :: zs)]
  · simp only [matchTransitionIdx, hts, hidx, List.isEmpty_cons,
      Bool.false_eq_true, if_false, List.length_cons, List.length_nil,
      Nat.zero_add]
    rfl
  · simp only [matchTransitionIdx, hts, hidx, List.length_cons,
      List.length_nil, Nat.zero_add]
    norm_num [natListGet]
  · intro f
    rw [listUpdate_append xs (t1 :: (ys ++ t2 :: zs)) (ys.length + 1) f]
    have h0 := listUpdate_append ys (t2 :: zs) 0 f
    simp only [Nat.add_zero] at h0
    simp only [listUpdate, h0]

/-- Two transitions with the same endpoints, distinguished by id. -/
def c4T1 : Json := .obj [("from", .str "P"), ("to", .str "Q"), ("id", .str "a")]

/-- The second of the two matching transitions. -/
def c4T2 : Json := .obj [("from", .str "P"), ("to", .str "Q"), ("id", .str "b")]

/-- A state machine holding exactly the two matching transitions. -/
def c4Sm : Obj := [("transitions", .arr [c4T1, c4T2])]

theorem update_remove_by_match_index_witness :
    removeTransition c4Sm "P" "Q" none =
      .ok (objSet c4Sm "transitions" (.arr [c4T2])) ∧
    matchTransitionIdx c4Sm "P" "Q" (some 1) = .ok 1 :=
  have h := update_remove_by_match_index c4Sm [c4T1, c4T2] [] [] [] c4T1 c4T2
    "P" "Q" rfl rfl (by decide) (by decide) rfl rfl rfl
  ⟨h.1, h.2.2.1⟩

/-- The single-edit patch `{"edits": [{"op": "remove_transition", "from":
P, "to": Q, "index": k}]}`. -/
def removePatch (P Q : String) (k : Int) : Obj :=
  [("edits", .arr [.obj [("op", .str "remove_transition"),
    ("from", .str P), ("to", .str Q), ("index", .num k)]])]

/-- C10: a `remove_transition` edit whose endpoint pair matches no
transition is a silent no-op even when an explicit index is supplied
(`apply_ir_patch` returns the parent unchanged), and the
out-of-range-index error can be raised only when at least one transition
with the same pair exists — `_remove_transition` returns before the index
range check when the match list is empty. -/
theorem remove_transition_no_match_silent_noop :
    (∀ (sm : Obj) (P Q : String) (k : Int) (ts : List Json),
       objGetD sm "transitions" (.arr []) = .arr ts →
       matchIdxsFrom (transMatches P Q) ts = [] →
       removeTransition sm P Q (some k) = .ok sm) ∧
    (∀ (sm : Obj) (P Q : String) (idx : Option Int) (e : Err),
       removeTransition sm P Q idx = .error e →
       ∃ ts, objGetD sm "transitions" (.arr []) = .arr ts ∧
         matchIdxsFrom (transMatches P Q) ts ≠ []) ∧
    (∀ (parent sm : Obj) (P Q : String) (k : Int) (ts : List Json),
       objGet? parent "stateMachine" = some (.obj sm) →
       objGetD sm "transitions" (.arr []) = .arr ts →
       matchIdxsFrom (transMatches P Q) ts = [] →
       P ≠ "" → Q ≠ "" →
       applyIrPatch parent (removePatch P Q k) = .ok parent) := by
  refine ⟨?_, ?_, ?_⟩
  · intro sm P Q k ts hts hM
    simp only [removeTransition, hts, hM]
  · intro sm P Q idx e h
    rcases hG : objGetD sm "transitions" (.arr []) with _ | b | n | s | ts | o2
    · simp only [removeTransition, hG] at h
      exact Except.noConfusion h
    · simp only [removeTransition, hG] at h
      exact Except.noConfusion h
    · simp only [removeTransition, hG] at h
      exact Except.noConfusion h
    · simp only [removeTransition, hG] at h
      exact Except.noConfusion h
    · rcases hM : matchIdxsFrom (transMatches P Q) ts with _ | ⟨i0, rest⟩
      · simp only [removeTransition, hG, hM] at h
        exact Except.noConfusion h
      · refine ⟨ts, rfl, ?_⟩
        rw [hM]
        exact fun hc => List.noConfusion hc
    · simp only [removeTransition, hG] at h
      exact Except.noConfusion h
  · intro parent sm P Q k ts hG hts hM hP hQ
    have hA : applyEdit sm [("op", .str "remove_transition"),
        ("from", .str P), ("to", .str Q), ("index", .num k)] =
        if P = "" || Q = "" then .error "remove_transition requires from and to"
        else removeTransition sm P Q (some k) := rfl
    have hcond : (P = "" || Q = "") = False := by
      simp [hP, hQ]
    simp only [applyIrPatch, hG]
    have hE : objGetD (removePatch P Q k) "edits" (.arr []) =
        .arr [.obj [("op", .str "remove_transition"),
          ("from", .str P), ("to", .str Q), ("index", .num k)]] := rfl
    simp only [hE, applyEdits, hA, hcond, if_false,
      removeTransition, hts, hM]
    rw [objSet_self parent "stateMachine" (.obj sm) hG]

/-- A transition from `A` to `B` (matching nothing removed below). -/
def c10T : Json := .obj [("from", .str "A"), ("to", .str "B")]

/-- A state machine with that single transition. -/
def c10Sm : Obj := [("transitions", .arr [c10T])]

/-- A parent document for the silent no-op removal. -/
def c10Parent : Obj := [("stateMachine", .obj c10Sm)]

theorem remove_transition_no_match_silent_noop_witness :
    applyIrPatch c10Parent (removePatch "X" "Y" 5) = .ok c10Parent :=
  remove_transition_no_match_silent_noop.2.2 c10Parent c10Sm "X" "Y" 5 [c10T]
    rfl rfl rfl (by decide) (by decide)

/-! ## `validate.py` — diagnostics and the two-phase validator -/

/-- `validate.Diagnostic`. -/
structure Diagnostic where
  severity : String
  code : String
  path : String
  message : String
  suggestions : Option (List String)
deriving DecidableEq

/-- `validate.Patch` (never constructed by the validator). -/
structure Patch where
  op : String
  path : String
  value : Json
  reason : String
deriving DecidableEq

/-- Python `f-string` rendering of a list of strings (`str` of a list). -/
def pyStrListRepr (l : List String) : String :=
  pyRepr (.arr (l.map .str))

/-- `validate._device_kind_map` (iterating `device_catalog.get("devices",
[])` raises `TypeError` on a truthy non-iterable — no `or []` here). -/
def deviceKindMap (dcat : Obj) : Except Err (List (String × String)) := do
  let step := fun (m : List (String × String)) (d : Json) =>
    match d with
    | .obj o =>
        if objHas o "id" && objHas o "kind" then
          kvSet m (pyStr (objGet o "id")) (pyStr (objGet o "kind"))
        else m
    | _ => m
  let devs ← pyIter (objGetD dcat "devices" (.arr []))
  let gls ← pyIter (objGetD dcat "globals" (.arr []))
  return gls.foldl step (devs.foldl step [])

/-- `kinds` of `validate._allowed_attr_and_values`. -/
def kindsOf (ccat : Obj) : Obj :=
  match objGetD ccat "kinds" (.obj []) with
  | .obj o => o
  | _ => []

/-- `value_sets` of `validate._allowed_attr_and_values`. -/
def valueSetsOf (ccat : Obj) : Obj :=
  match objGetD ccat "valueSets" (.obj []) with
  | .obj o => o
  | _ => []

/-- `validate._get_attr_spec`. -/
def getAttrSpec (kindSpec : Obj) (attr : String) : Option Obj :=
  let attrs : Obj :=
    match objGetD kindSpec "attributes" (.obj []) with
    | .obj o => o
    | _ => []
  match objGet? attrs attr with
  | some (.obj s) => some s
  | _ => none

/-- `sorted((kind_spec.get("attributes") or {}).keys())` when that value is
a dictionary, else `[]`. -/
def allowedAttrNames (kindSpec : Obj) : List String :=
  match objGet? kindSpec "attributes" with
  | some (.obj attrs) => pySortStrings (attrs.map (·.1))
  | _ => []

/-- `validate._allowed_enum_values`. -/
def allowedEnumValues (attrSpec : Obj) (valueSets : Obj) : Option (List String) :=
  if pyEq (objGetD attrSpec "type" .null) (.str "enum") then
    match objGetD attrSpec "valuesFrom" .null with
    | .str vs =>
        match objGet? valueSets vs with
        | some (.arr vals) =>
            if vals.all isStr then some (vals.map pyStr) else none
        | _ => none
    | _ => none
  else none

/-- Sorted keys of the device-to-kind map. -/
def dkmKeys (dkm : List (String × String)) : List String :=
  pySortStrings (dkm.map (·.1))

/-- `ensure_device_exists` inside `validate_semantics`: the appended
diagnostics and the kind found (`none` when the device is unknown). -/
def ensureDeviceExists (dkm : List (String × String)) (deviceId path : String) :
    List Diagnostic × Option String :=
  match kvGet? dkm deviceId with
  | none =>
      ([⟨"error", "E110", path,
        "Unknown device '" ++ deviceId ++ "'. Must be one of: " ++
          pyStrListRepr (dkmKeys dkm),
        some (dkmKeys dkm)⟩], none)
  | some kind => ([], some kind)

/-- `check_ref_only` (a falsy kind — unknown device or empty-string kind —
returns with only the existence diagnostics). -/
def checkRefOnly (dkm : List (String × String)) (kindSpecs _valueSets : Obj)
    (deviceId attr path : String) : List Diagnostic :=
  let (d0, kindO) := ensureDeviceExists dkm deviceId path
  match kindO with
  | none => d0
  | some kind =>
      if kind = "" then d0
      else
        match objGet? kindSpecs kind with
        | some (.obj kindSpec) =>
            match getAttrSpec kindSpec attr with
            | some _ => d0
            | none =>
                let allowed := allowedAttrNames kindSpec
                d0 ++ [⟨"error", "E200", path,
                  "Unknown attribute '" ++ attr ++ "' for kind '" ++ kind ++
                    "'. Allowed: " ++ pyStrListRepr allowed,
                  some allowed⟩]
        | _ =>
            d0 ++ [⟨"error", "E205", path,
              "No capability spec found for kind '" ++ kind ++ "'", none⟩]

/-- `check_ref_and_value`. -/
def checkRefAndValue (dkm : List (String × String)) (kindSpecs valueSets : Obj)
    (deviceId attr : String) (lit : Obj) (path : String) : List Diagnostic :=
  let (d0, kindO) := ensureDeviceExists dkm deviceId path
  match kindO with
  | none => d0
  | some kind =>
      if kind = "" then d0
      else
        match objGet? kindSpecs kind with
        | some (.obj kindSpec) =>
            match getAttrSpec kindSpec attr with
            | none =>
                let allowed := allowedAttrNames kindSpec
                d0 ++ [⟨"error", "E200", path,
                  "Unknown attribute '" ++ attr ++ "' for kind '" ++ kind ++
                    "'. Allowed: " ++ pyStrListRepr allowed,
                  some allowed⟩]
            | some attrSpec =>
                match allowedEnumValues attrSpec valueSets with
                | none => d0
                | some enumVals =>
                    if !objHas lit "string" then
                      d0 ++ [⟨"error", "E210", path,
                        "Expected string literal for enum '" ++ kind ++ "." ++
                          attr ++ "'. Allowed: " ++ pyStrListRepr enumVals,
                        some enumVals⟩]
                    else
                      let v := pyStr (objGet lit "string")
                      if enumVals.contains v then d0
                      else
                        d0 ++ [⟨"error", "E220", path,
                          "Invalid value '" ++ v ++ "' for " ++ kind ++ "." ++
                            attr ++ ". Allowed: " ++ pyStrListRepr enumVals,
                          some enumVals⟩]
        | _ =>
            d0 ++ [⟨"error", "E205", path,
              "No capability spec found for kind '" ++ kind ++ "'", none⟩]

/-- `check_command` (no diagnostic when the kind has no capability spec). -/
def checkCommand (dkm : List (String × String)) (kindSpecs : Obj)
    (deviceId cmd path : String) : List Diagnostic :=
  let (d0, kindO) := ensureDeviceExists dkm deviceId path
  match kindO with
  | none => d0
  | some kind =>
      if kind = "" then d0
      else
        match objGet? kindSpecs kind with
        | some (.obj kindSpec) =>
            let commands : Obj :=
              match objGetD kindSpec "commands" (.obj []) with
              | .obj o => o
              | _ => []
            if objHas commands cmd then d0
            else
              let sugg := pySortStrings (commands.map (·.1))
              d0 ++ [⟨"error", "E300", path,
                "Unknown command '" ++ cmd ++ "' for kind '" ++ kind ++
                  "'. Allowed: " ++ pyStrListRepr sugg,
                some sugg⟩]
        | _ => d0

/-- The trigger check of the transitions loop (`ttype in ("becomes",
"changes")` with a dictionary `ref` holding string device and path). -/
def checkTrigger (dkm : List (String × String)) (kindSpecs valueSets : Obj)
    (i j : Nat) (tg : Obj) : List Diagnostic :=
  let ttype := objGetD tg "type" .null
  if pyEq ttype (.str "becomes") || pyEq ttype (.str "changes") then
    match objGet? tg "ref" with
    | some (.obj ref) =>
        match objGetD ref "device" .null, objGetD ref "path" .null with
        | .str dev, .str attr =>
            let path := "$.stateMachine.transitions[" ++ toString i ++
              "].triggers[" ++ toString j ++ "]"
            if pyEq ttype (.str "becomes") then
              match objGetD tg "value" .null with
              | .obj val => checkRefAndValue dkm kindSpecs valueSets dev attr val path
              | _ => []
            else checkRefOnly dkm kindSpecs valueSets dev attr path
        | _, _ => []
    | _ => []
  else []

/-- The `for j, tg in enumerate(triggers)` loop (non-dictionaries are
skipped, the index still advances). -/
def triggersScan (dkm : List (String × String)) (kindSpecs valueSets : Obj)
    (i : Nat) : List Json → Nat → List Diagnostic
  | [], _ => []
  | tg :: rest, j =>
      (match tg with
       | .obj tgo => checkTrigger dkm kindSpecs valueSets i j tgo
       | _ => []) ++ triggersScan dkm kindSpecs valueSets i rest (j + 1)

/-- The `for k, a in enumerate(args)` recursion of `walk_expr`. -/
def walkArgsV (w : Json → String → List Diagnostic) (basePath : String) :
    List Json → Nat → List Diagnostic
  | [], _ => []
  | a :: rest, k =>
      w a (basePath ++ ".args[" ++ toString k ++ "]") ++
        walkArgsV w basePath rest (k + 1)

/-- The `ref`/`lit` pair check at the end of `walk_expr` for binary
`eq`/`neq`. -/
def eqNeqEnumCheck (dkm : List (String × String)) (kindSpecs valueSets : Obj)
    (r lit : Json) (basePath : String) : List Diagnostic :=
  match r, lit with
  | .obj ro, .obj lo =>
      match objGetD ro "device" .null, objGetD ro "path" .null with
      | .str dev, .str attr =>
          checkRefAndValue dkm kindSpecs valueSets dev attr lo basePath
      | _, _ => []
  | _, _ => []

/-- `walk_expr` of `validate_semantics` (fuel-based; callers pass the
expression's depth, which bounds the recursion exactly as the source's
structural recursion does). -/
def walkExprV (dkm : List (String × String)) (kindSpecs valueSets : Obj) :
    Nat → Json → String → List Diagnostic
  | 0, _, _ => []
  | fuel + 1, expr, basePath =>
      match expr with
      | .obj eo =>
          let dRef :=
            match objGet? eo "ref" with
            | some (.obj r) =>
                match objGetD r "device" .null, objGetD r "path" .null with
                | .str dev, .str attr =>
                    checkRefOnly dkm kindSpecs valueSets dev attr basePath
                | _, _ => []
            | _ => []
          if (match objGet? eo "lit" with
              | some (.obj _) => true
              | _ => false) then dRef
          else
            match objGetD eo "op" .null, objGet? eo "args" with
            | .str op, some (.arr args) =>
                let dArity :=
                  (if op = "not" && args.length ≠ 1 then
                    [⟨"error", "E400", basePath, "'not' must have 1 argument", none⟩]
                  else []) ++
                  (if strIn op ["eq", "neq", "lt", "lte", "gt", "gte"] &&
                      args.length ≠ 2 then
                    [⟨"error", "E400", basePath,
                      "'" ++ op ++ "' must have 2 arguments", none⟩]
                  else []) ++
                  (if strIn op ["and", "or"] && args.length < 2 then
                    [⟨"error", "E400", basePath,
                      "'" ++ op ++ "' must have 2+ arguments", none⟩]
                  else [])
                let dArgs :=
                  walkArgsV (fun a p => walkExprV dkm kindSpecs valueSets fuel a p)
                    basePath args 0
                let dEnum :=
                  if strIn op ["eq", "neq"] && args.length = 2 then
                    match args with
                    | [left, right] =>
                        match left, right with
                        | .obj lo, .obj ro =>
                            if objHas lo "ref" && objHas ro "lit" then
                              eqNeqEnumCheck dkm kindSpecs valueSets
                                (objGet lo "ref") (objGet ro "lit") basePath
                            else if objHas ro "ref" && objHas lo "lit" then
                              eqNeqEnumCheck dkm kindSpecs valueSets
                                (objGet ro "ref") (objGet lo "lit") basePath
                            else []
                        | _, _ => []
                    | _ => []
                  else []
                dRef ++ dArity ++ dArgs ++ dEnum
            | _, _ => dRef
      | _ => []

/-- `seen_device_cmds.setdefault(dev, set()).add(cmd)`. -/
def seenAdd : List (String × List String) → String → String →
    List (String × List String)
  | [], dev, cmd => [(dev, [cmd])]
  | (k, cmds) :: rest, dev, cmd =>
      if k = dev then (k, if cmds.contains cmd then cmds else cmds ++ [cmd]) :: rest
      else (k, cmds) :: seenAdd rest dev cmd

/-- The `for j, act in enumerate(actions)` loop: command diagnostics in
order, plus the per-device command sets seen. -/
def actionsScan (dkm : List (String × String)) (kindSpecs : Obj) (i : Nat) :
    List Json → Nat → List (String × List String) →
    List Diagnostic × List (String × List String)
  | [], _, seen => ([], seen)
  | a :: rest, j, seen =>
      match a with
      | .obj ao =>
          if pyEq (objGetD ao "type" .null) (.str "command") then
            match objGetD ao "device" .null, objGetD ao "command" .null with
            | .str dev, .str cmd =>
                let d := checkCommand dkm kindSpecs dev cmd
                  ("$.stateMachine.transitions[" ++ toString i ++
                    "].actions[" ++ toString j ++ "]")
                match actionsScan dkm kindSpecs i rest (j + 1) (seenAdd seen dev cmd) with
                | (dr, seenF) => (d ++ dr, seenF)
            | _, _ => actionsScan dkm kindSpecs i rest (j + 1) seen
          else actionsScan dkm kindSpecs i rest (j + 1) seen
      | _ => actionsScan dkm kindSpecs i rest (j + 1) seen

/-- The contradiction rule over the seen device commands (`on/off`,
`lock/unlock`). -/
def conflictDiags (i : Nat) (seen : List (String × List String)) :
    List Diagnostic :=
  (seen.map (fun p =>
    (if p.2.contains "on" && p.2.contains "off" then
      [(⟨"error", "E530",
        "$.stateMachine.transitions[" ++ toString i ++ "].actions",
        "Conflicting actions for device '" ++ p.1 ++
          "' (on/off) in same transition.", none⟩ : Diagnostic)]
    else []) ++
    (if p.2.contains "lock" && p.2.contains "unlock" then
      [(⟨"error", "E530",
        "$.stateMachine.transitions[" ++ toString i ++ "].actions",
        "Conflicting actions for device '" ++ p.1 ++
          "' (lock/unlock) in same transition.", none⟩ : Diagnostic)]
    else []))).flatten

/-- All diagnostics of one iteration of the transitions loop. -/
def transDiags (dkm : List (String × String)) (kindSpecs valueSets : Obj)
    (stateIds : List String) (i : Nat) (tr : Json) : List Diagnostic :=
  match tr with
  | .obj trO =>
      let dFrom :=
        match objGetD trO "from" .null with
        | .str frm =>
            if stateIds.contains frm then []
            else [(⟨"error", "E111",
              "$.stateMachine.transitions[" ++ toString i ++ "].from",
              "Unknown state '" ++ frm ++ "'", none⟩ : Diagnostic)]
        | _ => []
      let dTo :=
        match objGetD trO "to" .null with
        | .str t =>
            if stateIds.contains t then []
            else [(⟨"error", "E111",
              "$.stateMachine.transitions[" ++ toString i ++ "].to",
              "Unknown state '" ++ t ++ "'", none⟩ : Diagnostic)]
        | _ => []
      let triggers :=
        match objGetD trO "triggers" (.arr []) with
        | .arr l => l
        | _ => []
      let dTrig := triggersScan dkm kindSpecs valueSets i triggers 0
      let dGuard :=
        if objHas trO "guard" then
          walkExprV dkm kindSpecs valueSets (jsonDepth (objGet trO "guard"))
            (objGet trO "guard")
            ("$.stateMachine.transitions[" ++ toString i ++ "].guard")
        else []
      let actions :=
        match objGetD trO "actions" (.arr []) with
        | .arr l => l
        | _ => []
      match actionsScan dkm kindSpecs i actions 0 [] with
      | (dAct, seen) =>
          dFrom ++ dTo ++ dTrig ++ dGuard ++ dAct ++ conflictDiags i seen
  | _ => []

/-- The `for i, tr in enumerate(transitions)` loop: every transition is
checked and its diagnostics appended — no early stop. -/
def transLoop (dkm : List (String × String)) (kindSpecs valueSets : Obj)
    (stateIds : List String) : List Json → Nat → List Diagnostic
  | [], _ => []
  | tr :: rest, i =>
      transDiags dkm kindSpecs valueSets stateIds i tr ++
        transLoop dkm kindSpecs valueSets stateIds rest (i + 1)

/-- The `state_ids` set (first-insertion order; only membership and
sorted views are observed). -/
def stateIdsOf (states : List Json) : List String :=
  states.foldl (fun acc s =>
    match s with
    | .obj so =>
        match objGet? so "id" with
        | some (.str sid) => listInsertUniq acc sid
        | _ => acc
    | _ => acc) []

/-- The `E111` check on `stateMachine.initial`. -/
def initialDiags (stateIds : List String) (initial : Json) : List Diagnostic :=
  match initial with
  | .str ini =>
      if stateIds.contains ini then []
      else [⟨"error", "E111", "$.stateMachine.initial",
        "Initial state '" ++ ini ++ "' not found in states.",
        some (pySortStrings stateIds)⟩]
  | _ => []

/-- `adj[tr["from"]].append(tr["to"])` guarded by key membership. -/
def kvListAppend : List (String × List String) → String → String →
    List (String × List String)
  | [], _, _ => []
  | (k, v) :: rest, f, t =>
      if k = f then (k, v ++ [t]) :: rest
      else (k, v) :: kvListAppend rest f t

/-- The adjacency map of the reachability pass. -/
def buildAdj (stateIds : List String) (transitions : List Json) :
    List (String × List String) :=
  transitions.foldl (fun adj tr =>
    match tr with
    | .obj o =>
        match objGetD o "from" .null, objGetD o "to" .null with
        | .str f, .str t => kvListAppend adj f t
        | _, _ => adj
    | _ => adj) (stateIds.map (fun s => (s, [])))

/-- `adj.get(s, [])`. -/
def adjGet : List (String × List String) → String → List String
  | [], _ => []
  | (k, v) :: rest, s => if k = s then v else adjGet rest s

/-- The DFS of the reachability pass (the stack is kept top-first, so
Python's `append`/`pop()` pair becomes pushing the not-yet-visited
neighbors in reverse; the fuel passed by `reachDiags` bounds the number of
pops, so it is never exhausted). -/
def dfsLoop (adj : List (String × List String)) :
    Nat → List String → List String → List String
  | 0, _, visited => visited
  | _ + 1, [], visited => visited
  | fuel + 1, s :: stack, visited =>
      if visited.contains s then dfsLoop adj fuel stack visited
      else
        let visited2 := visited ++ [s]
        let nbrs := (adjGet adj s).filter (fun n => !visited2.contains n)
        dfsLoop adj fuel (nbrs.reverse ++ stack) visited2

/-- The `W500` unreachable-state warnings. -/
def reachDiags (stateIds : List String) (transitions : List Json)
    (initial : Json) : List Diagnostic :=
  match initial with
  | .str ini =>
      let adj := buildAdj stateIds transitions
      if (adj.map (·.1)).contains ini then
        let fuel := (transitions.length + stateIds.length + 1) *
          (transitions.length + stateIds.length + 1)
        let visited := dfsLoop adj fuel [ini] []
        ((pySortStrings stateIds).filter (fun sid => !visited.contains sid)).map
          (fun sid =>
            ⟨"warning", "W500", "$.stateMachine.states",
              "Unreachable state '" ++ sid ++ "' from initial state '" ++
                ini ++ "'.", none⟩)
      else []
  | _ => []

/-- `validate.validate_semantics`: accumulates diagnostics across the
whole document and returns an always-empty patch list (the only fallible
step is iterating the device catalog). -/
def validateSemantics (ir dcat ccat : Obj) :
    Except Err (List Diagnostic × List Patch) := do
  let dkm ← deviceKindMap dcat
  let kindSpecs := kindsOf ccat
  let valueSets := valueSetsOf ccat
  let sm : Obj :=
    match objGet? ir "stateMachine" with
    | some (.obj o) => o
    | _ => []
  let states :=
    match objGetD sm "states" (.arr []) with
    | .arr l => l
    | _ => []
  let stateIds := stateIdsOf states
  let initial := objGetD sm "initial" .null
  let transitions :=
    match objGetD sm "transitions" (.arr []) with
    | .arr l => l
    | _ => []
  return (initialDiags stateIds initial ++
    transLoop dkm kindSpecs valueSets stateIds transitions 0 ++
    reachDiags stateIds transitions initial, [])

/-- `any(d.severity == "error" for d in diags)`. -/
def hasErrorDiag (l : List Diagnostic) : Bool :=
  l.any (fun d => d.severity == "error")

/-- `validate.validate_all`, parametric in the structural phase
`validate_json_schema` (whose body lives in the third-party `jsonschema`
library, outside this repository). -/
def validateAll (vjs : Obj → Obj → List Diagnostic)
    (ir schema dcat ccat : Obj) : Except Err (List Diagnostic × List Patch) :=
  let diags := vjs ir schema
  if hasErrorDiag diags then .ok (diags, [])
  else
    match validateSemantics ir dcat ccat with
    | .ok (semDiags, patches) => .ok (diags ++ semDiags, patches)
    | .error e => .error e

/-- C5: `validate_all` runs in two phases and skips the second entirely
when the first fails: with at least one structural `error` diagnostic it
returns exactly the structural diagnostics with an empty patch list,
independently of the catalogs (no semantic checking happens); otherwise it
returns the structural diagnostics concatenated with the semantic
diagnostics and (always empty) semantic patches — and the semantics pass
accumulates across the whole document: the diagnostics of a transition
list split per transition, with no early stop. -/
theorem validate_all_two_phase :
    (∀ (vjs : Obj → Obj → List Diagnostic) (ir schema dcat ccat dcat2 ccat2 : Obj),
       hasErrorDiag (vjs ir schema) = true →
       validateAll vjs ir schema dcat ccat = .ok (vjs ir schema, []) ∧
       validateAll vjs ir schema dcat ccat = validateAll vjs ir schema dcat2 ccat2) ∧
    (∀ (vjs : Obj → Obj → List Diagnostic) (ir schema dcat ccat : Obj)
       (sd : List Diagnostic) (ps : List Patch),
       hasErrorDiag (vjs ir schema) = false →
       validateSemantics ir dcat ccat = .ok (sd, ps) →
       validateAll vjs ir schema dcat ccat = .ok (vjs ir schema ++ sd, ps) ∧
       ps = []) ∧
    (∀ (dkm : List (String × String)) (kindSpecs valueSets : Obj)
       (stateIds : List String) (l1 l2 : List Json) (i : Nat),
       transLoop dkm kindSpecs valueSets stateIds (l1 ++ l2) i =
         transLoop dkm kindSpecs valueSets stateIds l1 i ++
           transLoop dkm kindSpecs valueSets stateIds l2 (i + l1.length)) := by
  refine ⟨?_, ?_, ?_⟩
  · intro vjs ir schema dcat ccat dcat2 ccat2 h
    constructor
    · simp only [validateAll, h, if_true]
    · simp only [validateAll, h, if_true]
  · intro vjs ir schema dcat ccat sd ps h hsem
    have hps : ps = [] := by
      unfold validateSemantics at hsem
      rcases hd : deviceKindMap dcat with e | m
      · rw [hd] at hsem
        exact Except.noConfusion hsem
      · rw [hd] at hsem
        simp only [bind, Except.bind, pure, Except.pure] at hsem
        exact ((Prod.mk.inj (Except.ok.inj hsem)).2).symm
    constructor
    · simp only [validateAll, h, Bool.false_eq_true, if_false, hsem]
    · exact hps
  · intro dkm kindSpecs valueSets stateIds l1 l2 i
    induction l1 generalizing i with
    | nil => simp [transLoop]
    | cons tr rest ih =>
        have hn : i + 1 + rest.length = i + (rest.length + 1) := by omega
        simp only [List.cons_append, transLoop, List.append_eq, ih,
          List.length_cons, List.append_assoc, hn]

/-- A structural error diagnostic for the fail-fast witness. -/
def c5Diag : Diagnostic :=
  ⟨"error", "E100", "$", "schema violation", none⟩

theorem validate_all_two_phase_witness :
    validateAll (fun _ _ => [c5Diag]) [] [] [] [] = .ok ([c5Diag], []) :=
  (validate_all_two_phase.1 (fun _ _ => [c5Diag]) [] [] [] [] [] [] rfl).1

/-! ## `plantuml.py` — the PlantUML encoder -/

/-- Does `sub` occur in `l` (Python substring `in`)? -/
def charsContainsSub (l sub : List Char) : Bool :=
  match l with
  | [] => sub.isEmpty
  | _ :: rest => charsIsPrefix sub l || charsContainsSub rest sub

/-- Python `key in container` for the containers the sources reach:
dictionaries test keys, lists test membership, strings test substrings,
anything else raises `TypeError`. -/
def pyContains (container : Json) (key : String) : Except Err Bool :=
  match container with
  | .obj o => .ok (objHas o key)
  | .arr l => .ok (l.any (fun x => pyEq x (.str key)))
  | .str s => .ok (charsContainsSub s.toList key.toList)
  | _ => .error "TypeError: argument of type is not iterable"

/-- `plantuml._escape_puml_string`. -/
def escapePumlString (s : String) : String :=
  pyReplace (pyReplace s "\\" "\\\\") "\"" "\\\""

/-- `plantuml._lit_to_str` (`lit['string']` on a non-dictionary raises). -/
def litToStr (lit : Json) : Except Err String := do
  if (← pyContains lit "string") then
    match lit with
    | .obj o => return "\"" ++ escapePumlString (pyStr (objGet o "string")) ++ "\""
    | _ => throw "TypeError: indices must be integers"
  else if (← pyContains lit "number") then
    match lit with
    | .obj o => return pyStr (objGet o "number")
    | _ => throw "TypeError: indices must be integers"
  else if (← pyContains lit "bool") then
    match lit with
    | .obj o => return (if pyTruthy (objGet o "bool") then "true" else "false")
    | _ => throw "TypeError: indices must be integers"
  else
    return "?"

/-- `plantuml._trigger_to_line` (callers guard `isinstance(tg, dict)`;
`ref.get` on a non-dictionary raises). -/
def triggerToLine (tg : Obj) : Except Err String := do
  let t := objGetD tg "type" .null
  if pyEq t (.str "becomes") then
    match objGetD tg "ref" (.obj []) with
    | .obj ref =>
        let dev := pyStr (objGetD ref "device" .null)
        let path := pyStr (objGetD ref "path" .null)
        let vs ← litToStr (objGetD tg "value" (.obj []))
        return dev ++ "." ++ path ++ " becomes " ++ vs
    | _ => throw "AttributeError: object has no attribute get"
  else if pyEq t (.str "changes") then
    match objGetD tg "ref" (.obj []) with
    | .obj ref =>
        let dev := pyStr (objGetD ref "device" .null)
        let path := pyStr (objGetD ref "path" .null)
        return dev ++ "." ++ path ++ " changes"
    | _ => throw "AttributeError: object has no attribute get"
  else if pyEq t (.str "schedule") then
    return "schedule " ++ pyStr (objGetD tg "cron" .null)
  else if pyEq t (.str "after") then
    return "after " ++ pyStr (objGetD tg "seconds" .null) ++ "s"
  else
    return "unknown_trigger"

/-- The infix table lookup of `plantuml._expr_to_str` (`dict.get` with an
unhashable key raises). -/
def infixOf (op : Json) : Except Err (Option String) :=
  match op with
  | .str s =>
      .ok (kvGet? [("eq", "=="), ("neq", "!="), ("lt", "<"), ("lte", "<="),
        ("gt", ">"), ("gte", ">="), ("and", "and"), ("or", "or")] s)
  | .arr _ => .error "TypeError: unhashable type"
  | .obj _ => .error "TypeError: unhashable type"
  | _ => .ok none

/-- Mapping an `Except`-valued function over a list. -/
def exceptMapM (f : Json → Except Err String) : List Json → Except Err (List String)
  | [] => .ok []
  | a :: rest => do
      let s ← f a
      let ss ← exceptMapM f rest
      return s :: ss

/-- `plantuml._expr_to_str` (fuel-based; callers pass the expression's
depth, which bounds the recursion into `args` exactly as the source's
structural recursion does; `expr["ref"]` on a list or string and
`expr.get` on a non-dictionary raise as in Python). -/
def exprToStr : Nat → Json → Except Err String
  | 0, _ => .error "fuel exhausted (unreachable: callers pass the depth)"
  | fuel + 1, expr => do
      if (← pyContains expr "ref") then
        match expr with
        | .obj o =>
            match objGet o "ref" with
            | .obj r =>
                return pyStr (objGetD r "device" .null) ++ "." ++
                  pyStr (objGetD r "path" .null)
            | _ => throw "AttributeError: object has no attribute get"
        | _ => throw "TypeError: indices must be integers"
      else if (← pyContains expr "lit") then
        match expr with
        | .obj o => litToStr (objGet o "lit")
        | _ => throw "TypeError: indices must be integers"
      else
        match expr with
        | .obj o =>
            let op := objGetD o "op" .null
            let args :=
              match objGetD o "args" (.arr []) with
              | .arr l => l
              | _ => []
            if pyEq op (.str "not") && args.length = 1 then
              match args with
              | [a0] => do
                  let s ← exprToStr fuel a0
                  return "not (" ++ s ++ ")"
              | _ => return "expr?"
            else
              match infixOf op with
              | .error e => throw e
              | .ok none => return "expr?"
              | .ok (some sym) =>
                  if args.length ≥ 2 then do
                    let ss ← exceptMapM (fun a => exprToStr fuel a) args
                    return "(" ++ String.intercalate (" " ++ sym ++ " ") ss ++ ")"
                  else return "expr?"
        | _ => throw "AttributeError: object has no attribute get"

/-- `plantuml._action_to_lines` (iterating truthy non-list `args` raises;
callers guard `isinstance(act, dict)`). -/
def actionToLines (act : Obj) : Except Err (List String) := do
  let t := objGetD act "type" .null
  if pyEq t (.str "command") then
    let dev := pyStr (objGetD act "device" .null)
    let cmd := pyStr (objGetD act "command" .null)
    let args := objGetD act "args" (.arr [])
    if pyTruthy args then do
      let items ← pyIter args
      let strs ← exceptMapM litToStr items
      return [dev ++ "." ++ cmd ++ "(" ++ String.intercalate ", " strs ++ ")"]
    else
      return [dev ++ "." ++ cmd ++ "()"]
  else if pyEq t (.str "delay") then
    return ["delay " ++ pyStr (objGetD act "seconds" .null) ++ "s"]
  else if pyEq t (.str "notify") then do
    let s ← litToStr (.obj [("string", objGetD act "message" (.str ""))])
    return ["notify " ++ s]
  else
    return ["unknown_action"]

/-- The human-editing cheat-sheet comment block of `ir_to_plantuml`
(emitted verbatim, terminated by a blank line). -/
def pumlGuideLines : List String :=
  ["' === Human-editable guide ===",
   "' You may edit this diagram and round-trip it back into IR:",
   "'   nlpipeline roundtrip --puml outputs/<Bundle>/edited.puml",
   "'",
   "' Supported label lines (one per line, joined with \\n in PlantUML):",
   "'   TRIGGER: <dev>.<attr> becomes \"value\" AND <dev>.<attr> changes AND after 30s AND schedule <cron>",
   "'   GUARD:   (<dev>.<attr> == \"value\") and not (<dev>.<attr> != \"value\")",
   "'   ACTION:  <dev>.<command>(\"arg\", 1) | delay 30s | notify \"message\"",
   "'",
   "' Tip: Prefer renaming the *display label* in a state declaration:",
   "'   state \"Hallway Light On\" as LightOn",
   "' Keep the alias (LightOn) stable so transitions remain parseable.",
   "' =============================",
   ""]

/-- One state declaration line of `ir_to_plantuml` (skipped for
non-dictionary states and missing/empty/non-string ids). -/
def stateDeclLine (st : Json) : List String :=
  match st with
  | .obj so =>
      match objGet? so "id" with
      | some (.str sid) =>
          if sid = "" then []
          else
            let label :=
              match objGet? so "label" with
              | some (.str l) => l
              | _ => sid
            ["state \"" ++ escapePumlString label ++ "\" as " ++ sid]
      | _ => []
  | _ => []

/-- The invariant note block for one state. -/
def noteLinesFor (st : Json) : Except Err (List String) :=
  match st with
  | .obj so =>
      let sid := objGetD so "id" .null
      match objGetD so "invariants" .null with
      | .arr inv =>
          if pyTruthy sid && !inv.isEmpty then do
            let il ← exceptMapM
              (fun e => do
                let s ← exprToStr (jsonDepth e) e
                pure ("- " ++ s))
              (inv.filter isDict)
            if il.isEmpty then pure []
            else pure (["note right of " ++ pyStr sid] ++ il ++ ["end note", ""])
          else pure []
      | _ => pure []
  | _ => pure []

/-- The note blocks of all states, in order. -/
def noteLinesM : List Json → Except Err (List String)
  | [] => .ok []
  | st :: rest => do
      let l ← noteLinesFor st
      let r ← noteLinesM rest
      return l ++ r

/-- `_trigger_to_line` over the dictionary triggers of a transition. -/
def triggerLinesM : List Json → Except Err (List String)
  | [] => .ok []
  | .obj o :: rest => do
      let s ← triggerToLine o
      let r ← triggerLinesM rest
      return s :: r
  | _ :: rest => triggerLinesM rest

/-- `_action_to_lines` over the dictionary actions of a transition. -/
def actionLinesM : List Json → Except Err (List String)
  | [] => .ok []
  | .obj o :: rest => do
      let l ← actionToLines o
      let r ← actionLinesM rest
      return l ++ r
  | _ :: rest => actionLinesM rest

/-- The transition line(s) of `ir_to_plantuml` for one transition. -/
def transLineFor (tr : Json) : Except Err (List String) :=
  match tr with
  | .obj trO => do
      let frm := objGetD trO "from" .null
      let toV := objGetD trO "to" .null
      let triggersJ := objGetD trO "triggers" (.arr [])
      let guard := objGetD trO "guard" .null
      let actionsJ := objGetD trO "actions" (.arr [])
      let trigPart ←
        match triggersJ with
        | .arr tgs =>
            if tgs.isEmpty then pure []
            else do
              let tl ← triggerLinesM tgs
              if tl.isEmpty then pure ([] : List String)
              else pure ["TRIGGER: " ++ String.intercalate " AND " tl]
        | _ => pure []
      let guardPart ←
        match guard with
        | .obj go => do
            let s ← exprToStr (jsonDepth (Json.obj go)) (.obj go)
            pure ["GUARD: " ++ s]
        | _ => pure ([] : List String)
      let actLines ←
        match actionsJ with
        | .arr acts => actionLinesM acts
        | _ => pure ([] : List String)
      let labelParts := trigPart ++ guardPart ++ actLines.map (fun al => "ACTION: " ++ al)
      let label := String.intercalate "\\n" labelParts
      if label = "" then pure [pyStr frm ++ " --> " ++ pyStr toV]
      else pure [pyStr frm ++ " --> " ++ pyStr toV ++ " : " ++ label]
  | _ => pure []

/-- The transition lines of all transitions, in order. -/
def transLinesM : List Json → Except Err (List String)
  | [] => .ok []
  | tr :: rest => do
      let l ← transLineFor tr
      let r ← transLinesM rest
      return l ++ r

/-- `plantuml.ir_to_plantuml` (raises when `stateMachine` is a truthy
non-dictionary, or states/transitions are truthy non-iterables, exactly
where the source's attribute accesses and `for` loops do). -/
def irToPlantuml (ir : Obj) (title : String) : Except Err String := do
  match objGetD ir "stateMachine" (.obj []) with
  | .obj sm => do
      let statesJ := objGetD sm "states" (.arr [])
      let transitionsJ := objGetD sm "transitions" (.arr [])
      let initial := objGetD sm "initial" .null
      let states ← pyIter statesJ
      let transitions ← pyIter transitionsJ
      let declLines := (states.map stateDeclLine).flatten
      let noteLines ← noteLinesM states
      let transLines ← transLinesM transitions
      let body :=
        ["@startuml", "title " ++ title, ""] ++ pumlGuideLines ++
        declLines ++ [""] ++
        ["[*] --> " ++ pyStr initial, ""] ++
        noteLines ++
        transLines ++
        ["@enduml", ""]
      return String.intercalate "\n" body
  | _ => throw "AttributeError: object has no attribute get"

/-! ## `roundtrip.py` — identifiers, literals and splitting -/

/-- `[A-Za-z]`. -/
def isAsciiAlpha (c : Char) : Bool :=
  ('A' ≤ c && c ≤ 'Z') || ('a' ≤ c && c ≤ 'z')

/-- `[0-9]`. -/
def isAsciiDigit (c : Char) : Bool :=
  '0' ≤ c && c ≤ '9'

/-- `[A-Za-z_]`. -/
def isIdentStartC (c : Char) : Bool :=
  isAsciiAlpha c || c = '_'

/-- `[A-Za-z0-9_]`. -/
def isIdentC (c : Char) : Bool :=
  isIdentStartC c || isAsciiDigit c

/-- `roundtrip._is_ident` (the sources only test single-line tokens, where
`^...$` is a full match). -/
def isIdentStr (s : String) : Bool :=
  match s.toList with
  | [] => false
  | c :: cs => isIdentStartC c && cs.all isIdentC

/-- `roundtrip._sanitize_ident`. -/
def sanitizeIdent (s : String) : String :=
  let out0 := String.mk ((pyStrip s).toList.map (fun c => if isIdentC c then c else '_'))
  if out0 = "" then "State"
  else
    let out1 :=
      match out0.toList with
      | c :: _ => if isAsciiDigit c then "S_" ++ out0 else out0
      | [] => out0
    if isIdentStr out1 then out1
    else
      let lst := out1.toList
      let run := lst.takeWhile (fun c => !isIdentStartC c)
      let out2 := if run.isEmpty then out1 else "S_" ++ String.mk (lst.drop run.length)
      String.mk (out2.toList.map (fun c => if isIdentC c then c else '_'))

/-- Worker for `pySplitSub` (fuel bounds the scan; `pySplitSub` passes the
text's length plus one, which always suffices). -/
def splitSubAux (sep : List Char) : Nat → List Char → List Char → List (List Char)
  | 0, acc, l => [acc.reverse ++ l]
  | _ + 1, acc, [] => [acc.reverse]
  | fuel + 1, acc, c :: cs =>
      if !sep.isEmpty && charsIsPrefix sep (c :: cs) then
        acc.reverse :: splitSubAux sep fuel [] ((c :: cs).drop sep.length)
      else
        splitSubAux sep fuel (c :: acc) cs

/-- Python `str.split(sep)` with a non-empty separator (non-overlapping,
left to right). -/
def pySplitSub (s sep : String) : List String :=
  (splitSubAux sep.toList (s.length + 1) [] s.toList).map String.mk

/-- Python `str.splitlines()` on the texts at hand, whose only line
boundary is the newline character. -/
def pySplitlines (s : String) : List String :=
  if s = "" then []
  else
    let parts := pySplitSub s "\n"
    if parts.getLast? = some "" then parts.dropLast else parts

/-- `roundtrip._split_escaped_newlines`: split on the two-character
sequence backslash-n, strip, drop empties. -/
def splitEscapedNewlines (label : String) : List String :=
  ((pySplitSub label "\\n").map pyStrip).filter (fun p => p ≠ "")

/-- Does the token fully match `-?\d+`? -/
def matchSignedInt (l : List Char) : Bool :=
  match l with
  | '-' :: ds => !ds.isEmpty && ds.all isAsciiDigit
  | ds => !ds.isEmpty && ds.all isAsciiDigit

/-- Does the token fully match `-?\d+\.\d+`? -/
def matchSignedFloat (l : List Char) : Bool :=
  let core := match l with
    | '-' :: ds => ds
    | ds => ds
  match pySplitSub (String.mk core) "." with
  | [a, b] =>
      (!a.isEmpty && a.toList.all isAsciiDigit) &&
        (!b.isEmpty && b.toList.all isAsciiDigit)
  | _ => false

/-- Decimal digits to a natural number. -/
def digitsToNat (l : List Char) : Nat :=
  l.foldl (fun a c => a * 10 + (c.toNat - 48)) 0

/-- Python `int` on a `-?\d+` token. -/
def strToInt (t : String) : Int :=
  match t.toList with
  | '-' :: ds => -(digitsToNat ds : Int)
  | ds => (digitsToNat ds : Int)

/-- `roundtrip._parse_literal`. Float tokens (`-?\d+\.\d+`) are outside
the modelled value domain — the IR's canonical numbers are integers and
the encoder prints them without a decimal point, so the branch never fires
on encoder output; it is kept as a parse failure here. The string branch
unescapes `\"` before `\\`, exactly as the source does. -/
def parseLiteral (tok : String) : Option Obj :=
  let t := pyStrip tok
  if pyLower t = "true" || pyLower t = "false" then
    some [("bool", .bool (pyLower t = "true"))]
  else if matchSignedInt t.toList then
    some [("number", .num (strToInt t))]
  else if matchSignedFloat t.toList then
    none
  else
    match t.toList with
    | '"' :: rest =>
        if rest.length ≥ 1 && rest.getLast? = some '"' then
          let inner := String.mk (rest.dropLast)
          some [("string", .str (pyReplace (pyReplace inner "\\\"" "\"") "\\\\" "\\"))]
        else none
    | _ => none

/-- String-literal scan of `_ExprTokenizer.next` (from the character after
the opening quote; returns the token characters through the closing quote
and the rest, or `none` when unterminated). -/
def tokStrScan : Bool → List Char → List Char → Option (List Char × List Char)
  | _, _, [] => none
  | esc, acc, c :: cs =>
      if esc then tokStrScan false (c :: acc) cs
      else if c = '\\' then tokStrScan true (c :: acc) cs
      else if c = '"' then some ((c :: acc).reverse, cs)
      else tokStrScan false (c :: acc) cs

/-- Prefix length matched by `-?\d+(?:\.\d+)?`. -/
def numTokLen (l : List Char) : Nat :=
  let core := fun (ds : List Char) (signLen : Nat) =>
    let ip := ds.takeWhile isAsciiDigit
    if ip.isEmpty then 0
    else
      match ds.drop ip.length with
      | '.' :: rest =>
          let fp := rest.takeWhile isAsciiDigit
          if fp.isEmpty then signLen + ip.length
          else signLen + ip.length + 1 + fp.length
      | _ => signLen + ip.length
  match l with
  | '-' :: ds => core ds 1
  | ds => core ds 0

/-- Worker for `identChainLen` (fuel-based; each step drops at least one
character, so the caller's fuel always suffices). -/
def identChainLenF : Nat → List Char → Nat
  | 0, _ => 0
  | fuel + 1, l =>
      match l with
      | [] => 0
      | c :: _ =>
          if !isIdentStartC c then 0
          else
            let segLen := (l.takeWhile isIdentC).length
            match l.drop segLen with
            | '.' :: rest =>
                let tailLen := identChainLenF fuel rest
                if tailLen = 0 then segLen else segLen + 1 + tailLen
            | _ => segLen

/-- Prefix length matched by the identifier chain
`[A-Za-z_][A-Za-z0-9_]*(?:\.[A-Za-z_][A-Za-z0-9_]*)*`. -/
def identChainLen (l : List Char) : Nat :=
  identChainLenF (l.length + 1) l

/-- `_ExprTokenizer.next`: the next token (kind, value) and the remaining
characters. Kinds are "EOF", "(", ")", "OP", "LIT", "KW", "REF", "BAD". -/
def tokNext (l : List Char) : (String × String) × List Char :=
  let s := l.dropWhile isPySpace
  match s with
  | [] => (("EOF", ""), [])
  | c :: cs =>
      if c = '(' || c = ')' then
        ((String.mk [c], String.mk [c]), cs)
      else if charsIsPrefix ['=', '='] s || charsIsPrefix ['!', '='] s ||
          charsIsPrefix ['<', '='] s || charsIsPrefix ['>', '='] s then
        (("OP", String.mk (s.take 2)), s.drop 2)
      else if c = '<' || c = '>' then
        (("OP", String.mk [c]), cs)
      else if c = '"' then
        match tokStrScan false [] cs with
        | some (tok, rest) => (("LIT", String.mk ('"' :: tok)), rest)
        | none => (("BAD", String.mk ('"' :: cs)), [])
      else
        let nl := numTokLen s
        if nl ≠ 0 then
          (("LIT", String.mk (s.take nl)), s.drop nl)
        else
          let il := identChainLen s
          if il ≠ 0 then
            let tok := String.mk (s.take il)
            let low := pyLower tok
            if low = "and" || low = "or" || low = "not" then
              (("KW", low), s.drop il)
            else if low = "true" || low = "false" then
              (("LIT", low), s.drop il)
            else
              (("REF", tok), s.drop il)
          else
            (("BAD", String.mk [c]), cs)

/-- Parser state: the current token and the remaining characters. -/
def PState := (String × String) × List Char

/-- `_eat`: advance to the next token. -/
def pAdvance (st : PState) : PState :=
  tokNext st.2

/-- The grammar positions of `_ExprParser` (`orL`/`andL` carry the `args`
accumulated by the corresponding `while` loop). -/
inductive PMode where
  | por
  | porL (acc : List Json)
  | pand
  | pandL (acc : List Json)
  | pcmp
  | punary
  | pprimary

/-- `_ExprParser`'s mutually recursive productions, fuel-indexed (each call
spends one fuel; `parseExprS` passes fuel proportional to the input length,
which bounds the recursion). `none` is the source's `None`. -/
def parseE : Nat → PMode → PState → Option (Json × PState)
  | 0, _, _ => none
  | fuel + 1, mode, st =>
      match mode with
      | .por => do
          let (l, st1) ← parseE fuel .pand st
          parseE fuel (.porL [l]) st1
      | .porL acc =>
          if st.1 = ("KW", "or") then do
            let (r, st2) ← parseE fuel .pand (pAdvance st)
            parseE fuel (.porL (acc ++ [r])) st2
          else
            match acc with
            | [x] => some (x, st)
            | _ => some (.obj [("op", .str "or"), ("args", .arr acc)], st)
      | .pand => do
          let (l, st1) ← parseE fuel .pcmp st
          parseE fuel (.pandL [l]) st1
      | .pandL acc =>
          if st.1 = ("KW", "and") then do
            let (r, st2) ← parseE fuel .pcmp (pAdvance st)
            parseE fuel (.pandL (acc ++ [r])) st2
          else
            match acc with
            | [x] => some (x, st)
            | _ => some (.obj [("op", .str "and"), ("args", .arr acc)], st)
      | .pcmp => do
          let (l, st1) ← parseE fuel .punary st
          if st1.1.1 = "OP" then do
            let op := st1.1.2
            let (r, st3) ← parseE fuel .punary (pAdvance st1)
            match kvGet? [("==", "eq"), ("!=", "neq"), ("<", "lt"),
              ("<=", "lte"), (">", "gt"), (">=", "gte")] op with
            | some o =>
                some (.obj [("op", .str o), ("args", .arr [l, r])], st3)
            | none => none
          else some (l, st1)
      | .punary =>
          if st.1 = ("KW", "not") then do
            let (sub, st2) ← parseE fuel .punary (pAdvance st)
            some (.obj [("op", .str "not"), ("args", .arr [sub])], st2)
          else parseE fuel .pprimary st
      | .pprimary =>
          if st.1.1 = "(" then do
            let (inner, st1) ← parseE fuel .por (pAdvance st)
            if st1.1.1 = ")" then some (inner, pAdvance st1) else none
          else if st.1.1 = "REF" then
            let raw := st.1.2
            let parts := pySplitSub raw "."
            let dev := parts.headD ""
            let path :=
              if parts.length > 1 then String.intercalate "." (parts.drop 1) else ""
            if dev = "" || path = "" then none
            else
              some (.obj [("ref", .obj [("device", .str dev), ("path", .str path)])],
                pAdvance st)
          else if st.1.1 = "LIT" then
            match parseLiteral st.1.2 with
            | some lit => some (.obj [("lit", .obj lit)], pAdvance st)
            | none => none
          else none

/-- `roundtrip._parse_expr`. -/
def parseExprS (s : String) : Option Json :=
  let t := pyStrip s
  let st0 : PState := tokNext t.toList
  match parseE (8 * (t.length + 2)) .por st0 with
  | some (e, stF) => if stF.1.1 = "EOF" then some e else none
  | none => none

/-- Require at least one whitespace character and drop the run (`\s+`
followed by a non-space literal backtracks nowhere). -/
def dropWsPlus (l : List Char) : Option (List Char) :=
  let run := l.takeWhile isPySpace
  if run.isEmpty then none else some (l.drop run.length)

/-- Full match of `after\s+(\d+)\s*s` (IGNORECASE): the seconds. -/
def matchAfter (l : List Char) : Option Int :=
  if pyLower (String.mk (l.take 5)) = "after" && l.length ≥ 5 then do
    let r1 ← dropWsPlus (l.drop 5)
    let ds := r1.takeWhile isAsciiDigit
    if ds.isEmpty then none
    else
      let r2 := (r1.drop ds.length).dropWhile isPySpace
      match r2 with
      | [c] => if c = 's' || c = 'S' then some (digitsToNat ds : Int) else none
      | _ => none
  else none

/-- Split an identifier chain on its dots into (device, dotted path). -/
def chainDevPath (chain : String) : String × String :=
  let parts := pySplitSub chain "."
  (parts.headD "", String.intercalate "." (parts.drop 1))

/-- Full match of `([A-Za-z_][A-Za-z0-9_]*(?:\.[A-Za-z_][A-Za-z0-9_]*)+)\s+changes`
(the chain needs at least one dot; shortening the greedy chain leaves a
dot where `\s+` is required, so the greedy match is the only one). -/
def matchChanges (l : List Char) : Option (String × String) := do
  let cl := identChainLen l
  if cl = 0 then none
  else
    let chain := l.take cl
    if !chain.contains '.' then none
    else do
      let rest ← dropWsPlus (l.drop cl)
      if rest = "changes".toList then some (chainDevPath (String.mk chain))
      else none

/-- Full match of `(chain)\s+becomes\s+(.+)`: the device, path and the raw
value token (the all-whitespace tail, on which the regex would still match
with a single-space value, fails `_parse_literal` just like the `none`
here). -/
def matchBecomes (l : List Char) : Option (String × String × String) := do
  let cl := identChainLen l
  if cl = 0 then none
  else
    let chain := l.take cl
    if !chain.contains '.' then none
    else do
      let rest ← dropWsPlus (l.drop cl)
      if charsIsPrefix "becomes".toList rest then do
        let r2 ← dropWsPlus (rest.drop 7)
        if r2.isEmpty then none
        else
          let (dev, path) := chainDevPath (String.mk chain)
          some (dev, path, String.mk r2)
      else none

/-- `roundtrip._parse_trigger`. -/
def parseTrigger (s0 : String) : Option Obj :=
  let t := pyStrip s0
  if charsIsPrefix "schedule ".toList (pyLower t).toList then
    let cron := pyStrip (String.mk (t.toList.drop 9))
    if cron ≠ "" then some [("type", .str "schedule"), ("cron", .str cron)]
    else none
  else
    match matchAfter t.toList with
    | some n => some [("type", .str "after"), ("seconds", .num n)]
    | none =>
        match matchChanges t.toList with
        | some (dev, path) =>
            some [("type", .str "changes"),
              ("ref", .obj [("device", .str dev), ("path", .str path)])]
        | none =>
            match matchBecomes t.toList with
            | some (dev, path, valS) =>
                match parseLiteral valS with
                | some lit =>
                    some [("type", .str "becomes"),
                      ("ref", .obj [("device", .str dev), ("path", .str path)]),
                      ("value", .obj lit)]
                | none => none
            | none => none

/-- Full match of `delay\s+(\d+)\s*s` (IGNORECASE): the seconds. -/
def matchDelay (l : List Char) : Option Int :=
  if pyLower (String.mk (l.take 5)) = "delay" && l.length ≥ 5 then do
    let r1 ← dropWsPlus (l.drop 5)
    let ds := r1.takeWhile isAsciiDigit
    if ds.isEmpty then none
    else
      let r2 := (r1.drop ds.length).dropWhile isPySpace
      match r2 with
      | [c] => if c = 's' || c = 'S' then some (digitsToNat ds : Int) else none
      | _ => none
  else none

/-- The comma split of a command's argument text (commas inside quotes and
escaped characters do not split). -/
def splitArgsGo : List Char → Bool → Bool → List Char → List String → List String
  | [], _, _, cur, parts =>
      (if cur.isEmpty then parts
       else pyStrip (String.mk cur.reverse) :: parts).reverse
  | ch :: rest, esc, inq, cur, parts =>
      if esc then splitArgsGo rest false inq (ch :: cur) parts
      else if ch = '\\' then splitArgsGo rest true inq (ch :: cur) parts
      else if ch = '"' then splitArgsGo rest false (!inq) (ch :: cur) parts
      else if ch = ',' && !inq then
        splitArgsGo rest false inq [] (pyStrip (String.mk cur.reverse) :: parts)
      else splitArgsGo rest false inq (ch :: cur) parts

/-- Full match of `([A-Za-z_][A-Za-z0-9_]*)\.([A-Za-z_][A-Za-z0-9_]*)\((.*)\)`:
device, command, and the text between the opening parenthesis and the final
character, which must be the closing one (the two identifier groups cannot
contain dots or parentheses, so the greedy match is the only one). -/
def matchCmdParen (l : List Char) : Option (String × String × String) :=
  match l with
  | c :: _ =>
      if !isIdentStartC c then none
      else
        let g1 := l.takeWhile isIdentC
        match l.drop g1.length with
        | '.' :: r1 =>
            match r1 with
            | c2 :: _ =>
                if !isIdentStartC c2 then none
                else
                  let g2 := r1.takeWhile isIdentC
                  match r1.drop g2.length with
                  | '(' :: r2 =>
                      if r2.getLast? = some ')' then
                        some (String.mk g1, String.mk g2, String.mk r2.dropLast)
                      else none
                  | _ => none
            | [] => none
        | _ => none
  | [] => none

/-- Full match of the bare `dev.cmd` form. -/
def matchCmdBare (l : List Char) : Option (String × String) :=
  match l with
  | c :: _ =>
      if !isIdentStartC c then none
      else
        let g1 := l.takeWhile isIdentC
        match l.drop g1.length with
        | '.' :: r1 =>
            match r1 with
            | c2 :: _ =>
                if isIdentStartC c2 && (r1.takeWhile isIdentC).length = r1.length then
                  some (String.mk g1, String.mk r1)
                else none
            | [] => none
        | _ => none
  | [] => none

/-- `Optional` chaining for the literal arguments of a command. -/
def parseArgLits : List String → Option (List Obj)
  | [] => some []
  | p :: rest => do
      let lit ← parseLiteral p
      let r ← parseArgLits rest
      return lit :: r

/-- `str.strip('"')`. -/
def stripQuotes (s : String) : String :=
  String.mk (((s.toList.dropWhile (· = '"')).reverse.dropWhile (· = '"')).reverse)

/-- `roundtrip._parse_action`. -/
def parseAction (s0 : String) : Option Obj :=
  let t := pyStrip s0
  match matchDelay t.toList with
  | some n => some [("type", .str "delay"), ("seconds", .num n)]
  | none =>
      if charsIsPrefix "notify ".toList (pyLower t).toList then
        let rest := pyStrip (String.mk (t.toList.drop 7))
        match parseLiteral rest with
        | some lit =>
            if objHas lit "string" then
              some [("type", .str "notify"), ("message", objGet lit "string")]
            else some [("type", .str "notify"), ("message", .str (stripQuotes rest))]
        | none => some [("type", .str "notify"), ("message", .str (stripQuotes rest))]
      else
        match matchCmdParen t.toList with
        | some (dev, cmd, argText) =>
            let argS := pyStrip argText
            if argS = "" then
              some [("type", .str "command"), ("device", .str dev), ("command", .str cmd)]
            else
              let parts := splitArgsGo argS.toList false false [] []
              match parseArgLits parts with
              | some args =>
                  if args.isEmpty then
                    some [("type", .str "command"), ("device", .str dev),
                      ("command", .str cmd)]
                  else
                    some [("type", .str "command"), ("device", .str dev),
                      ("command", .str cmd), ("args", .arr (args.map .obj))]
              | none => none
        | none =>
            match matchCmdBare t.toList with
            | some (dev, cmd) =>
                some [("type", .str "command"), ("device", .str dev),
                  ("command", .str cmd)]
            | none => none

/-- Tail check of the state-declaration pattern after a candidate closing
quote: `\s+as\s+([A-Za-z_][A-Za-z0-9_]*)` to the end. -/
def sdCheckTail (rest : List Char) : Option String := do
  let r1 ← dropWsPlus rest
  if charsIsPrefix "as".toList r1 then do
    let r2 ← dropWsPlus (r1.drop 2)
    if isIdentStr (String.mk r2) then some (String.mk r2) else none
  else none

/-- The lazy group of `state\s+"(.+?)"\s+as\s+(ident)`: the shortest
non-empty label whose closing quote is followed by a matching tail; a
quote that does not close the match is part of the label. -/
def sdScan (acc : List Char) : List Char → Option (String × String)
  | [] => none
  | c :: rest =>
      if c = '"' && !acc.isEmpty then
        match sdCheckTail rest with
        | some ident => some (String.mk acc.reverse, ident)
        | none => sdScan (c :: acc) rest
      else sdScan (c :: acc) rest

/-- Full match of `state\s+"(.+?)"\s+as\s+([A-Za-z_][A-Za-z0-9_]*)`:
(label, alias). -/
def stateDeclMatch (l : List Char) : Option (String × String) :=
  if charsIsPrefix "state".toList l then
    match dropWsPlus (l.drop 5) with
    | some ('"' :: r2) => sdScan [] r2
    | _ => none
  else none

/-- Full match of `note\s+right\s+of\s+([A-Za-z_][A-Za-z0-9_]*)`
(IGNORECASE). -/
def noteHeadMatch (l : List Char) : Option String := do
  if pyLower (String.mk (l.take 4)) = "note" && l.length ≥ 4 then do
    let r1 ← dropWsPlus (l.drop 4)
    if pyLower (String.mk (r1.take 5)) = "right" && r1.length ≥ 5 then do
      let r2 ← dropWsPlus (r1.drop 5)
      if pyLower (String.mk (r2.take 2)) = "of" && r2.length ≥ 2 then do
        let r3 ← dropWsPlus (r2.drop 2)
        if isIdentStr (String.mk r3) then some (String.mk r3) else none
      else none
    else none
  else none

/-- Full match of `\[\*\]\s*-->\s*(.+)`, already stripped as the source
does (`m.group(1).strip()`; a tail of blanks matches with a one-blank
group, which strips to the empty string). -/
def initialMatch (l : List Char) : Option String :=
  if charsIsPrefix "[*]".toList l then
    let r1 := (l.drop 3).dropWhile isPySpace
    if charsIsPrefix "-->".toList r1 then
      let r2 := r1.drop 3
      let run := r2.takeWhile isPySpace
      let rem := r2.drop run.length
      if !rem.isEmpty then some (pyStrip (String.mk rem))
      else if !run.isEmpty then some ""
      else none
    else none
  else none

/-- The optional `(?:\s*:\s*(.+))?$` tail after the transition target:
`some none` when the line ends (no label), `some (some label)` when a
colon and a non-blank label follow (an all-blank label tail matches with a
one-blank group), `none` when the target group must extend further. -/
def g2Tail (rem : List Char) : Option (Option String) :=
  match rem with
  | [] => some none
  | _ =>
      let r3 := rem.dropWhile isPySpace
      match r3 with
      | ':' :: r4 =>
          let run := r4.takeWhile isPySpace
          let rest5 := r4.drop run.length
          if !rest5.isEmpty then some (some (String.mk rest5))
          else if !run.isEmpty then some (some " ")
          else none
      | _ => none

/-- The lazy target group of the transition pattern: shortest non-empty
token whose remainder matches the optional label tail. -/
def g2Scan (acc : List Char) : List Char → Option (String × Option String)
  | [] => none
  | c :: rest =>
      match g2Tail rest with
      | some labelO => some (String.mk (c :: acc).reverse, labelO)
      | none => g2Scan (c :: acc) rest

/-- The `\s*-->\s*` separator and target/label part after a candidate
source group. -/
def tmTail (rest : List Char) : Option (String × Option String) :=
  let r1 := rest.dropWhile isPySpace
  if charsIsPrefix "-->".toList r1 then
    let r2 := (r1.drop 3).dropWhile isPySpace
    g2Scan [] r2
  else none

/-- The lazy source group of the transition pattern. -/
def tmScan (acc : List Char) : List Char → Option (String × String × Option String)
  | [] => none
  | c :: rest =>
      match tmTail rest with
      | some (toTok, labelO) => some (String.mk (c :: acc).reverse, toTok, labelO)
      | none => tmScan (c :: acc) rest

/-- Full match of `(.+?)\s*-->\s*(.+?)(?:\s*:\s*(.+))?`:
(source token, target token, optional raw label). -/
def transMatch (l : List Char) : Option (String × String × Option String) :=
  tmScan [] l

/-- The mutable state of the `parse_plantuml` line loop. -/
structure PPState where
  stateLabels : List (String × String)
  labelToAlias : List (String × String)
  invariants : List (String × List Json)
  initialState : Option String
  statesSeen : List String
  transitionsOut : List Json
  inNote : Bool
  noteState : Option String
  diags : List Diagnostic

/-- The empty loop state. -/
def ppInit : PPState :=
  ⟨[], [], [], none, [], [], false, none, []⟩

/-- `err`/`warn` of `parse_plantuml`. -/
def ppDiag (sev : String) (idx : Nat) (code msg : String) : Diagnostic :=
  ⟨sev, code, "puml:L" ++ toString idx, msg, none⟩

/-- `invariants.setdefault(note_state, []).append(expr)`. -/
def invAppend : List (String × List Json) → String → Json → List (String × List Json)
  | [], ns, e => [(ns, [e])]
  | (k, v) :: rest, ns, e =>
      if k = ns then (k, v ++ [e]) :: rest
      else (k, v) :: invAppend rest ns e

/-- `resolve_state` of the transition branch: the resolved identifier and
the warnings it appends. -/
def resolveState (labelToAlias : List (String × String)) (idx : Nat)
    (tok : String) : String × List Diagnostic :=
  let t := pyStrip tok
  match t.toList with
  | '"' :: rest =>
      if rest.length ≥ 1 && rest.getLast? = some '"' then
        let lbl := String.mk rest.dropLast
        match kvGet? labelToAlias lbl with
        | some als => (als, [])
        | none =>
            (sanitizeIdent lbl,
             [ppDiag "warning" idx "W401"
               ("Unknown quoted state label '" ++ lbl ++
                 "'. Sanitizing to identifier.")])
      else resolveStateUnquoted labelToAlias idx t
  | _ => resolveStateUnquoted labelToAlias idx t
where
  resolveStateUnquoted (labelToAlias : List (String × String)) (idx : Nat)
      (t : String) : String × List Diagnostic :=
    if isIdentStr t then (t, [])
    else
      match kvGet? labelToAlias t with
      | some als => (als, [])
      | none =>
          (sanitizeIdent t,
           [ppDiag "warning" idx "W402"
             ("Non-identifier state token '" ++ t ++
               "'. Sanitizing to identifier.")])

/-- One `part` of a transition label: updates (triggers, guard, actions,
diagnostics). -/
def ppLabelPart (idx : Nat) (part : String)
    (acc : List Json × Option Json × List Json × List Diagnostic) :
    List Json × Option Json × List Json × List Diagnostic :=
  let (triggers, guard, actions, ds) := acc
  if charsIsPrefix "TRIGGER:".toList part.toList then
    let trigS := pyStrip (String.mk (part.toList.drop 8))
    let chunks := ((pySplitSub trigS " AND ").map pyStrip).filter (fun c => c ≠ "")
    let (tgs, ds2) := chunks.foldl (fun (a : List Json × List Diagnostic) c =>
      match parseTrigger c with
      | some tg => (a.1 ++ [.obj tg], a.2)
      | none =>
          (a.1, a.2 ++ [ppDiag "error" idx "E410" ("Could not parse trigger: " ++ c)]))
      ([], [])
    (triggers ++ tgs, guard, actions, ds ++ ds2)
  else if charsIsPrefix "GUARD:".toList part.toList then
    let exprS := pyStrip (String.mk (part.toList.drop 6))
    match parseExprS exprS with
    | some g => (triggers, some g, actions, ds)
    | none =>
        (triggers, guard, actions,
         ds ++ [ppDiag "error" idx "E420"
           ("Could not parse guard expression: " ++ exprS)])
  else if charsIsPrefix "ACTION:".toList part.toList then
    let actS := pyStrip (String.mk (part.toList.drop 7))
    match parseAction actS with
    | some a => (triggers, guard, actions ++ [.obj a], ds)
    | none =>
        (triggers, guard, actions,
         ds ++ [ppDiag "error" idx "E440" ("Could not parse action: " ++ actS)])
  else
    (triggers, guard, actions,
     ds ++ [ppDiag "warning" idx "W410" ("Ignoring unknown label line: " ++ part)])

/-- The transition branch of the line loop. -/
def ppTransition (st : PPState) (idx : Nat)
    (frmRaw toRaw : String) (labelRaw : Option String) : PPState :=
  let (frm, d1) := resolveState st.labelToAlias idx frmRaw
  let (toId, d2) := resolveState st.labelToAlias idx toRaw
  let st1 := { st with diags := st.diags ++ d1 ++ d2 }
  if frm = "[*]" || toId = "[*]" then st1
  else
    let seen2 := listInsertUniq (listInsertUniq st1.statesSeen frm) toId
    let (triggers, guard, actions, ds) :=
      match labelRaw with
      | some lr =>
          (splitEscapedNewlines lr).foldl
            (fun acc part => ppLabelPart idx part acc) ([], none, [], [])
      | none =>
          ([], none, [],
           [ppDiag "warning" idx "W400"
             ("Transition '" ++ frm ++ " --> " ++ toId ++
               "' has no label; triggers/actions will be empty.")])
    let trObj : Obj :=
      [("from", .str frm), ("to", .str toId),
       ("triggers", .arr triggers), ("actions", .arr actions)] ++
      (match guard with
       | some g => [("guard", g)]
       | none => [])
    { st1 with
        statesSeen := seen2,
        transitionsOut := st1.transitionsOut ++ [.obj trObj],
        diags := st1.diags ++ ds }

/-- One line of the `parse_plantuml` loop. -/
def pumlLineStep (st : PPState) (idx : Nat) (raw : String) : PPState :=
  let line := pyStrip raw
  if line = "" then st
  else if charsIsPrefix "'".toList line.toList then st
  else if charsIsPrefix "//".toList line.toList then st
  else if st.inNote then
    if pyLower line = "end note" then
      { st with inNote := false, noteState := none }
    else
      match st.noteState with
      | some ns =>
          if ns ≠ "" && charsIsPrefix "-".toList line.toList then
            let exprS := pyStrip (String.mk (line.toList.dropWhile (· = '-')))
            match parseExprS exprS with
            | some e => { st with invariants := invAppend st.invariants ns e }
            | none =>
                { st with diags := st.diags ++
                    [ppDiag "error" idx "E430"
                      ("Could not parse invariant expression: " ++ exprS)] }
          else st
      | none => st
  else
    match stateDeclMatch line.toList with
    | some (label, als) =>
        { st with
            stateLabels := kvSet st.stateLabels als label,
            labelToAlias := kvSet st.labelToAlias label als,
            statesSeen := listInsertUniq st.statesSeen als }
    | none =>
        match noteHeadMatch line.toList with
        | some ns => { st with inNote := true, noteState := some ns }
        | none =>
            match initialMatch line.toList with
            | some st0 =>
                let stId :=
                  match st0.toList with
                  | '"' :: rest =>
                      if rest.length ≥ 1 && rest.getLast? = some '"' then
                        let lbl := String.mk rest.dropLast
                        match kvGet? st.labelToAlias lbl with
                        | some als => als
                        | none => sanitizeIdent lbl
                      else st0
                  | _ => st0
                { st with
                    initialState := some stId,
                    statesSeen := listInsertUniq st.statesSeen stId }
            | none =>
                match transMatch line.toList with
                | some (frmRaw, toRaw, labelRaw) =>
                    ppTransition st idx frmRaw toRaw labelRaw
                | none => st

/-- Lookup in the invariants map. -/
def kvGetJs? : List (String × List Json) → String → Option (List Json)
  | [], _ => none
  | (k, v) :: rest, s => if k = s then some v else kvGetJs? rest s

/-- The line loop of `parse_plantuml` (`enumerate(lines, start=1)`). -/
def ppLoop : PPState → Nat → List String → PPState
  | st, _, [] => st
  | st, idx, l :: rest => ppLoop (pumlLineStep st idx l) (idx + 1) rest

/-- The devices inferred from the decoded triggers and actions. -/
def ppInferDevices (transitionsOut : List Json) : List String :=
  transitionsOut.foldl (fun acc tr =>
    match tr with
    | .obj o =>
        let acc1 :=
          match objGetD o "triggers" (.arr []) with
          | .arr tgs =>
              tgs.foldl (fun a tg =>
                match tg with
                | .obj tgo =>
                    match objGet? tgo "ref" with
                    | some (.obj r) =>
                        match objGet? r "device" with
                        | some (.str d) => listInsertUniq a d
                        | _ => a
                    | _ => a
                | _ => a) acc
          | _ => acc
        match objGetD o "actions" (.arr []) with
        | .arr acts =>
            acts.foldl (fun a act =>
              match act with
              | .obj ao =>
                  if pyEq (objGetD ao "type" .null) (.str "command") then
                    match objGet? ao "device" with
                    | some (.str d) => listInsertUniq a d
                    | _ => a
                  else a
              | _ => a) acc1
        | _ => acc1
    | _ => acc) []

/-- `roundtrip.parse_plantuml`: the decoded document and the decode-time
diagnostics. -/
def parsePlantuml (text : String) : Obj × List Diagnostic :=
  let st1 := ppLoop ppInit 1 (pySplitlines text)
  let (st2, initial) :=
    match st1.initialState with
    | some i => (st1, i)
    | none =>
        let ini :=
          match pySortStrings st1.statesSeen with
          | i :: _ => i
          | [] => "Idle"
        ({ st1 with diags := st1.diags ++
            [ppDiag "error" 1 "E400" "Missing initial state line: [*] --> <State>"] },
         ini)
  let statesList := (pySortStrings st2.statesSeen).map (fun sid =>
    let base : Obj := [("id", .str sid)]
    let base2 :=
      match kvGet? st2.stateLabels sid with
      | some lbl => if lbl ≠ "" && lbl ≠ sid then base ++ [("label", .str lbl)] else base
      | none => base
    let base3 :=
      match kvGetJs? st2.invariants sid with
      | some inv => if !inv.isEmpty then base2 ++ [("invariants", .arr inv)] else base2
      | none => base2
    Json.obj base3)
  let ir0 : Obj :=
    [("version", .str "0.1"), ("devices", .arr []),
     ("stateMachine", .obj
       [("initial", .str initial), ("states", .arr statesList),
        ("transitions", .arr st2.transitionsOut)])]
  let devs := (pySortStrings (ppInferDevices st2.transitionsOut)).map
    (fun d => Json.obj [("id", .str d), ("kind", .str "unknown")])
  (objSet ir0 "devices" (.arr devs), st2.diags)

/-! ## `roundtrip._simple_ir_diff` -/

/-- Insert a key-value pair into a key-sorted object (for
`json.dumps(..., sort_keys=True)`). -/
def insertPairByKey (p : String × Json) : List (String × Json) → List (String × Json)
  | [] => [p]
  | q :: rest =>
      if strLeB p.1 q.1 then p :: q :: rest
      else q :: insertPairByKey p rest

/-- Sort an object's pairs by key. -/
def sortObjByKey (o : Obj) : Obj :=
  o.foldr insertPairByKey []

/-- One hexadecimal digit. -/
def hexDigit (n : Nat) : Char :=
  if n < 10 then Char.ofNat (48 + n) else Char.ofNat (87 + n)

/-- JSON string escaping as `json.dumps(..., ensure_ascii=False)` does it:
quote, backslash, the named control escapes, `\u00XX` for the rest of the
control range, and everything else verbatim. -/
def jsonEscapeChar (c : Char) : List Char :=
  if c = '"' then ['\\', '"']
  else if c = '\\' then ['\\', '\\']
  else if c = '\n' then ['\\', 'n']
  else if c = '\t' then ['\\', 't']
  else if c = '\x0d' then ['\\', 'r']
  else if c = '\x08' then ['\\', 'b']
  else if c = '\x0c' then ['\\', 'f']
  else if c.toNat < 32 then
    ['\\', 'u', '0', '0', hexDigit (c.toNat / 16), hexDigit (c.toNat % 16)]
  else [c]

mutual

/-- Sort every object of a document by key (applying
`json.dumps(..., sort_keys=True)`'s per-object sorting as one pre-pass
gives the same text). -/
def jsonSortKeys : Json → Json
  | .arr l => .arr (jsonSortKeysList l)
  | .obj o => .obj (sortObjByKey (jsonSortKeysObj o))
  | j => j

/-- `jsonSortKeys` over array elements. -/
def jsonSortKeysList : List Json → List Json
  | [] => []
  | a :: rest => jsonSortKeys a :: jsonSortKeysList rest

/-- `jsonSortKeys` over object values. -/
def jsonSortKeysObj : Obj → Obj
  | [] => []
  | (k, v) :: rest => (k, jsonSortKeys v) :: jsonSortKeysObj rest

end

/-- A JSON string literal: quote, escape, quote. -/
def jsonQuote (s : String) : String :=
  "\"" ++ String.mk ((s.toList.map jsonEscapeChar).flatten) ++ "\""

mutual

/-- Serialization of an already key-sorted document with `json.dumps`'s
default separators. -/
def jsonDumpsRaw : Json → String
  | .null => "null"
  | .bool b => if b then "true" else "false"
  | .num n => toString n
  | .str s => jsonQuote s
  | .arr l => "[" ++ String.intercalate ", " (jsonDumpsList l) ++ "]"
  | .obj o =>
      String.mk ['{'] ++ String.intercalate ", " (jsonDumpsObj o) ++
        String.mk ['}']

/-- Array elements of `jsonDumpsRaw`. -/
def jsonDumpsList : List Json → List String
  | [] => []
  | a :: rest => jsonDumpsRaw a :: jsonDumpsList rest

/-- Members of `jsonDumpsRaw`. -/
def jsonDumpsObj : List (String × Json) → List String
  | [] => []
  | (k, v) :: rest =>
      (jsonQuote k ++ ": " ++ jsonDumpsRaw v) :: jsonDumpsObj rest

end

/-- `json.dumps(obj, sort_keys=True, ensure_ascii=False)`. -/
def jsonDumps (j : Json) : String :=
  jsonDumpsRaw (jsonSortKeys j)

/-- `norm_state` of `_simple_ir_diff`. -/
def normState (s : Obj) : String :=
  let sid := objGetD s "id" .null
  match objGetD s "label" .null with
  | .str l => if l ≠ "" then pyStr sid ++ "|" ++ l else pyStr sid
  | _ => pyStr sid

/-- The per-action cleanup of `_strip_noise` (drop empty `args` of
commands). -/
def stripActArgs (ao : Obj) : Obj :=
  if pyEq (objGetD ao "type" .null) (.str "command") && objHas ao "args" &&
      !pyTruthy (objGetD ao "args" .null) then
    objPopAll ao "args"
  else ao

/-- `_strip_noise` of `_simple_ir_diff`: drop the transition id and empty
command args. -/
def stripNoise (tr : Obj) : Obj :=
  let out := objPopAll tr "id"
  match objGet? out "actions" with
  | some (.arr acts) =>
      objSet out "actions"
        (.arr (acts.filterMap (fun a =>
          match a with
          | .obj ao => some (Json.obj (stripActArgs ao))
          | _ => none)))
  | _ => out

/-- `canon` of `_simple_ir_diff`. -/
def canon (j : Json) : String :=
  match j with
  | .obj o => jsonDumps (.obj (stripNoise o))
  | _ => jsonDumps j

/-- The result of `_simple_ir_diff`. The transition entries are kept as
their canonical dump strings; the source re-decodes each with
`json.loads` for display, a bijection that preserves emptiness and
multiplicity. -/
structure DiffResult where
  initialBaseline : Json
  initialEdited : Json
  statesAdded : List String
  statesRemoved : List String
  transitionsAdded : List String
  transitionsRemoved : List String
deriving DecidableEq

/-- Set-build from a list (first-occurrence order; only membership and
sorted views are observed). -/
def setOfList (l : List String) : List String :=
  l.foldl listInsertUniq []

/-- `sorted(list(a - b))`. -/
def sortedSetDiff (a b : List String) : List String :=
  pySortStrings (a.filter (fun x => !b.contains x))

/-- The normalized state set of one side of the diff. -/
def diffStatesOf (sm : Obj) : Except Err (List String) := do
  let items ← pyIter (objGetD sm "states" (.arr []))
  return setOfList (items.filterMap (fun s =>
    match s with
    | .obj so => some (normState so)
    | _ => none))

/-- The canonical transition set of one side of the diff. -/
def diffTransOf (sm : Obj) : Except Err (List String) := do
  let items ← pyIter (objGetD sm "transitions" (.arr []))
  return setOfList (items.filterMap (fun t =>
    match t with
    | .obj _ => some (canon t)
    | _ => none))

/-- `roundtrip._simple_ir_diff` (iterating a truthy non-iterable states or
transitions value raises, as the set comprehensions do). -/
def simpleIrDiff (baseline edited : Obj) : Except Err DiffResult := do
  let bsm : Obj :=
    match objGet? baseline "stateMachine" with
    | some (.obj o) => o
    | _ => []
  let esm : Obj :=
    match objGet? edited "stateMachine" with
    | some (.obj o) => o
    | _ => []
  let bStates ← diffStatesOf bsm
  let eStates ← diffStatesOf esm
  let bTrans ← diffTransOf bsm
  let eTrans ← diffTransOf esm
  return {
    initialBaseline := objGetD bsm "initial" .null,
    initialEdited := objGetD esm "initial" .null,
    statesAdded := sortedSetDiff eStates bStates,
    statesRemoved := sortedSetDiff bStates eStates,
    transitionsAdded := sortedSetDiff eTrans bTrans,
    transitionsRemoved := sortedSetDiff bTrans eTrans }

/-! ## Claim C1 — the round-trip contract on a quoted state label -/

instance {ε α : Type} [DecidableEq ε] [DecidableEq α] : DecidableEq (Except ε α) :=
  fun a b =>
    match a, b with
    | .ok x, .ok y =>
        if h : x = y then isTrue (by rw [h])
        else isFalse (fun hc => h (Except.ok.inj hc))
    | .error e, .error f =>
        if h : e = f then isTrue (by rw [h])
        else isFalse (fun hc => h (Except.error.inj hc))
    | .ok _, .error _ => isFalse (fun hc => Except.noConfusion hc)
    | .error _, .ok _ => isFalse (fun hc => Except.noConfusion hc)

/-- A display label holding a double quote. -/
def c1Label : String := "He said \"hi\""

/-- A two-state document with one after-trigger transition and the quoted
label on state `S`; it references no devices, so it validates cleanly
against any catalog. -/
def c1Ir : Obj :=
  [("version", .str "0.1"),
   ("devices", .arr []),
   ("stateMachine", .obj [
     ("initial", .str "Idle"),
     ("states", .arr [.obj [("id", .str "Idle")],
       .obj [("id", .str "S"), ("label", .str c1Label)]]),
     ("transitions", .arr [.obj [("from", .str "Idle"), ("to", .str "S"),
        ("triggers", .arr [.obj [("type", .str "after"), ("seconds", .num 5)]]),
        ("actions", .arr [])]])])]

/-- An empty device catalog. -/
def c1Cat : Obj := [("devices", .arr []), ("globals", .arr [])]

/-- The diagram text the encoder produces for `c1Ir`. -/
def c1Text : String :=
  match irToPlantuml c1Ir "Automation" with
  | .ok t => t
  | .error _ => ""

/-- The document decoded back from `c1Text`. -/
def c1Decoded : Obj := (parsePlantuml c1Text).1

/-- The decoded document after `normalize_ir`. -/
def c1Norm : Obj :=
  match normalizeIr c1Decoded with
  | .ok o => o
  | .error _ => []

/-- The recompiled document after `desugar_delays_to_timer_states`. -/
def c1Final : Obj := desugarFn c1Norm

/-- The diff of the original against the recompiled document. -/
def c1Diff : DiffResult :=
  match simpleIrDiff c1Ir c1Final with
  | .ok d => d
  | .error _ => ⟨.null, .null, [], [], [], []⟩

/-- C1: the round-trip contract fails on a state label holding a double
quote. `c1Ir` validates with zero diagnostics; encoding it, decoding the
text and re-running `normalize_ir`, `desugar_delays_to_timer_states` and
`validate_all` produces zero diagnostics (decode-time and validation
combined) — yet `_simple_ir_diff` does not report equivalence: the
encoder escapes the label (`He said \"hi\"`), the decoder's state-line
pattern captures the escaped text without unescaping it, and the diff
reports the original state removed. Initial states and transitions agree,
so the escaping asymmetry is the only divergence. -/
theorem roundtrip_quoted_label_not_equivalent :
    validateAll (fun _ _ => []) c1Ir [] c1Cat [] = .ok ([], []) ∧
    irToPlantuml c1Ir "Automation" = .ok c1Text ∧
    parsePlantuml c1Text = (c1Decoded, []) ∧
    normalizeIr c1Decoded = .ok c1Norm ∧
    desugarFn c1Norm = c1Final ∧
    validateAll (fun _ _ => []) c1Final [] c1Cat [] = .ok ([], []) ∧
    simpleIrDiff c1Ir c1Final = .ok c1Diff ∧
    c1Diff.initialBaseline = c1Diff.initialEdited ∧
    c1Diff.transitionsAdded = [] ∧
    c1Diff.transitionsRemoved = [] ∧
    c1Diff.statesRemoved = ["S|He said \"hi\""] := by
  set_option maxRecDepth 1000000 in decide
